import Mathlib

/-!
# DevWorkspace operator: workload provisioning and finalization

A shallow embedding of `pkg/provision/workspace/deployment.go` and
`controllers/workspace/finalize.go`.

* Go values have value semantics here (slices are lists, structs are records).
* A Go `map[string]string` is an optional association list: `none` is the nil
  map, the list gives the entries in one iteration order.
* A function that can panic returns a `GoResult`; a function that talks to the
  cluster returns its value together with the list of collaborator calls made.
-/

namespace DWO

/-! ## Go runtime -/

/-- Go `error` values: `errors.New` / `fmt.Errorf` without `%w` build an
`errorString`, `fmt.Errorf` with `%w` builds a `wrapError` around its cause.
Errors handed back by collaborators are arbitrary values of this type. -/
inductive GoError where
  | errorString (msg : String)
  | wrapError (msg : String) (cause : GoError)
  deriving DecidableEq, Repr

/-- The `Error()` method. -/
def GoError.Error : GoError → String
  | .errorString m => m
  | .wrapError m _ => m

/-- The chain walked by `errors.Is`: the error itself, or one it wraps. -/
def GoError.Is : GoError → GoError → Bool
  | .errorString m, target => decide (GoError.errorString m = target)
  | .wrapError m c, target => decide (GoError.wrapError m c = target) || GoError.Is c target

/-- Outcome of running Go code that may return `(value, nil)`, return
`(nil, err)` or panic at run time. -/
inductive GoResult (α : Type) where
  | ok (value : α)
  | error (err : GoError)
  | panicked (msg : String)
  deriving DecidableEq, Repr

/-- Sequencing of fallible steps: the first error or panic ends the run. -/
def GoResult.bind {α β : Type} (r : GoResult α) (f : α → GoResult β) : GoResult β :=
  match r with
  | .ok a => f a
  | .error e => .error e
  | .panicked m => .panicked m

/-- A Go `map[string]string`; `none` is the nil map. -/
abbrev GoMap := Option (List (String × String))

/-- Entries visited by `for k, v := range m` (none for a nil map). -/
def GoMap.range (m : GoMap) : List (String × String) :=
  m.getD []

/-- The two-valued lookup `v, present := m[k]`. -/
def GoMap.get? (m : GoMap) (k : String) : Option String :=
  ((GoMap.range m).find? (fun kv => kv.1 == k)).map Prod.snd

/-- Store `k ↦ v` in the entries of a non-nil map: overwrite in place when the
key is present, add a new entry otherwise. -/
def assocSet : List (String × String) → String → String → List (String × String)
  | [], k, v => [(k, v)]
  | (k', v') :: rest, k, v =>
    if k' == k then (k', v) :: rest else (k', v') :: assocSet rest k v

/-- The statement `m[k] = v`: a run-time panic on the nil map. -/
def GoMap.assign (m : GoMap) (k v : String) : GoResult GoMap :=
  match m with
  | none => .panicked "assignment to entry in nil map"
  | some es => .ok (some (assocSet es k v))

/-- Number of entries, `len(m)`. -/
def GoMap.len (m : GoMap) : Nat := (GoMap.range m).length

/-! ## Kubernetes objects (the fields the code reads or writes) -/

structure VolumeMount where
  Name : String
  MountPath : String := ""
  SubPath : String := ""
  deriving DecidableEq, Repr

structure Container where
  Name : String
  Image : String := ""
  VolumeMounts : List VolumeMount := []
  deriving DecidableEq, Repr

structure Volume where
  Name : String
  deriving DecidableEq, Repr

structure LocalObjectReference where
  Name : String
  deriving DecidableEq, Repr

/-- The type `v1alpha1.PodAdditions`: one component's contribution to the
workspace pod. -/
structure PodAdditions where
  Annotations : GoMap := none
  Labels : GoMap := none
  Containers : List Container := []
  InitContainers : List Container := []
  Volumes : List Volume := []
  VolumeMounts : List VolumeMount := []
  PullSecrets : List LocalObjectReference := []
  deriving DecidableEq, Repr

/-! ## `mergePodAdditions` -/

/-- Local state of `mergePodAdditions`: the result under construction and the
five name sets (`map[string]bool`, here the list of names set to `true`). -/
structure MergeState where
  podAdditions : PodAdditions := {}
  containerNames : List String := []
  initContainerNames : List String := []
  volumeNames : List String := []
  volumeMountNames : List String := []
  pullSecretNames : List String := []
  deriving DecidableEq, Repr

/-- Loop `for annotKey, annotVal := range additions.Annotations`. -/
def mergeAnnotations (st : MergeState) : List (String × String) → GoResult MergeState
  | [] => .ok st
  | (k, v) :: rest =>
    (GoMap.assign st.podAdditions.Annotations k v).bind fun m =>
      mergeAnnotations { st with podAdditions := { st.podAdditions with Annotations := m } } rest

/-- Loop `for labelKey, labelVal := range additions.Labels`. -/
def mergeLabels (st : MergeState) : List (String × String) → GoResult MergeState
  | [] => .ok st
  | (k, v) :: rest =>
    (GoMap.assign st.podAdditions.Labels k v).bind fun m =>
      mergeLabels { st with podAdditions := { st.podAdditions with Labels := m } } rest

/-- Loop `for _, container := range additions.Containers`. -/
def mergeContainers (st : MergeState) : List Container → GoResult MergeState
  | [] => .ok st
  | c :: rest =>
    if st.containerNames.contains c.Name then
      .error (.errorString ("duplicate containers in the workspace definition: " ++ c.Name))
    else
      mergeContainers
        { st with
          containerNames := c.Name :: st.containerNames
          podAdditions := { st.podAdditions with Containers := st.podAdditions.Containers ++ [c] } }
        rest

/-- Loop `for _, container := range additions.InitContainers`. -/
def mergeInitContainers (st : MergeState) : List Container → GoResult MergeState
  | [] => .ok st
  | c :: rest =>
    if st.initContainerNames.contains c.Name then
      .error (.errorString ("duplicate init containers in the workspace definition: " ++ c.Name))
    else
      mergeInitContainers
        { st with
          initContainerNames := c.Name :: st.initContainerNames
          podAdditions :=
            { st.podAdditions with InitContainers := st.podAdditions.InitContainers ++ [c] } }
        rest

/-- Loop `for _, volume := range additions.Volumes`. -/
def mergeVolumes (st : MergeState) : List Volume → GoResult MergeState
  | [] => .ok st
  | v :: rest =>
    if st.volumeNames.contains v.Name then
      .error (.errorString ("duplicate volumes in the workspace definition: " ++ v.Name))
    else
      mergeVolumes
        { st with
          volumeNames := v.Name :: st.volumeNames
          podAdditions := { st.podAdditions with Volumes := st.podAdditions.Volumes ++ [v] } }
        rest

/-- Loop `for _, volumeMount := range additions.VolumeMounts`. -/
def mergeVolumeMounts (st : MergeState) : List VolumeMount → GoResult MergeState
  | [] => .ok st
  | vm :: rest =>
    if st.volumeMountNames.contains vm.Name then
      .error (.errorString ("duplicated volumeMounts in workspace definition: " ++ vm.Name))
    else
      mergeVolumeMounts
        { st with
          volumeMountNames := vm.Name :: st.volumeMountNames
          podAdditions :=
            { st.podAdditions with VolumeMounts := st.podAdditions.VolumeMounts ++ [vm] } }
        rest

/-- Loop `for _, pullSecret := range additions.PullSecrets`; a name already
seen is skipped (`continue`). -/
def mergePullSecrets (st : MergeState) : List LocalObjectReference → MergeState
  | [] => st
  | ps :: rest =>
    if st.pullSecretNames.contains ps.Name then
      mergePullSecrets st rest
    else
      mergePullSecrets
        { st with
          pullSecretNames := ps.Name :: st.pullSecretNames
          podAdditions :=
            { st.podAdditions with PullSecrets := st.podAdditions.PullSecrets ++ [ps] } }
        rest

/-- Body of the outer loop of `mergePodAdditions` for one fragment. -/
def mergeOne (st : MergeState) (additions : PodAdditions) : GoResult MergeState :=
  (mergeAnnotations st (GoMap.range additions.Annotations)).bind fun st1 =>
  (mergeLabels st1 (GoMap.range additions.Labels)).bind fun st2 =>
  (mergeContainers st2 additions.Containers).bind fun st3 =>
  (mergeInitContainers st3 additions.InitContainers).bind fun st4 =>
  (mergeVolumes st4 additions.Volumes).bind fun st5 =>
  (mergeVolumeMounts st5 additions.VolumeMounts).bind fun st6 =>
  .ok (mergePullSecrets st6 additions.PullSecrets)

/-- Outer loop `for _, additions := range toMerge`. -/
def mergeLoop (st : MergeState) : List PodAdditions → GoResult MergeState
  | [] => .ok st
  | additions :: rest => (mergeOne st additions).bind fun st1 => mergeLoop st1 rest

/-- The function `mergePodAdditions`. The result starts as the zero value
`&v1alpha1.PodAdditions{}`, whose `Annotations` and `Labels` maps are nil. -/
def mergePodAdditions (toMerge : List PodAdditions) : GoResult PodAdditions :=
  (mergeLoop {} toMerge).bind fun st => .ok st.podAdditions

/-! ## Workspace, configuration and the workload descriptor -/

/-- Names from `pkg/constants` used by the two files. -/
structure Constants where
  DevWorkspaceIDLabel : String
  DevWorkspaceNameLabel : String
  DevWorkspaceCreatorLabel : String
  DevWorkspaceRestrictedAccessAnnotation : String
  RuntimeClassNameAttribute : String
  CheCommonPVCName : String
  StorageCleanupFinalizer : String
  ServiceAccountCleanupFinalizer : String
  deriving DecidableEq, Repr

structure PodSecurityContext where
  RunAsUser : Option Int := none
  RunAsGroup : Option Int := none
  RunAsNonRoot : Option Bool := none
  FSGroup : Option Int := none
  deriving DecidableEq, Repr

/-- Process-wide settings and helpers the code reads: `config.Workspace`,
`infrastructure.IsOpenShift()`, `common.DeploymentName` and
`common.ServingCertVolumeName ∘ common.ServiceName`. -/
structure Env where
  constants : Constants
  PVCName : String
  IgnoredUnrecoverableEvents : List String
  PodSecurityContext : Option PodSecurityContext
  IsOpenShift : Bool
  DeploymentName : String → String
  ServingCertVolumeName : String → String

/-- Per-component annotations (`component.Container.Annotation`). -/
structure Annotation where
  Deployment : GoMap := none
  deriving DecidableEq, Repr

structure ContainerComponent where
  Annotation : Option Annotation := none
  deriving DecidableEq, Repr

structure Component where
  Name : String := ""
  Container : Option ContainerComponent := none
  deriving DecidableEq, Repr

/-- Workspace phases the two files name. -/
inductive DevWorkspacePhase where
  | Starting
  | Running
  | Stopped
  | Failed
  | Error
  | Terminating
  deriving DecidableEq, Repr

structure DevWorkspaceCondition where
  CondType : String
  Status : Bool
  Message : String
  deriving DecidableEq, Repr

structure DevWorkspaceStatus where
  DevWorkspaceId : String := ""
  Phase : DevWorkspacePhase := .Starting
  Message : String := ""
  Conditions : List DevWorkspaceCondition := []
  deriving DecidableEq, Repr

/-- The fields of `dw.DevWorkspace` that are read or written. `Attributes`
holds the string value of each template attribute (`GetString` gives `""` for
an attribute that is not a string). -/
structure DevWorkspace where
  Name : String := ""
  Namespace : String := ""
  Labels : GoMap := none
  Annotations : GoMap := none
  Finalizers : List String := []
  Components : List Component := []
  Attributes : GoMap := none
  Status : DevWorkspaceStatus := {}
  deriving DecidableEq, Repr

structure Toleration where
  Key : String := ""
  Operator : String := ""
  Value : String := ""
  Effect : String := ""
  deriving DecidableEq, Repr

structure PodSpec where
  InitContainers : List Container := []
  Containers : List Container := []
  ImagePullSecrets : List LocalObjectReference := []
  Volumes : List Volume := []
  RestartPolicy : String := ""
  TerminationGracePeriodSeconds : Option Int := none
  SecurityContext : Option PodSecurityContext := none
  ServiceAccountName : String := ""
  AutomountServiceAccountToken : Option Bool := none
  Tolerations : List Toleration := []
  NodeSelector : GoMap := none
  RuntimeClassName : Option String := none
  deriving DecidableEq, Repr

structure PodTemplateSpec where
  Name : String := ""
  Namespace : String := ""
  Labels : GoMap := none
  Annotations : GoMap := none
  Spec : PodSpec := {}
  deriving DecidableEq, Repr

structure DeploymentCondition where
  Reason : String := ""
  Message : String := ""
  deriving DecidableEq, Repr

structure DeploymentStatus where
  ReadyReplicas : Int := 0
  Conditions : List DeploymentCondition := []
  deriving DecidableEq, Repr

/-- Controller owner reference written by `controllerutil.SetControllerReference`. -/
structure OwnerReference where
  Name : String
  Controller : Bool
  deriving DecidableEq, Repr

/-- The fields of `appsv1.Deployment` that are read or written. -/
structure Deployment where
  Name : String := ""
  Namespace : String := ""
  Labels : GoMap := none
  Annotations : GoMap := none
  OwnerReferences : List OwnerReference := []
  Replicas : Option Int := none
  MatchLabels : GoMap := none
  StrategyType : String := ""
  Template : PodTemplateSpec := {}
  Status : DeploymentStatus := {}
  deriving DecidableEq, Repr

/-! ## `getSpecDeployment` and its helpers -/

/-- The function `GetDevWorkspaceSecurityContext`. -/
def GetDevWorkspaceSecurityContext (env : Env) : Option PodSecurityContext :=
  if env.IsOpenShift then some {} else env.PodSecurityContext

/-- The function `getWorkspaceSubpathVolumeMount`. -/
def getWorkspaceSubpathVolumeMount (workspaceId pvcName : String) : VolumeMount :=
  { Name := pvcName, MountPath := "/tmp/workspace-storage", SubPath := workspaceId }

/-- Loop of `needsPVCWorkaround` over the merged volumes. -/
def needsPVCWorkaroundLoop (commonPVCName cheCommonPVCName : String) :
    List Volume → Bool × String
  | [] => (false, "")
  | vol :: rest =>
    if vol.Name == commonPVCName then (true, commonPVCName)
    else if vol.Name == cheCommonPVCName then (true, cheCommonPVCName)
    else needsPVCWorkaroundLoop commonPVCName cheCommonPVCName rest

/-- The function `needsPVCWorkaround`. -/
def needsPVCWorkaround (env : Env) (podAdditions : PodAdditions) : Bool × String :=
  needsPVCWorkaroundLoop env.PVCName env.constants.CheCommonPVCName podAdditions.Volumes

/-- Inner loop of `getAdditionalAnnotations` over one component's
deployment-annotation map; `annotations` is the non-nil accumulator. -/
def addDeploymentAnnotations (annotations : List (String × String)) :
    List (String × String) → GoResult (List (String × String))
  | [] => .ok annotations
  | (k, v) :: rest =>
    match GoMap.get? (some annotations) k with
    | some currValue =>
      if v != currValue then
        .error (.errorString
          ("conflicting annotations found on container components for key " ++ k))
      else addDeploymentAnnotations (assocSet annotations k v) rest
    | none => addDeploymentAnnotations (assocSet annotations k v) rest

/-- The deployment-annotation map of a component, or `none` when the component
is skipped by the `continue` of `getAdditionalAnnotations`. -/
def Component.deploymentAnnotations (component : Component) : GoMap :=
  match component.Container with
  | none => none
  | some c =>
    match c.Annotation with
    | none => none
    | some a => a.Deployment

/-- Outer loop of `getAdditionalAnnotations` over the components. -/
def getAdditionalAnnotationsLoop (annotations : List (String × String)) :
    List Component → GoResult (List (String × String))
  | [] => .ok annotations
  | component :: rest =>
    match component.deploymentAnnotations with
    | none => getAdditionalAnnotationsLoop annotations rest
    | some entries =>
      (addDeploymentAnnotations annotations entries).bind fun annotations1 =>
        getAdditionalAnnotationsLoop annotations1 rest

/-- The function `getAdditionalAnnotations`. -/
def getAdditionalAnnotations (workspace : DevWorkspace) : GoResult GoMap :=
  (getAdditionalAnnotationsLoop [] workspace.Components).bind fun annotations =>
    .ok (some annotations)

/-- Modelled from the spec: `maputils.Append` (package `internal/map`, not among
the sources), which the code uses to "propagate a restricted-access annotation,
if present on the workspace, onto both descriptor and pod-template
annotations": the key is stored in the target map, a nil target becoming a
fresh map. -/
def maputilsAppend (target : GoMap) (key value : String) : GoMap :=
  some (assocSet (GoMap.range target) key value)

/-- Loops `for idx := range podAdditions.Containers` (and `InitContainers`):
every container gets the fragment-level mounts appended to its own. -/
def appendSharedMounts (shared : List VolumeMount) (cs : List Container) : List Container :=
  cs.map fun c => { c with VolumeMounts := c.VolumeMounts ++ shared }

/-- Prepend the workspace sub-path mount to a container's mounts. -/
def prependMount (vm : VolumeMount) (c : Container) : Container :=
  { c with VolumeMounts := vm :: c.VolumeMounts }

/-- The volume-permission workaround of `getSpecDeployment`: the mount goes on
`InitContainers[0]` when there is an init container, else on `Containers[0]`,
an index expression that panics on an empty slice. -/
def applyPVCWorkaround (vm : VolumeMount) (spec : PodSpec) : GoResult PodSpec :=
  match spec.InitContainers with
  | ic :: ics => .ok { spec with InitContainers := prependMount vm ic :: ics }
  | [] =>
    match spec.Containers with
    | c :: cs => .ok { spec with Containers := prependMount vm c :: cs }
    | [] => .panicked "index out of range [0] with length 0"

/-- The reference `controllerutil.SetControllerReference(workspace, deployment,
scheme)`: `scheme` tells whether the call fails. -/
abbrev Scheme := DevWorkspace → Deployment → Option GoError

/-- The `corev1.PodSpec` literal of `getSpecDeployment`. -/
def basePodSpec (env : Env) (podAdditions : PodAdditions) (saName : String) : PodSpec :=
  { InitContainers := podAdditions.InitContainers
    Containers := podAdditions.Containers
    ImagePullSecrets := podAdditions.PullSecrets
    Volumes := podAdditions.Volumes
    RestartPolicy := "Always"
    TerminationGracePeriodSeconds := some 10
    SecurityContext := GetDevWorkspaceSecurityContext env
    ServiceAccountName := saName
    AutomountServiceAccountToken := none }

/-- The three optional settings of `getSpecDeployment`: tolerations, node
selector and runtime class. -/
def setScheduling (consts : Constants) (workspace : DevWorkspace)
    (podTolerations : List Toleration) (nodeSelector : GoMap) (spec : PodSpec) : PodSpec :=
  let spec1 : PodSpec :=
    if podTolerations.length > 0 then { spec with Tolerations := podTolerations } else spec
  let spec2 : PodSpec :=
    if GoMap.len nodeSelector > 0 then { spec1 with NodeSelector := nodeSelector } else spec1
  match GoMap.get? workspace.Attributes consts.RuntimeClassNameAttribute with
  | some runtimeClassName =>
    if runtimeClassName != "" then { spec2 with RuntimeClassName := some runtimeClassName }
    else spec2
  | none => spec2

/-- The `appsv1.Deployment` literal of `getSpecDeployment`, given its labels,
annotations, pod template labels and pod spec. -/
def baseDeployment (env : Env) (workspace : DevWorkspace) (labels annotations : GoMap)
    (templateLabels : GoMap) (spec : PodSpec) : Deployment :=
  { Name := env.DeploymentName workspace.Status.DevWorkspaceId
    Namespace := workspace.Namespace
    Labels := labels
    Annotations := annotations
    Replicas := some 1
    MatchLabels :=
      some [(env.constants.DevWorkspaceIDLabel, workspace.Status.DevWorkspaceId)]
    StrategyType := "Recreate"
    Template :=
      { Name := workspace.Status.DevWorkspaceId
        Namespace := workspace.Namespace
        Labels := templateLabels
        Spec := spec } }

/-- The two assignments of the creator label, on the deployment and on its pod
template. -/
def setCreatorLabel (consts : Constants) (workspaceCreator : String)
    (deployment : Deployment) : GoResult Deployment :=
  (GoMap.assign deployment.Labels consts.DevWorkspaceCreatorLabel workspaceCreator).bind
    fun labels =>
  (GoMap.assign deployment.Template.Labels consts.DevWorkspaceCreatorLabel
    workspaceCreator).bind fun templateLabels =>
  .ok { deployment with
        Labels := labels
        Template := { deployment.Template with Labels := templateLabels } }

/-- Propagation of the restricted-access annotation of the workspace. -/
def setRestrictedAccess (consts : Constants) (workspace : DevWorkspace)
    (deployment : Deployment) : Deployment :=
  match GoMap.get? workspace.Annotations consts.DevWorkspaceRestrictedAccessAnnotation with
  | some restrictedAccess =>
    { deployment with
      Annotations :=
        maputilsAppend deployment.Annotations
          consts.DevWorkspaceRestrictedAccessAnnotation restrictedAccess
      Template :=
        { deployment.Template with
          Annotations :=
            maputilsAppend deployment.Template.Annotations
              consts.DevWorkspaceRestrictedAccessAnnotation restrictedAccess } }
  | none => deployment

/-- The call `controllerutil.SetControllerReference(workspace, deployment,
scheme)` and the final `return deployment, nil`. -/
def setControllerReference (scheme : Scheme) (workspace : DevWorkspace)
    (deployment : Deployment) : GoResult Deployment :=
  match scheme workspace deployment with
  | some err => .error err
  | none =>
    .ok { deployment with
          OwnerReferences :=
            deployment.OwnerReferences ++ [{ Name := workspace.Name, Controller := true }] }

/-- The two-entry label map built twice by `getSpecDeployment`. -/
def workspaceLabels (consts : Constants) (workspace : DevWorkspace) : GoResult GoMap :=
  (GoMap.assign (some []) consts.DevWorkspaceIDLabel workspace.Status.DevWorkspaceId).bind
    fun labels => GoMap.assign labels consts.DevWorkspaceNameLabel workspace.Name

/-- The function `getSpecDeployment`. -/
def getSpecDeployment (env : Env) (workspace : DevWorkspace)
    (podAdditionsList : List PodAdditions) (saName : String)
    (podTolerations : List Toleration) (nodeSelector : GoMap) (scheme : Scheme) :
    GoResult Deployment :=
  let consts := env.constants
  (mergePodAdditions podAdditionsList).bind fun merged =>
  let podAdditions : PodAdditions :=
    { merged with
      Containers := appendSharedMounts merged.VolumeMounts merged.Containers
      InitContainers := appendSharedMounts merged.VolumeMounts merged.InitContainers }
  (workspaceLabels consts workspace).bind fun labels =>
  -- `annotations, err := getAdditionalAnnotations(workspace)`: `err` is not
  -- inspected before it is overwritten by `SetControllerReference`
  let annotations : GoMap :=
    match getAdditionalAnnotations workspace with
    | .ok m => m
    | _ => none
  (workspaceLabels consts workspace).bind fun templateLabels =>
  let spec : PodSpec :=
    setScheduling consts workspace podTolerations nodeSelector
      (basePodSpec env podAdditions saName)
  let pvc := needsPVCWorkaround env podAdditions
  (if pvc.1 then
      applyPVCWorkaround
        (getWorkspaceSubpathVolumeMount workspace.Status.DevWorkspaceId pvc.2) spec
    else .ok spec).bind fun spec1 =>
  let deployment := baseDeployment env workspace labels annotations templateLabels spec1
  match GoMap.get? workspace.Labels consts.DevWorkspaceCreatorLabel with
  | none =>
    .error (.errorString
      "workspace must have creator specified to be run. Recreate it to fix an issue")
  | some workspaceCreator =>
    (setCreatorLabel consts workspaceCreator deployment).bind fun deployment1 =>
    setControllerReference scheme workspace (setRestrictedAccess consts workspace deployment1)

/-! ## Health evaluation -/

/-- The table `containerFailureStateReasons`. -/
def containerFailureStateReasons : List String :=
  ["CrashLoopBackOff", "ImagePullBackOff", "CreateContainerError", "RunContainerError"]

/-- The table `unrecoverablePodEventReasons`: event reason to the number of
occurrences (`int32`) from which the event is unrecoverable. -/
def unrecoverablePodEventReasons : List (String × Int) :=
  [("FailedPostStartHook", 1), ("FailedMount", 3), ("FailedScheduling", 1),
   ("FailedCreate", 1), ("ReplicaSetCreateError", 1)]

/-- The table `unrecoverableDeploymentConditionReasons`. -/
def unrecoverableDeploymentConditionReasons : List String :=
  ["FailedCreate"]

structure ContainerStateWaiting where
  Reason : String := ""
  Message : String := ""
  deriving DecidableEq, Repr

/-- A `corev1.ContainerStatus`; `Waiting` is the pointer `State.Waiting`. -/
structure ContainerStatus where
  Name : String
  Waiting : Option ContainerStateWaiting := none
  deriving DecidableEq, Repr

structure Pod where
  Name : String := ""
  Namespace : String := ""
  ContainerStatuses : List ContainerStatus := []
  InitContainerStatuses : List ContainerStatus := []
  deriving DecidableEq, Repr

/-- A `corev1.Event`; `Kind` is `InvolvedObject.Kind`, `Count` an `int32`. -/
structure Event where
  Kind : String := ""
  Reason : String := ""
  Message : String := ""
  Count : Int := 0
  deriving DecidableEq, Repr

/-- Result of `sync.SyncObjectWithCluster` as told apart by the type switch of
`SyncDeploymentToCluster`: nil error with the cluster object, `NotInSyncError`,
`UnrecoverableSyncError` with its `Cause`, any other error. -/
inductive SyncResult where
  | synced (clusterObj : Deployment)
  | notInSync
  | unrecoverable (cause : Option GoError)
  | other (err : GoError)
  deriving DecidableEq, Repr

/-- Result of `CleanupWorkspaceStorage` as told apart by the type switch of
`finalizeStorage`. -/
inductive CleanupResult where
  | done
  | notReady (message : String) (requeueAfter : Nat)
  | provisioningError (err : GoError)
  | other (err : GoError)
  deriving DecidableEq, Repr

/-- Calls to collaborators (cluster API, provisioners) and entries into the
reconciler's own finalization methods, in the order they happen. -/
inductive Call where
  | GetNamespacePodTolerationsAndNodeSelector (ns : String)
  | SyncObjectWithCluster (specDeployment : Deployment)
  | ListPods (ns workspaceId : String)
  | ListEvents (ns selector : String)
  | DeleteDeployment (ns name : String)
  | StatusUpdate (workspace : DevWorkspace)
  | Update (workspace : DevWorkspace)
  | GetNamespace (name : String)
  | GetProvisioner (workspace : DevWorkspace)
  | CleanupWorkspaceStorage (workspace : DevWorkspace)
  | FinalizeServiceAccount (workspace : DevWorkspace)
  | updateWorkspaceStatus (workspace : DevWorkspace) (message : String)
  | finalizeStorage
  | finalizeServiceAccount
  deriving DecidableEq, Repr

/-- Behaviour of the collaborators of `SyncDeploymentToCluster` during one
invocation. `ListEvents` also receives the number of event listings made
before, so that two listings may answer differently. -/
structure ClusterAPI where
  GetNamespacePodTolerationsAndNodeSelector : String → Except GoError (List Toleration × GoMap)
  Scheme : Scheme
  SyncObjectWithCluster : Deployment → SyncResult
  ListPods : String → String → Except GoError (List Pod)
  ParseSelector : String → Option GoError
  ListEvents : Nat → String → String → Except GoError (List Event)

/-- The struct `ProvisioningStatus` (declared next to `deployment.go`). -/
structure ProvisioningStatus where
  Continue : Bool := false
  Requeue : Bool := false
  FailStartup : Bool := false
  Err : Option GoError := none
  Message : String := ""
  deriving DecidableEq, Repr

/-- The struct `DeploymentProvisioningStatus`, which embeds `ProvisioningStatus`. -/
structure DeploymentProvisioningStatus extends ProvisioningStatus where
  deriving DecidableEq, Repr

/-- The function `checkIfUnrecoverableEventIgnored`. -/
def checkIfUnrecoverableEventIgnored (env : Env) (reason : String) : Bool :=
  env.IgnoredUnrecoverableEvents.any fun ignoredReason => ignoredReason == reason

/-- The function `checkContainerStatusForFailure`. -/
def checkContainerStatusForFailure (env : Env) (containerStatus : ContainerStatus) : Bool :=
  match containerStatus.Waiting with
  | some waiting =>
    if containerFailureStateReasons.any (fun failureReason => waiting.Reason == failureReason)
    then checkIfUnrecoverableEventIgnored env waiting.Reason
    else true
  | none => true

/-- The function `checkDeploymentStatus`. -/
def checkDeploymentStatus (deployment : Deployment) : Bool :=
  decide (deployment.Status.ReadyReplicas > 0)

/-- Loop of `checkDeploymentConditions`. -/
def checkDeploymentConditionsLoop : List DeploymentCondition → Bool × String
  | [] => (true, "")
  | condition :: rest =>
    if unrecoverableDeploymentConditionReasons.any
        (fun unrecoverableReason => condition.Reason == unrecoverableReason) then
      (false, "Detected unrecoverable deployment condition: " ++ condition.Reason ++ " " ++
        condition.Message)
    else checkDeploymentConditionsLoop rest

/-- The function `checkDeploymentConditions`. -/
def checkDeploymentConditions (deployment : Deployment) : Bool × String :=
  checkDeploymentConditionsLoop deployment.Status.Conditions

/-- The test `strings.Contains(s, substr)`. -/
def stringsContains (s substr : String) : Bool :=
  decide (substr.toList <:+: s.toList)

/-- The `FailedMount` event on the serving-certificate volume that
`checkPodEvents` skips on OpenShift. -/
def suppressedEvent (env : Env) (workspaceID : String) (ev : Event) : Bool :=
  env.IsOpenShift && ev.Reason == "FailedMount" &&
    stringsContains ev.Message (env.ServingCertVolumeName workspaceID)

/-- The message built by `checkPodEvents` for a decisive event. -/
def eventFailureMessage (ev : Event) : String :=
  if ev.Count > 1 then
    "Detected unrecoverable event " ++ ev.Reason ++ " " ++ toString ev.Count ++ " times: " ++
      ev.Message
  else
    "Detected unrecoverable event " ++ ev.Reason ++ ": " ++ ev.Message

/-- Loop of `checkPodEvents` over the listed events. -/
def checkPodEventsLoop (env : Env) (workspaceID : String) : List Event → String
  | [] => ""
  | ev :: rest =>
    if ev.Kind != "Pod" then checkPodEventsLoop env workspaceID rest
    else if suppressedEvent env workspaceID ev then checkPodEventsLoop env workspaceID rest
    else
      match unrecoverablePodEventReasons.lookup ev.Reason with
      | some maxCount =>
        if !checkIfUnrecoverableEventIgnored env ev.Reason && decide (ev.Count ≥ maxCount) then
          eventFailureMessage ev
        else checkPodEventsLoop env workspaceID rest
      | none => checkPodEventsLoop env workspaceID rest

/-- The function `checkPodEvents`: `(msg, err)` and the calls made. `call` is
the number of event listings made before this one. -/
def checkPodEvents (env : Env) (api : ClusterAPI) (call : Nat) (pod : Pod)
    (workspaceID : String) : (String × Option GoError) × List Call :=
  let selector := "involvedObject.name=" ++ pod.Name
  match api.ParseSelector selector with
  | some err =>
    (("", some (.errorString ("failed to parse field selector: " ++ err.Error))), [])
  | none =>
    match api.ListEvents call pod.Namespace selector with
    | .error err =>
      (("", some (.wrapError
          ("failed to list events in namespace " ++ pod.Namespace ++ ": " ++ err.Error) err)),
        [.ListEvents pod.Namespace selector])
    | .ok evs =>
      ((checkPodEventsLoop env workspaceID evs, none), [.ListEvents pod.Namespace selector])

/-- The reason printed for a failed status, `containerStatus.State.Waiting.Reason`
(a failed status always has `Waiting` set). -/
def ContainerStatus.waitingReason (containerStatus : ContainerStatus) : String :=
  match containerStatus.Waiting with
  | some waiting => waiting.Reason
  | none => ""

/-- Loop of `checkPodsState` over the listed pods. -/
def checkPodsStateLoop (env : Env) (api : ClusterAPI) (workspaceID : String) :
    Nat → List Pod → (String × Option GoError) × List Call
  | _, [] => (("", none), [])
  | call, pod :: rest =>
    match pod.ContainerStatuses.find? (fun cs => !checkContainerStatusForFailure env cs) with
    | some containerStatus =>
      (("Container " ++ containerStatus.Name ++ " has state " ++ containerStatus.waitingReason,
        none), [])
    | none =>
      match pod.InitContainerStatuses.find?
          (fun cs => !checkContainerStatusForFailure env cs) with
      | some initContainerStatus =>
        (("Init Container " ++ initContainerStatus.Name ++ " has state " ++
          initContainerStatus.waitingReason, none), [])
      | none =>
        let r := checkPodEvents env api call pod workspaceID
        if r.1.2.isSome || r.1.1 != "" then r
        else
          let r1 := checkPodsStateLoop env api workspaceID (call + 1) rest
          (r1.1, r.2 ++ r1.2)

/-- The function `checkPodsState` (with `getPods` inlined). -/
def checkPodsState (env : Env) (workspace : DevWorkspace) (api : ClusterAPI) :
    (String × Option GoError) × List Call :=
  let listing := Call.ListPods workspace.Namespace workspace.Status.DevWorkspaceId
  match api.ListPods workspace.Namespace workspace.Status.DevWorkspaceId with
  | .error err => (("", some err), [listing])
  | .ok pods =>
    let r := checkPodsStateLoop env api workspace.Status.DevWorkspaceId 0 pods
    (r.1, listing :: r.2)

/-- The end of `SyncDeploymentToCluster`: the status returned for the
`(failureMsg, checkErr)` of `checkPodsState`. -/
def podsStateStatus (failureMsg : String) (checkErr : Option GoError) :
    DeploymentProvisioningStatus :=
  match checkErr with
  | some err => { Err := some err }
  | none =>
    if failureMsg != "" then { FailStartup := true, Message := failureMsg }
    else {}

/-- The function `SyncDeploymentToCluster`: the returned status (or the panic
that ended the call) and the collaborator calls made. -/
def SyncDeploymentToCluster (env : Env) (workspace : DevWorkspace)
    (podAdditions : List PodAdditions) (saName : String) (api : ClusterAPI) :
    GoResult DeploymentProvisioningStatus × List Call :=
  let c1 := Call.GetNamespacePodTolerationsAndNodeSelector workspace.Namespace
  match api.GetNamespacePodTolerationsAndNodeSelector workspace.Namespace with
  | .error err =>
    (.ok { Message := "failed to read pod tolerations and node selector from namespace"
           Err := some err
           FailStartup := true }, [c1])
  | .ok (podTolerations, nodeSelector) =>
    match getSpecDeployment env workspace podAdditions saName podTolerations nodeSelector
        api.Scheme with
    | .panicked msg => (.panicked msg, [c1])
    | .error err => (.ok { Err := some err, FailStartup := true }, [c1])
    | .ok specDeployment =>
      if specDeployment.Template.Spec.Containers.length == 0 then
        (.ok { Continue := true }, [c1])
      else
        let c2 := Call.SyncObjectWithCluster specDeployment
        match api.SyncObjectWithCluster specDeployment with
        | .notInSync => (.ok { Requeue := true }, [c1, c2])
        | .unrecoverable cause => (.ok { FailStartup := true, Err := cause }, [c1, c2])
        | .other err => (.ok { Err := some err }, [c1, c2])
        | .synced clusterDeployment =>
          if checkDeploymentStatus clusterDeployment then
            (.ok { Continue := true }, [c1, c2])
          else
            let conditions := checkDeploymentConditions clusterDeployment
            if !conditions.1 then
              (.ok { FailStartup := true, Message := conditions.2 }, [c1, c2])
            else
              let r := checkPodsState env workspace api
              (.ok (podsStateStatus r.1.1 r.1.2), c1 :: c2 :: r.2)

/-! ## Finalization (`finalize.go`) -/

/-- The struct `reconcile.Result`; `RequeueAfter` is a duration. -/
structure ReconcileResult where
  Requeue : Bool := false
  RequeueAfter : Nat := 0
  deriving DecidableEq, Repr

/-- Behaviour of the cluster client during one invocation, with the two error
classifiers of `k8sErrors`. `GetNamespace` gives the namespace's
`Status.Phase`. An update leaves the fields of the in-memory object that the
code reads afterwards as they are. -/
structure Client where
  IsNotFound : GoError → Bool
  IsConflict : GoError → Bool
  Delete : String → String → Option GoError
  StatusUpdate : DevWorkspace → Option GoError
  Update : DevWorkspace → Option GoError
  GetNamespace : String → Except GoError String

/-- The reconciler with its collaborators: the client, the storage
provisioner (`storage.GetProvisioner` and its `CleanupWorkspaceStorage`), the
service-account finalizer (`wsprovision.FinalizeServiceAccount`) and the pair
returned by the reconciler's `updateWorkspaceStatus`. -/
structure DevWorkspaceReconciler where
  constants : Constants
  DeploymentName : String → String
  Client : Client
  GetProvisioner : DevWorkspace → Except GoError (DevWorkspace → CleanupResult)
  FinalizeServiceAccount : DevWorkspace → Bool × Option GoError
  updateWorkspaceStatusResult : DevWorkspace → ReconcileResult × Option GoError

/-- What one finalization method leaves behind: the returned
`(reconcile.Result, error)`, the workspace object as mutated in memory, and
the calls made. -/
structure FinalizeRun where
  result : ReconcileResult := {}
  err : Option GoError := none
  workspace : DevWorkspace
  calls : List Call := []
  deriving DecidableEq, Repr

/-- The method `workspaceNeedsFinalize`. -/
def workspaceNeedsFinalize (constants : Constants) (workspace : DevWorkspace) : Bool :=
  workspace.Finalizers.any fun finalizer =>
    finalizer == constants.StorageCleanupFinalizer ||
      finalizer == constants.ServiceAccountCleanupFinalizer

/-- The function `DeleteWorkspaceDeployment` of `deployment.go`: `(wait, err)`
and the call made. -/
def DeleteWorkspaceDeployment (deploymentName : String → String) (workspace : DevWorkspace)
    (client : Client) : (Bool × Option GoError) × List Call :=
  let name := deploymentName workspace.Status.DevWorkspaceId
  let call := Call.DeleteDeployment workspace.Namespace name
  match client.Delete workspace.Namespace name with
  | some err =>
    if client.IsNotFound err then ((false, none), [call]) else ((false, some err), [call])
  | none => ((true, none), [call])

/-- The method `namespaceIsTerminating`. -/
def namespaceIsTerminating (r : DevWorkspaceReconciler) (ns : String) :
    (Bool × Option GoError) × List Call :=
  match r.Client.GetNamespace ns with
  | .error err => ((false, some err), [.GetNamespace ns])
  | .ok phase => ((phase == "Terminating", none), [.GetNamespace ns])

/-- The helper `coputil.RemoveFinalizer`: every occurrence of the finalizer
is dropped from the object's list. -/
def RemoveFinalizer (workspace : DevWorkspace) (finalizer : String) : DevWorkspace :=
  { workspace with Finalizers := workspace.Finalizers.filter fun f => f != finalizer }

/-- Modelled from the spec: the reconciler method `updateWorkspaceStatus`
(declared outside the two sources) called with a failed status, "fail-workspace
with the error message": the workspace "moves to an Error phase with a
human-readable condition". The returned pair is the collaborator's. -/
def updateWorkspaceStatusFailed (r : DevWorkspaceReconciler) (workspace : DevWorkspace)
    (message : String) (calls : List Call) : FinalizeRun :=
  let failed : DevWorkspace :=
    { workspace with
      Status :=
        { workspace.Status with
          Phase := .Error
          Message := message
          Conditions :=
            workspace.Status.Conditions ++
              [{ CondType := "Error", Status := true, Message := message }] } }
  { result := (r.updateWorkspaceStatusResult failed).1
    err := (r.updateWorkspaceStatusResult failed).2
    workspace := failed
    calls := calls ++ [.updateWorkspaceStatus workspace message] }

/-- The method `finalizeStorage`. -/
def finalizeStorage (r : DevWorkspaceReconciler) (workspace : DevWorkspace) : FinalizeRun :=
  let del := DeleteWorkspaceDeployment r.DeploymentName workspace r.Client
  let calls1 := Call.finalizeStorage :: del.2
  match del.1.2 with
  | some err => { err := some err, workspace := workspace, calls := calls1 }
  | none =>
    if del.1.1 then
      { result := { Requeue := true }, workspace := workspace, calls := calls1 }
    else
      let nsCheck := namespaceIsTerminating r workspace.Namespace
      let calls2 := calls1 ++ nsCheck.2
      match nsCheck.1.2 with
      | some err => { err := some err, workspace := workspace, calls := calls2 }
      | none =>
        if nsCheck.1.1 then
          let cleared := RemoveFinalizer workspace r.constants.StorageCleanupFinalizer
          { err := r.Client.Update cleared, workspace := cleared
            calls := calls2 ++ [.Update cleared] }
        else
          let calls3 := calls2 ++ [.GetProvisioner workspace]
          match r.GetProvisioner workspace with
          | .error err => updateWorkspaceStatusFailed r workspace err.Error calls3
          | .ok storageProvisioner =>
            let calls4 := calls3 ++ [.CleanupWorkspaceStorage workspace]
            match storageProvisioner workspace with
            | .notReady _ requeueAfter =>
              { result := { RequeueAfter := requeueAfter }, workspace := workspace
                calls := calls4 }
            | .provisioningError storageErr =>
              updateWorkspaceStatusFailed r workspace storageErr.Error calls4
            | .other storageErr =>
              { err := some storageErr, workspace := workspace, calls := calls4 }
            | .done =>
              let cleared := RemoveFinalizer workspace r.constants.StorageCleanupFinalizer
              { err := r.Client.Update cleared, workspace := cleared
                calls := calls4 ++ [.Update cleared] }

/-- The method `finalizeServiceAccount`. -/
def finalizeServiceAccount (r : DevWorkspaceReconciler) (workspace : DevWorkspace) :
    FinalizeRun :=
  let calls1 := [Call.finalizeServiceAccount, Call.FinalizeServiceAccount workspace]
  match (r.FinalizeServiceAccount workspace).2 with
  | some err => updateWorkspaceStatusFailed r workspace err.Error calls1
  | none =>
    if (r.FinalizeServiceAccount workspace).1 then
      { result := { Requeue := true }, workspace := workspace, calls := calls1 }
    else
      let cleared := RemoveFinalizer workspace r.constants.ServiceAccountCleanupFinalizer
      { err := r.Client.Update cleared, workspace := cleared
        calls := calls1 ++ [.Update cleared] }

/-- Loop `for _, finalizer := range workspace.Finalizers` of `finalize` with its
`switch`: the first case that matches returns. -/
def finalizeLoop (r : DevWorkspaceReconciler) (workspace : DevWorkspace) :
    List String → FinalizeRun
  | [] => { workspace := workspace }
  | finalizer :: rest =>
    if finalizer == r.constants.StorageCleanupFinalizer then finalizeStorage r workspace
    else if finalizer == r.constants.ServiceAccountCleanupFinalizer then
      finalizeServiceAccount r workspace
    else finalizeLoop r workspace rest

/-- Put the calls `pre` in front of those of a run. -/
def FinalizeRun.after (pre : List Call) (run : FinalizeRun) : FinalizeRun :=
  { run with calls := pre ++ run.calls }

/-- The two status assignments at the start of `finalize`. -/
def markTerminating (workspace : DevWorkspace) : DevWorkspace :=
  { workspace with
    Status :=
      { workspace.Status with
        Message := "Cleaning up resources for deletion"
        Phase := .Terminating } }

/-- The method `finalize`. -/
def finalize (r : DevWorkspaceReconciler) (workspace : DevWorkspace) : FinalizeRun :=
  if workspace.Status.Phase != .Error then
    let terminating : DevWorkspace := markTerminating workspace
    let dispatch : FinalizeRun :=
      (finalizeLoop r terminating terminating.Finalizers).after [.StatusUpdate terminating]
    match r.Client.StatusUpdate terminating with
    | some err =>
      if !r.Client.IsConflict err then
        { err := some err, workspace := terminating, calls := [.StatusUpdate terminating] }
      else dispatch
    | none => dispatch
  else { workspace := workspace }


/-! ## Vocabulary of the specification -/

/-- The value of a run that returned normally. -/
def GoResult.toOption {α : Type} : GoResult α → Option α
  | .ok a => some a
  | _ => none

/-- Threshold of an event reason in the words of the specification:
`FailedMount` 3, the other four unrecoverable reasons 1, no threshold for any
other reason. -/
def eventThreshold (reason : String) : Option Int :=
  if reason = "FailedMount" then some 3
  else if reason ∈ ["FailedPostStartHook", "FailedScheduling", "FailedCreate",
      "ReplicaSetCreateError"] then some 1
  else none

/-- An event that fails the workspace, in the words of the specification: its
involved object is a pod, it is not the suppressed mount failure, its reason
has a threshold, is not on the ignore list, and its count reached the
threshold. -/
def unrecoverableEvent (env : Env) (workspaceID : String) (ev : Event) : Bool :=
  ev.Kind == "Pod" && !suppressedEvent env workspaceID ev &&
    match eventThreshold ev.Reason with
    | some threshold =>
      !env.IgnoredUnrecoverableEvents.contains ev.Reason && decide (threshold ≤ ev.Count)
    | none => false

/-- A container status that fails the workspace, in the words of the
specification: waiting with one of the four failure reasons, the reason not
being on the ignore list. -/
def decisiveStatus (env : Env) (cs : ContainerStatus) : Bool :=
  match cs.Waiting with
  | some waiting =>
    decide (waiting.Reason ∈ ["CrashLoopBackOff", "ImagePullBackOff", "CreateContainerError",
      "RunContainerError"]) && !env.IgnoredUnrecoverableEvents.contains waiting.Reason
  | none => false

/-- A pod that gives no decisive signal when it is the `call`-th pod whose
events are listed: none of its container and init-container statuses is
decisive, its events can be listed, and none of them is unrecoverable. -/
def podQuiet (env : Env) (api : ClusterAPI) (workspaceID : String) (call : Nat) (pod : Pod) :
    Bool :=
  pod.ContainerStatuses.all (fun cs => !decisiveStatus env cs) &&
  pod.InitContainerStatuses.all (fun cs => !decisiveStatus env cs) &&
  (api.ParseSelector ("involvedObject.name=" ++ pod.Name)).isNone &&
  match api.ListEvents call pod.Namespace ("involvedObject.name=" ++ pod.Name) with
  | .ok evs => evs.all fun ev => !unrecoverableEvent env workspaceID ev
  | .error _ => false

/-- Every pod of the list is quiet, the first one being the `call`-th pod
whose events are listed. -/
def podsQuiet (env : Env) (api : ClusterAPI) (workspaceID : String) : Nat → List Pod → Bool
  | _, [] => true
  | call, pod :: rest =>
    podQuiet env api workspaceID call pod && podsQuiet env api workspaceID (call + 1) rest

/-- The four tags of an outcome, in the words of the specification: proceed
(`Continue`), requeue (`Requeue`), fail-workspace (`FailStartup`) and
propagate-error (`Err` set without `FailStartup`). -/
def outcomeTags (st : ProvisioningStatus) : List Bool :=
  [st.Continue, st.Requeue, st.FailStartup, st.Err.isSome && !st.FailStartup]

/-- Number of tags an outcome has set. -/
def tagCount (st : ProvisioningStatus) : Nat :=
  (outcomeTags st).count true

/-- The pod spec that `getSpecDeployment` puts in the deployment for merged
fragments `merged`: shared mounts appended, scheduling set, then the
volume-permission workaround. -/
def podSpecOfMerged (env : Env) (workspace : DevWorkspace) (merged : PodAdditions)
    (saName : String) (podTolerations : List Toleration) (nodeSelector : GoMap) :
    GoResult PodSpec :=
  let podAdditions : PodAdditions :=
    { merged with
      Containers := appendSharedMounts merged.VolumeMounts merged.Containers
      InitContainers := appendSharedMounts merged.VolumeMounts merged.InitContainers }
  let spec := setScheduling env.constants workspace podTolerations nodeSelector
    (basePodSpec env podAdditions saName)
  if (needsPVCWorkaround env podAdditions).1 then
    applyPVCWorkaround
      (getWorkspaceSubpathVolumeMount workspace.Status.DevWorkspaceId
        (needsPVCWorkaround env podAdditions).2) spec
  else .ok spec

/-! ## Sample inputs -/

/-- A sample assignment of the names of `pkg/constants`. -/
def sampleConstants : Constants :=
  { DevWorkspaceIDLabel := "controller.devfile.io/devworkspace_id"
    DevWorkspaceNameLabel := "controller.devfile.io/devworkspace_name"
    DevWorkspaceCreatorLabel := "controller.devfile.io/creator"
    DevWorkspaceRestrictedAccessAnnotation := "controller.devfile.io/restricted-access"
    RuntimeClassNameAttribute := "controller.devfile.io/runtime-class"
    CheCommonPVCName := "claim-che-workspace"
    StorageCleanupFinalizer := "storage.controller.devfile.io"
    ServiceAccountCleanupFinalizer := "serviceaccount.controller.devfile.io" }

/-- A sample configuration with an ignore list. -/
def sampleEnvIgnoring (ignored : List String) : Env :=
  { constants := sampleConstants
    PVCName := "claim-devworkspace"
    IgnoredUnrecoverableEvents := ignored
    PodSecurityContext := none
    IsOpenShift := false
    DeploymentName := fun id => id
    ServingCertVolumeName := fun id => "devworkspace-servingcert-" ++ id ++ "-service" }

/-- A sample configuration that ignores no reason. -/
def sampleEnv : Env := sampleEnvIgnoring []

/-- A workspace that names its creator and has no components. -/
def sampleWorkspace : DevWorkspace :=
  { Name := "w"
    Namespace := "ns"
    Labels := some [("controller.devfile.io/creator", "u")]
    Status := { DevWorkspaceId := "id" } }

/-- The sample workspace without its labels, hence without creator. -/
def noCreatorWorkspace : DevWorkspace :=
  { sampleWorkspace with Labels := none }

/-- A component with the single deployment annotation `k ↦ v`. -/
def annotatedComponent (name v : String) : Component :=
  { Name := name
    Container := some { Annotation := some { Deployment := some [("k", v)] } } }

/-- The sample workspace with two container components that give the
deployment annotation `k` the values `1` and `2`. -/
def conflictingWorkspace : DevWorkspace :=
  { sampleWorkspace with
    Components := [annotatedComponent "a" "1", annotatedComponent "b" "2"] }

/-- One fragment with one container. -/
def sampleFragments : List PodAdditions :=
  [{ Containers := [{ Name := "tools" }] }]

/-- One fragment that only brings the volume with the common PVC name. -/
def volumeOnlyFragments : List PodAdditions :=
  [{ Volumes := [{ Name := "claim-devworkspace" }] }]

/-- The deployment built for the sample workspace and fragments. -/
def sampleSpec : Deployment :=
  match getSpecDeployment sampleEnv sampleWorkspace sampleFragments "sa" [] none
      (fun _ _ => none) with
  | .ok d => d
  | _ => {}

/-- Collaborators that read the namespace, set the owner reference and
synchronize without error, answer the pod listing with `pods` and the `call`-th
event listing with `events call`. -/
def sampleAPI (live : Deployment) (pods : Except GoError (List Pod))
    (events : Nat → Except GoError (List Event)) : ClusterAPI :=
  { GetNamespacePodTolerationsAndNodeSelector := fun _ => .ok ([], none)
    Scheme := fun _ _ => none
    SyncObjectWithCluster := fun _ => .synced live
    ListPods := fun _ _ => pods
    ParseSelector := fun _ => none
    ListEvents := fun call _ _ => events call }

/-- A waiting container status. -/
def waitingStatus (name reason : String) : ContainerStatus :=
  { Name := name, Waiting := some { Reason := reason } }

/-- A pod whose containers `c1` and `c2` wait in `CrashLoopBackOff` and
`ImagePullBackOff`. -/
def crashingPod : Pod :=
  { Name := "p"
    Namespace := "ns"
    ContainerStatuses :=
      [waitingStatus "c1" "CrashLoopBackOff", waitingStatus "c2" "ImagePullBackOff"] }

/-- A pod whose init container `i1` waits in `CrashLoopBackOff` after a
running container. -/
def initCrashingPod : Pod :=
  { Name := "p"
    Namespace := "ns"
    ContainerStatuses := [{ Name := "c0" }]
    InitContainerStatuses := [waitingStatus "i1" "CrashLoopBackOff"] }

/-- A live deployment without ready replicas and without conditions. -/
def pendingLive : Deployment :=
  { Status := { ReadyReplicas := 0 } }

/-- A live deployment with a ready replica and a `FailedCreate` condition. -/
def readyLive : Deployment :=
  { Status := { ReadyReplicas := 1, Conditions := [{ Reason := "FailedCreate" }] } }

/-- A sample reconciler: the deployment is already gone, the namespace is
active, every update succeeds and both cleanups complete. -/
def sampleReconciler : DevWorkspaceReconciler :=
  { constants := sampleConstants
    DeploymentName := fun id => id
    Client :=
      { IsNotFound := fun e => e == .errorString "not found"
        IsConflict := fun e => e == .errorString "conflict"
        Delete := fun _ _ => some (.errorString "not found")
        StatusUpdate := fun _ => none
        Update := fun _ => none
        GetNamespace := fun _ => .ok "Active" }
    GetProvisioner := fun _ => .ok fun _ => .done
    FinalizeServiceAccount := fun _ => (false, none)
    updateWorkspaceStatusResult := fun _ => ({}, none) }

/-- A workspace being deleted with the given finalizers. -/
def finalizingWorkspace (finalizers : List String) : DevWorkspace :=
  { sampleWorkspace with Finalizers := finalizers }

/-- The first name of `names` that is already in `seen` or repeats an earlier
name of `names`: the name at which a duplicate check of `mergePodAdditions`
stops, if it does. -/
def firstDuplicate (seen : List String) : List String → Option String
  | [] => none
  | n :: rest => if seen.contains n then some n else firstDuplicate (n :: seen) rest

/-- A fragment whose `Annotations` and `Labels` maps have no entry. -/
def PodAdditions.labelFree (f : PodAdditions) : Bool :=
  (GoMap.range f.Annotations).isEmpty && (GoMap.range f.Labels).isEmpty

/-- All container names of a list of fragments, in scan order. -/
def containerNamesOf (fragments : List PodAdditions) : List String :=
  (fragments.flatMap fun f => f.Containers).map fun c => c.Name

/-- All init-container names of a list of fragments, in scan order. -/
def initContainerNamesOf (fragments : List PodAdditions) : List String :=
  (fragments.flatMap fun f => f.InitContainers).map fun c => c.Name

/-- All volume names of a list of fragments, in scan order. -/
def volumeNamesOf (fragments : List PodAdditions) : List String :=
  (fragments.flatMap fun f => f.Volumes).map fun v => v.Name

/-- All volume-mount names of a list of fragments, in scan order. -/
def volumeMountNamesOf (fragments : List PodAdditions) : List String :=
  (fragments.flatMap fun f => f.VolumeMounts).map fun vm => vm.Name

/-- The state of `mergePodAdditions` after the containers, init containers,
volumes and volume mounts of a fragment were added without meeting a
duplicate. -/
def MergeState.add (st : MergeState) (f : PodAdditions) : MergeState :=
  { st with
    containerNames := (f.Containers.map fun c => c.Name).reverse ++ st.containerNames
    initContainerNames :=
      (f.InitContainers.map fun c => c.Name).reverse ++ st.initContainerNames
    volumeNames := (f.Volumes.map fun v => v.Name).reverse ++ st.volumeNames
    volumeMountNames := (f.VolumeMounts.map fun vm => vm.Name).reverse ++ st.volumeMountNames
    podAdditions :=
      { st.podAdditions with
        Containers := st.podAdditions.Containers ++ f.Containers
        InitContainers := st.podAdditions.InitContainers ++ f.InitContainers
        Volumes := st.podAdditions.Volumes ++ f.Volumes
        VolumeMounts := st.podAdditions.VolumeMounts ++ f.VolumeMounts } }

/-- The names `names` pass a duplicate check that has already seen `seen`:
they are pairwise distinct and none of them was seen. -/
def cleanNames (seen names : List String) : Prop :=
  names.Nodup ∧ ∀ n ∈ names, n ∉ seen

/-- The name `n` of `names` is a duplicate for a check that has already seen
`seen`: it was seen, or it occurs at least twice in `names`. -/
def dupName (seen names : List String) (n : String) : Prop :=
  n ∈ names ∧ (n ∈ seen ∨ 2 ≤ names.count n)

/-! ## Further vocabulary and sample inputs -/

/-- A finalizer string that `finalize` acts on: the storage-cleanup or the
service-account-cleanup finalizer. -/
def knownFinalizer (constants : Constants) (finalizer : String) : Bool :=
  finalizer == constants.StorageCleanupFinalizer ||
    finalizer == constants.ServiceAccountCleanupFinalizer

/-- The sample reconciler with the answers of the status update, of the
deployment deletion and of the namespace read replaced. -/
def reconcilerWith (statusUpdate delete : Option GoError) (namespacePhase : String) :
    DevWorkspaceReconciler :=
  { sampleReconciler with
    Client :=
      { sampleReconciler.Client with
        StatusUpdate := fun _ => statusUpdate
        Delete := fun _ _ => delete
        GetNamespace := fun _ => .ok namespacePhase } }

/-- The sample reconciler with the answer of `CleanupWorkspaceStorage`
replaced. -/
def reconcilerCleaning (cleanup : CleanupResult) : DevWorkspaceReconciler :=
  { sampleReconciler with GetProvisioner := fun _ => .ok fun _ => cleanup }

/-- The error or the panic that ended a run, if any. -/
def GoResult.failure {α : Type} : GoResult α → Option (GoError ⊕ String)
  | .ok _ => none
  | .error err => some (.inl err)
  | .panicked msg => some (.inr msg)

/-- All pull-secret names of a list of fragments, in scan order. -/
def pullSecretNamesOf (fragments : List PodAdditions) : List String :=
  (fragments.flatMap fun f => f.PullSecrets).map fun ps => ps.Name

/-- A fragment with its pull secrets taken away. -/
def PodAdditions.withoutPullSecrets (f : PodAdditions) : PodAdditions :=
  { f with PullSecrets := [] }

/-- The first merged volume named with the configured common PVC name or with
the fixed alternate name, if there is one. -/
def pvcVolume (env : Env) (volumes : List Volume) : Option Volume :=
  volumes.find? fun v => v.Name == env.PVCName || v.Name == env.constants.CheCommonPVCName

/-- Two fragments that both bring the pull secrets `a` and `b`, the second one
also `c`. -/
def pullSecretFragments : List PodAdditions :=
  [{ Containers := [{ Name := "tools" }], PullSecrets := [{ Name := "a" }, { Name := "b" }] },
   { PullSecrets := [{ Name := "a" }, { Name := "c" }, { Name := "b" }] }]

/-- Two fragments with one container and one volume each, all names distinct. -/
def distinctFragments : List PodAdditions :=
  [{ Containers := [{ Name := "tools" }], Volumes := [{ Name := "projects" }] },
   { Containers := [{ Name := "side" }], Volumes := [{ Name := "cache" }] }]

/-- One fragment with two containers, the volume named like the common PVC and
a shared mount. -/
def pvcFragments : List PodAdditions :=
  [{ Containers :=
       [{ Name := "tools", VolumeMounts := [{ Name := "projects", MountPath := "/projects" }] },
        { Name := "side" }]
     Volumes := [{ Name := "claim-devworkspace" }]
     VolumeMounts := [{ Name := "shared", MountPath := "/shared" }] }]

/-- The deployment built for the sample workspace and `pvcFragments`. -/
def pvcDeployment : Deployment :=
  match getSpecDeployment sampleEnv sampleWorkspace pvcFragments "sa" [] none
      (fun _ _ => none) with
  | .ok d => d
  | _ => {}

/-! ## Vocabulary for the deployment annotations -/

/-- Representation invariant of a Go map: no key occurs twice among its
entries. -/
def GoMap.uniqueKeys (m : GoMap) : Prop :=
  ((GoMap.range m).map Prod.fst).Nodup

/-- No key of the entries is given two different values. -/
def consistentEntries (entries : List (String × String)) : Prop :=
  ∀ k v1 v2, (k, v1) ∈ entries → (k, v2) ∈ entries → v1 = v2

/-- The entries of the deployment-annotation maps of all components, in scan
order; a component without a container, an annotation or a deployment map has
none. -/
def annotationEntriesOf (components : List Component) : List (String × String) :=
  components.flatMap fun c => GoMap.range c.deploymentAnnotations

/-- Two components whose deployment-annotation maps give different values for
one key. -/
def annotationConflict (components : List Component) : Prop :=
  ∃ c1 ∈ components, ∃ c2 ∈ components, c1 ≠ c2 ∧
    ∃ k v1 v2, (k, v1) ∈ GoMap.range c1.deploymentAnnotations ∧
      (k, v2) ∈ GoMap.range c2.deploymentAnnotations ∧ v1 ≠ v2

/-- The components `cs2` are the components `cs1` with the entries of each
deployment-annotation map visited in another order. -/
def reorderedAnnotations (cs1 cs2 : List Component) : Prop :=
  List.Forall₂
    (fun c1 c2 =>
      (GoMap.range c1.deploymentAnnotations).Perm (GoMap.range c2.deploymentAnnotations))
    cs1 cs2

/-- The sample workspace with two container components whose deployment
annotations agree on the key `k`, and a component without container between
them. -/
def agreeingWorkspace : DevWorkspace :=
  { sampleWorkspace with
    Components :=
      [{ Name := "a"
         Container := some { Annotation := some { Deployment := some [("k", "1"), ("a", "x")] } } },
       { Name := "plain" },
       { Name := "b"
         Container := some { Annotation := some { Deployment := some [("b", "y"), ("k", "1")] } } }] }

/-- The mounts that the volume-permission workaround puts in front of a
container's mounts: the workspace sub-path mount of the first volume named with
the configured common PVC name or the fixed alternate name, when there is such
a volume and the container is the one the workaround acts on (`first`); none
otherwise. -/
def workaroundMounts (env : Env) (workspace : DevWorkspace) (volumes : List Volume)
    (first : Bool) : List VolumeMount :=
  match pvcVolume env volumes with
  | some v =>
    if first then [getWorkspaceSubpathVolumeMount workspace.Status.DevWorkspaceId v.Name]
    else []
  | none => []

/-- Two fragments with an init container, two containers with mounts of their
own, the volume named like the common PVC and two shared mounts. -/
def mountFragments : List PodAdditions :=
  [{ InitContainers := [{ Name := "init", VolumeMounts := [{ Name := "seed" }] }]
     Containers := [{ Name := "tools", VolumeMounts := [{ Name := "projects" }] }]
     Volumes := [{ Name := "claim-devworkspace" }]
     VolumeMounts := [{ Name := "shared" }] },
   { Containers := [{ Name := "side" }]
     VolumeMounts := [{ Name := "cache" }] }]

/-- The deployment built for the sample workspace and `mountFragments`. -/
def mountDeployment : Deployment :=
  match getSpecDeployment sampleEnv sampleWorkspace mountFragments "sa" [] none
      (fun _ _ => none) with
  | .ok d => d
  | _ => {}

/-- One fragment that only brings two volumes, the second one with the fixed
alternate PVC name. -/
def cheVolumeFragments : List PodAdditions :=
  [{ Volumes := [{ Name := "data" }, { Name := "claim-che-workspace" }] }]

/-- A workspace in the `Error` phase that still carries both cleanup
finalizers. -/
def erroredWorkspace : DevWorkspace :=
  { sampleWorkspace with
    Finalizers := ["storage.controller.devfile.io", "serviceaccount.controller.devfile.io"]
    Status := { DevWorkspaceId := "id", Phase := .Error, Message := "provisioning failed" } }

/-! # Theorems -/

/-! ## `mergePodAdditions` -/

theorem firstDuplicate_cons (seen rest : List String) (a : String) :
    firstDuplicate seen (a :: rest) =
      if a ∈ seen then some a else firstDuplicate (a :: seen) rest := by
  simp [firstDuplicate]

theorem firstDuplicate_eq_none (seen names : List String) :
    firstDuplicate seen names = none ↔ names.Nodup ∧ ∀ n ∈ names, n ∉ seen := by
  induction names generalizing seen with
  | nil => simp [firstDuplicate]
  | cons a rest ih =>
    rw [firstDuplicate_cons]
    by_cases ha : a ∈ seen
    · simp [ha]
    · rw [if_neg ha, ih]
      simp only [List.nodup_cons, List.mem_cons, forall_eq_or_imp, not_or]
      constructor
      · rintro ⟨hnd, hdis⟩
        exact ⟨⟨fun hmem => (hdis a hmem).1 rfl, hnd⟩, ha, fun n hn => (hdis n hn).2⟩
      · rintro ⟨⟨hna, hnd⟩, _, hdis⟩
        exact ⟨hnd, fun n hn => ⟨fun h => hna (h ▸ hn), hdis n hn⟩⟩

theorem firstDuplicate_eq_some (seen names : List String) (n : String)
    (h : firstDuplicate seen names = some n) :
    n ∈ names ∧ (n ∈ seen ∨ 2 ≤ names.count n) := by
  induction names generalizing seen with
  | nil => simp [firstDuplicate] at h
  | cons a rest ih =>
    rw [firstDuplicate_cons] at h
    by_cases ha : a ∈ seen
    · rw [if_pos ha] at h
      cases h
      exact ⟨List.mem_cons_self _ _, Or.inl ha⟩
    · rw [if_neg ha] at h
      obtain ⟨hmem, hor⟩ := ih (a :: seen) h
      refine ⟨List.mem_cons_of_mem _ hmem, ?_⟩
      rcases hor with hs | hc
      · rcases List.mem_cons.mp hs with rfl | hs
        · right
          rw [List.count_cons_self]
          have := List.count_pos_iff.mpr hmem
          omega
        · exact Or.inl hs
      · right
        have := List.count_le_count_cons (a := n) (b := a) (l := rest)
        omega

theorem mergeContainers_eq (st : MergeState) (cs : List Container) :
    mergeContainers st cs =
      match firstDuplicate st.containerNames (cs.map fun c => c.Name) with
      | some n =>
        .error (.errorString ("duplicate containers in the workspace definition: " ++ n))
      | none =>
        .ok { st with
              containerNames := (cs.map fun c => c.Name).reverse ++ st.containerNames
              podAdditions :=
                { st.podAdditions with Containers := st.podAdditions.Containers ++ cs } } := by
  induction cs generalizing st with
  | nil => simp [mergeContainers, firstDuplicate]
  | cons c rest ih =>
    rw [mergeContainers, List.map_cons, firstDuplicate_cons]
    by_cases hc : c.Name ∈ st.containerNames
    · simp [hc]
    · simp [hc, ih]

theorem mergeInitContainers_eq (st : MergeState) (cs : List Container) :
    mergeInitContainers st cs =
      match firstDuplicate st.initContainerNames (cs.map fun c => c.Name) with
      | some n =>
        .error (.errorString ("duplicate init containers in the workspace definition: " ++ n))
      | none =>
        .ok { st with
              initContainerNames := (cs.map fun c => c.Name).reverse ++ st.initContainerNames
              podAdditions :=
                { st.podAdditions with
                  InitContainers := st.podAdditions.InitContainers ++ cs } } := by
  induction cs generalizing st with
  | nil => simp [mergeInitContainers, firstDuplicate]
  | cons c rest ih =>
    rw [mergeInitContainers, List.map_cons, firstDuplicate_cons]
    by_cases hc : c.Name ∈ st.initContainerNames
    · simp [hc]
    · simp [hc, ih]

theorem mergeVolumes_eq (st : MergeState) (vs : List Volume) :
    mergeVolumes st vs =
      match firstDuplicate st.volumeNames (vs.map fun v => v.Name) with
      | some n => .error (.errorString ("duplicate volumes in the workspace definition: " ++ n))
      | none =>
        .ok { st with
              volumeNames := (vs.map fun v => v.Name).reverse ++ st.volumeNames
              podAdditions := { st.podAdditions with Volumes := st.podAdditions.Volumes ++ vs } } := by
  induction vs generalizing st with
  | nil => simp [mergeVolumes, firstDuplicate]
  | cons v rest ih =>
    rw [mergeVolumes, List.map_cons, firstDuplicate_cons]
    by_cases hc : v.Name ∈ st.volumeNames
    · simp [hc]
    · simp [hc, ih]

theorem mergeVolumeMounts_eq (st : MergeState) (vms : List VolumeMount) :
    mergeVolumeMounts st vms =
      match firstDuplicate st.volumeMountNames (vms.map fun vm => vm.Name) with
      | some n => .error (.errorString ("duplicated volumeMounts in workspace definition: " ++ n))
      | none =>
        .ok { st with
              volumeMountNames := (vms.map fun vm => vm.Name).reverse ++ st.volumeMountNames
              podAdditions :=
                { st.podAdditions with VolumeMounts := st.podAdditions.VolumeMounts ++ vms } } := by
  induction vms generalizing st with
  | nil => simp [mergeVolumeMounts, firstDuplicate]
  | cons vm rest ih =>
    rw [mergeVolumeMounts, List.map_cons, firstDuplicate_cons]
    by_cases hc : vm.Name ∈ st.volumeMountNames
    · simp [hc]
    · simp [hc, ih]

theorem mergeAnnotations_nil_map (st : MergeState) (entries : List (String × String))
    (ha : st.podAdditions.Annotations = none) :
    mergeAnnotations st entries =
      if entries.isEmpty then .ok st else .panicked "assignment to entry in nil map" := by
  cases entries with
  | nil => rfl
  | cons kv rest =>
    obtain ⟨k, v⟩ := kv
    simp [mergeAnnotations, ha, GoMap.assign, GoResult.bind]

theorem mergeLabels_nil_map (st : MergeState) (entries : List (String × String))
    (hl : st.podAdditions.Labels = none) :
    mergeLabels st entries =
      if entries.isEmpty then .ok st else .panicked "assignment to entry in nil map" := by
  cases entries with
  | nil => rfl
  | cons kv rest =>
    obtain ⟨k, v⟩ := kv
    simp [mergeLabels, hl, GoMap.assign, GoResult.bind]

theorem mergeOne_eq (st : MergeState) (f : PodAdditions)
    (ha : st.podAdditions.Annotations = none) (hl : st.podAdditions.Labels = none) :
    mergeOne st f =
      if f.labelFree then
        match firstDuplicate st.containerNames (f.Containers.map fun c => c.Name) with
        | some n =>
          .error (.errorString ("duplicate containers in the workspace definition: " ++ n))
        | none =>
          match firstDuplicate st.initContainerNames
              (f.InitContainers.map fun c => c.Name) with
          | some n =>
            .error (.errorString
              ("duplicate init containers in the workspace definition: " ++ n))
          | none =>
            match firstDuplicate st.volumeNames (f.Volumes.map fun v => v.Name) with
            | some n =>
              .error (.errorString ("duplicate volumes in the workspace definition: " ++ n))
            | none =>
              match firstDuplicate st.volumeMountNames
                  (f.VolumeMounts.map fun vm => vm.Name) with
              | some n =>
                .error (.errorString
                  ("duplicated volumeMounts in workspace definition: " ++ n))
              | none => .ok (mergePullSecrets (st.add f) f.PullSecrets)
      else .panicked "assignment to entry in nil map" := by
  unfold mergeOne PodAdditions.labelFree
  rw [mergeAnnotations_nil_map st _ ha]
  by_cases h1 : (GoMap.range f.Annotations).isEmpty = true
  · simp only [h1, if_true, GoResult.bind, Bool.true_and]
    rw [mergeLabels_nil_map st _ hl]
    by_cases h2 : (GoMap.range f.Labels).isEmpty = true
    · simp only [h2, if_true, mergeContainers_eq]
      cases firstDuplicate st.containerNames (f.Containers.map fun c => c.Name) with
      | some n => rfl
      | none =>
        simp only [mergeInitContainers_eq]
        cases firstDuplicate st.initContainerNames (f.InitContainers.map fun c => c.Name) with
        | some n => rfl
        | none =>
          simp only [mergeVolumes_eq]
          cases firstDuplicate st.volumeNames (f.Volumes.map fun v => v.Name) with
          | some n => rfl
          | none =>
            simp only [mergeVolumeMounts_eq]
            cases firstDuplicate st.volumeMountNames (f.VolumeMounts.map fun vm => vm.Name) with
            | some n => rfl
            | none => rfl
    · simp [h2]
  · simp [h1, GoResult.bind]

theorem cleanNames_append (seen a b : List String) (ha : cleanNames seen a)
    (hb : cleanNames (a.reverse ++ seen) b) : cleanNames seen (a ++ b) := by
  obtain ⟨hna, hda⟩ := ha
  obtain ⟨hnb, hdb⟩ := hb
  refine ⟨List.nodup_append.mpr ⟨hna, hnb, ?_⟩, ?_⟩
  · intro n hn1 hn2
    exact hdb n hn2 (List.mem_append_left _ (List.mem_reverse.mpr hn1))
  · intro n hn
    rcases List.mem_append.mp hn with h | h
    · exact hda n h
    · exact fun hs => hdb n h (List.mem_append_right _ hs)

theorem dupName_append_left (seen a b : List String) (n : String) (h : dupName seen a n) :
    dupName seen (a ++ b) n := by
  obtain ⟨hmem, hor⟩ := h
  refine ⟨List.mem_append_left _ hmem, ?_⟩
  rcases hor with hs | hc
  · exact Or.inl hs
  · right
    rw [List.count_append]
    omega

theorem dupName_append_right (seen a b : List String) (n : String)
    (h : dupName (a.reverse ++ seen) b n) : dupName seen (a ++ b) n := by
  obtain ⟨hmem, hor⟩ := h
  refine ⟨List.mem_append_right _ hmem, ?_⟩
  rcases hor with hs | hc
  · rcases List.mem_append.mp hs with h1 | h1
    · right
      rw [List.count_append]
      have := List.count_pos_iff.mpr (List.mem_reverse.mp h1)
      have := List.count_pos_iff.mpr hmem
      omega
    · exact Or.inl h1
  · right
    rw [List.count_append]
    omega

theorem not_cleanNames_of_dupName (seen names : List String) (n : String)
    (h : dupName seen names n) : ¬ cleanNames seen names := by
  rintro ⟨hnd, hdis⟩
  obtain ⟨hmem, hor⟩ := h
  rcases hor with hs | hc
  · exact hdis n hmem hs
  · have := List.nodup_iff_count_le_one.mp hnd n
    omega

theorem mergePullSecrets_frame (st : MergeState) (ps : List LocalObjectReference) :
    (mergePullSecrets st ps).containerNames = st.containerNames ∧
    (mergePullSecrets st ps).initContainerNames = st.initContainerNames ∧
    (mergePullSecrets st ps).volumeNames = st.volumeNames ∧
    (mergePullSecrets st ps).volumeMountNames = st.volumeMountNames ∧
    (mergePullSecrets st ps).podAdditions.Annotations = st.podAdditions.Annotations ∧
    (mergePullSecrets st ps).podAdditions.Labels = st.podAdditions.Labels ∧
    (mergePullSecrets st ps).podAdditions.Containers = st.podAdditions.Containers ∧
    (mergePullSecrets st ps).podAdditions.InitContainers = st.podAdditions.InitContainers ∧
    (mergePullSecrets st ps).podAdditions.Volumes = st.podAdditions.Volumes ∧
    (mergePullSecrets st ps).podAdditions.VolumeMounts = st.podAdditions.VolumeMounts := by
  induction ps generalizing st with
  | nil => simp [mergePullSecrets]
  | cons p rest ih =>
    rw [mergePullSecrets]
    split
    · exact ih st
    · have := ih
        { st with
          pullSecretNames := p.Name :: st.pullSecretNames
          podAdditions :=
            { st.podAdditions with PullSecrets := st.podAdditions.PullSecrets ++ [p] } }
      simpa using this

/-- The scan of `mergePodAdditions` over fragments without labels and
annotations, started in a state whose label maps are nil: either every
category passes its duplicate check and the four merged lists are the
concatenations of the fragments' lists, or the call returns the duplicate
error of one category for a name that is a duplicate in that category. -/
theorem mergeLoop_labelFree (fragments : List PodAdditions) (st : MergeState)
    (ha : st.podAdditions.Annotations = none) (hl : st.podAdditions.Labels = none)
    (hfree : ∀ f ∈ fragments, f.labelFree = true) :
    (∃ st1, mergeLoop st fragments = .ok st1 ∧
      st1.podAdditions.Annotations = none ∧ st1.podAdditions.Labels = none ∧
      st1.podAdditions.Containers =
        st.podAdditions.Containers ++ fragments.flatMap (fun f => f.Containers) ∧
      st1.podAdditions.InitContainers =
        st.podAdditions.InitContainers ++ fragments.flatMap (fun f => f.InitContainers) ∧
      st1.podAdditions.Volumes =
        st.podAdditions.Volumes ++ fragments.flatMap (fun f => f.Volumes) ∧
      st1.podAdditions.VolumeMounts =
        st.podAdditions.VolumeMounts ++ fragments.flatMap (fun f => f.VolumeMounts) ∧
      cleanNames st.containerNames (containerNamesOf fragments) ∧
      cleanNames st.initContainerNames (initContainerNamesOf fragments) ∧
      cleanNames st.volumeNames (volumeNamesOf fragments) ∧
      cleanNames st.volumeMountNames (volumeMountNamesOf fragments)) ∨
    (∃ n, mergeLoop st fragments =
        .error (.errorString ("duplicate containers in the workspace definition: " ++ n)) ∧
      dupName st.containerNames (containerNamesOf fragments) n) ∨
    (∃ n, mergeLoop st fragments =
        .error (.errorString
          ("duplicate init containers in the workspace definition: " ++ n)) ∧
      dupName st.initContainerNames (initContainerNamesOf fragments) n) ∨
    (∃ n, mergeLoop st fragments =
        .error (.errorString ("duplicate volumes in the workspace definition: " ++ n)) ∧
      dupName st.volumeNames (volumeNamesOf fragments) n) ∨
    (∃ n, mergeLoop st fragments =
        .error (.errorString ("duplicated volumeMounts in workspace definition: " ++ n)) ∧
      dupName st.volumeMountNames (volumeMountNamesOf fragments) n) := by
  induction fragments generalizing st with
  | nil =>
    left
    refine ⟨st, rfl, ha, hl, ?_, ?_, ?_, ?_, ?_, ?_, ?_, ?_⟩ <;>
      simp [cleanNames, containerNamesOf, initContainerNamesOf, volumeNamesOf,
        volumeMountNamesOf]
  | cons f rest ih =>
    have hf : f.labelFree = true := hfree f (List.mem_cons_self f rest)
    have hrest : ∀ g ∈ rest, g.labelFree = true := fun g hg =>
      hfree g (List.mem_cons_of_mem f hg)
    have hc : containerNamesOf (f :: rest) =
        (f.Containers.map fun c => c.Name) ++ containerNamesOf rest := by
      simp [containerNamesOf]
    have hi : initContainerNamesOf (f :: rest) =
        (f.InitContainers.map fun c => c.Name) ++ initContainerNamesOf rest := by
      simp [initContainerNamesOf]
    have hv : volumeNamesOf (f :: rest) =
        (f.Volumes.map fun v => v.Name) ++ volumeNamesOf rest := by
      simp [volumeNamesOf]
    have hm : volumeMountNamesOf (f :: rest) =
        (f.VolumeMounts.map fun vm => vm.Name) ++ volumeMountNamesOf rest := by
      simp [volumeMountNamesOf]
    rw [mergeLoop, mergeOne_eq st f ha hl, hc, hi, hv, hm]
    simp only [hf, if_true]
    cases h1 : firstDuplicate st.containerNames (f.Containers.map fun c => c.Name) with
    | some n =>
      right; left
      exact ⟨n, rfl, dupName_append_left _ _ _ _ (firstDuplicate_eq_some _ _ _ h1)⟩
    | none =>
      cases h2 : firstDuplicate st.initContainerNames
          (f.InitContainers.map fun c => c.Name) with
      | some n =>
        right; right; left
        exact ⟨n, rfl, dupName_append_left _ _ _ _ (firstDuplicate_eq_some _ _ _ h2)⟩
      | none =>
        cases h3 : firstDuplicate st.volumeNames (f.Volumes.map fun v => v.Name) with
        | some n =>
          right; right; right; left
          exact ⟨n, rfl, dupName_append_left _ _ _ _ (firstDuplicate_eq_some _ _ _ h3)⟩
        | none =>
          cases h4 : firstDuplicate st.volumeMountNames
              (f.VolumeMounts.map fun vm => vm.Name) with
          | some n =>
            right; right; right; right
            exact ⟨n, rfl, dupName_append_left _ _ _ _ (firstDuplicate_eq_some _ _ _ h4)⟩
          | none =>
            simp only [GoResult.bind]
            obtain ⟨p1, p2, p3, p4, p5, p6, p7, p8, p9, p10⟩ :=
              mergePullSecrets_frame (st.add f) f.PullSecrets
            have ha1 : (mergePullSecrets (st.add f) f.PullSecrets).podAdditions.Annotations =
                none := by rw [p5]; exact ha
            have hl1 : (mergePullSecrets (st.add f) f.PullSecrets).podAdditions.Labels =
                none := by rw [p6]; exact hl
            have c1 := (firstDuplicate_eq_none _ _).mp h1
            have c2 := (firstDuplicate_eq_none _ _).mp h2
            have c3 := (firstDuplicate_eq_none _ _).mp h3
            have c4 := (firstDuplicate_eq_none _ _).mp h4
            rcases ih (mergePullSecrets (st.add f) f.PullSecrets) ha1 hl1 hrest with
              ⟨st1, hok, q1, q2, q3, q4, q5, q6, q7, q8, q9, q10⟩ | ⟨n, he, hd⟩ |
              ⟨n, he, hd⟩ | ⟨n, he, hd⟩ | ⟨n, he, hd⟩
            · left
              rw [p1] at q7; rw [p2] at q8; rw [p3] at q9; rw [p4] at q10
              rw [p7] at q3; rw [p8] at q4; rw [p9] at q5; rw [p10] at q6
              refine ⟨st1, hok, q1, q2, ?_, ?_, ?_, ?_, cleanNames_append _ _ _ c1 q7,
                cleanNames_append _ _ _ c2 q8, cleanNames_append _ _ _ c3 q9,
                cleanNames_append _ _ _ c4 q10⟩
              · rw [q3]; simp [MergeState.add]
              · rw [q4]; simp [MergeState.add]
              · rw [q5]; simp [MergeState.add]
              · rw [q6]; simp [MergeState.add]
            · right; left
              rw [p1] at hd
              exact ⟨n, he, dupName_append_right _ _ _ _ hd⟩
            · right; right; left
              rw [p2] at hd
              exact ⟨n, he, dupName_append_right _ _ _ _ hd⟩
            · right; right; right; left
              rw [p3] at hd
              exact ⟨n, he, dupName_append_right _ _ _ _ hd⟩
            · right; right; right; right
              rw [p4] at hd
              exact ⟨n, he, dupName_append_right _ _ _ _ hd⟩

/-- On fragments without labels and annotations a repeated container name
makes `mergePodAdditions` return an error and no merged result; when the init
containers, volumes and volume mounts have no duplicate, the error is the
duplicate-container error for a name that occurs at least twice. -/
theorem mergePodAdditions_labelFree_duplicate_container (fragments : List PodAdditions)
    (hfree : ∀ f ∈ fragments, f.labelFree = true)
    (hdup : ¬ (containerNamesOf fragments).Nodup) :
    (∃ err, mergePodAdditions fragments = .error err) ∧
    ((initContainerNamesOf fragments).Nodup → (volumeNamesOf fragments).Nodup →
      (volumeMountNamesOf fragments).Nodup →
      ∃ n, mergePodAdditions fragments =
          .error (.errorString ("duplicate containers in the workspace definition: " ++ n)) ∧
        2 ≤ (containerNamesOf fragments).count n) := by
  have hnot : ¬ cleanNames [] (containerNamesOf fragments) := fun h => hdup h.1
  unfold mergePodAdditions
  rcases mergeLoop_labelFree fragments {} rfl rfl hfree with
    ⟨st1, _, _, _, _, _, _, _, hc, _⟩ | ⟨n, he, hd⟩ | ⟨n, he, hd⟩ | ⟨n, he, hd⟩ | ⟨n, he, hd⟩
  · exact absurd hc hnot
  · rw [he]
    refine ⟨⟨_, rfl⟩, fun _ _ _ => ⟨n, rfl, ?_⟩⟩
    rcases hd.2 with h | h
    · cases h
    · exact h
  · rw [he]
    refine ⟨⟨_, rfl⟩, fun h _ _ => ?_⟩
    exact absurd ⟨h, fun _ _ hm => by cases hm⟩ (not_cleanNames_of_dupName _ _ _ hd)
  · rw [he]
    refine ⟨⟨_, rfl⟩, fun _ h _ => ?_⟩
    exact absurd ⟨h, fun _ _ hm => by cases hm⟩ (not_cleanNames_of_dupName _ _ _ hd)
  · rw [he]
    refine ⟨⟨_, rfl⟩, fun _ _ h => ?_⟩
    exact absurd ⟨h, fun _ _ hm => by cases hm⟩ (not_cleanNames_of_dupName _ _ _ hd)

/-- On fragments without labels and annotations whose container, init
container, volume and volume-mount names are each pairwise distinct,
`mergePodAdditions` returns no error and the merged lists are the
concatenations of the fragments' lists, in order. -/
theorem mergePodAdditions_labelFree_distinct (fragments : List PodAdditions)
    (hfree : ∀ f ∈ fragments, f.labelFree = true)
    (hc : (containerNamesOf fragments).Nodup)
    (hi : (initContainerNamesOf fragments).Nodup)
    (hv : (volumeNamesOf fragments).Nodup)
    (hm : (volumeMountNamesOf fragments).Nodup) :
    ∃ merged, mergePodAdditions fragments = .ok merged ∧
      merged.Containers = fragments.flatMap (fun f => f.Containers) ∧
      merged.InitContainers = fragments.flatMap (fun f => f.InitContainers) ∧
      merged.Volumes = fragments.flatMap (fun f => f.Volumes) ∧
      merged.VolumeMounts = fragments.flatMap (fun f => f.VolumeMounts) := by
  have clean : ∀ names : List String, names.Nodup → cleanNames [] names := fun names h =>
    ⟨h, fun _ _ hm => by cases hm⟩
  unfold mergePodAdditions
  rcases mergeLoop_labelFree fragments {} rfl rfl hfree with
    ⟨st1, hok, _, _, q3, q4, q5, q6, _⟩ | ⟨n, _, hd⟩ | ⟨n, _, hd⟩ | ⟨n, _, hd⟩ | ⟨n, _, hd⟩
  · rw [hok]
    exact ⟨st1.podAdditions, rfl, by simpa using q3, by simpa using q4, by simpa using q5,
      by simpa using q6⟩
  · exact absurd (clean _ hc) (not_cleanNames_of_dupName _ _ _ hd)
  · exact absurd (clean _ hi) (not_cleanNames_of_dupName _ _ _ hd)
  · exact absurd (clean _ hv) (not_cleanNames_of_dupName _ _ _ hd)
  · exact absurd (clean _ hm) (not_cleanNames_of_dupName _ _ _ hd)

/-- A fragment with an annotation or a label makes `mergePodAdditions` panic
as soon as the scan reaches it. -/
theorem mergePodAdditions_labelled_first_panics (f : PodAdditions)
    (rest : List PodAdditions) (hf : f.labelFree = false) :
    mergePodAdditions (f :: rest) = .panicked "assignment to entry in nil map" := by
  unfold mergePodAdditions
  rw [mergeLoop, mergeOne_eq {} f rfl rfl]
  simp [hf, GoResult.bind]

/-! ## `getSpecDeployment` -/

theorem get?_assocSet_self (l : List (String × String)) (k v : String) :
    GoMap.get? (some (assocSet l k v)) k = some v := by
  induction l with
  | nil => simp [assocSet, GoMap.get?, GoMap.range]
  | cons kv rest ih =>
    obtain ⟨k1, v1⟩ := kv
    unfold assocSet
    by_cases hk : k1 = k
    · subst hk
      simp [GoMap.get?, GoMap.range]
    · have hb : (k1 == k) = false := beq_false_of_ne hk
      simp only [hb, Bool.false_eq_true, if_false]
      simp only [GoMap.get?, GoMap.range, Option.getD_some, List.find?_cons, hb] at ih ⊢
      exact ih

theorem workspaceLabels_ok (consts : Constants) (workspace : DevWorkspace) :
    workspaceLabels consts workspace =
      .ok (some (assocSet (assocSet [] consts.DevWorkspaceIDLabel
        workspace.Status.DevWorkspaceId) consts.DevWorkspaceNameLabel workspace.Name)) := rfl

theorem setScheduling_Containers (consts : Constants) (workspace : DevWorkspace)
    (podTolerations : List Toleration) (nodeSelector : GoMap) (spec : PodSpec) :
    (setScheduling consts workspace podTolerations nodeSelector spec).Containers =
      spec.Containers := by
  unfold setScheduling
  dsimp only
  repeat' split
  all_goals rfl

theorem setScheduling_InitContainers (consts : Constants) (workspace : DevWorkspace)
    (podTolerations : List Toleration) (nodeSelector : GoMap) (spec : PodSpec) :
    (setScheduling consts workspace podTolerations nodeSelector spec).InitContainers =
      spec.InitContainers := by
  unfold setScheduling
  dsimp only
  repeat' split
  all_goals rfl

theorem getSpecDeployment_of_merge_error (env : Env) (workspace : DevWorkspace)
    (podAdditions : List PodAdditions) (saName : String) (tolerations : List Toleration)
    (nodeSelector : GoMap) (scheme : Scheme) (err : GoError)
    (hmerge : mergePodAdditions podAdditions = .error err) :
    getSpecDeployment env workspace podAdditions saName tolerations nodeSelector scheme =
      .error err := by
  unfold getSpecDeployment
  simp only [hmerge, GoResult.bind]

theorem getSpecDeployment_of_merge_panic (env : Env) (workspace : DevWorkspace)
    (podAdditions : List PodAdditions) (saName : String) (tolerations : List Toleration)
    (nodeSelector : GoMap) (scheme : Scheme) (msg : String)
    (hmerge : mergePodAdditions podAdditions = .panicked msg) :
    getSpecDeployment env workspace podAdditions saName tolerations nodeSelector scheme =
      .panicked msg := by
  unfold getSpecDeployment
  simp only [hmerge, GoResult.bind]

theorem getSpecDeployment_no_creator (env : Env) (workspace : DevWorkspace)
    (podAdditions : List PodAdditions) (saName : String) (tolerations : List Toleration)
    (nodeSelector : GoMap) (scheme : Scheme) (merged : PodAdditions) (spec1 : PodSpec)
    (hmerge : mergePodAdditions podAdditions = .ok merged)
    (hspec : podSpecOfMerged env workspace merged saName tolerations nodeSelector = .ok spec1)
    (hcreator : GoMap.get? workspace.Labels env.constants.DevWorkspaceCreatorLabel = none) :
    getSpecDeployment env workspace podAdditions saName tolerations nodeSelector scheme =
      .error (.errorString
        "workspace must have creator specified to be run. Recreate it to fix an issue") := by
  unfold podSpecOfMerged at hspec
  unfold getSpecDeployment
  simp only [hmerge, GoResult.bind, workspaceLabels_ok, hcreator]
  dsimp only at hspec
  rw [hspec]

theorem getSpecDeployment_eq (env : Env) (workspace : DevWorkspace)
    (podAdditions : List PodAdditions) (saName : String) (tolerations : List Toleration)
    (nodeSelector : GoMap) (scheme : Scheme) (merged : PodAdditions) (creator : String)
    (labels : GoMap)
    (hmerge : mergePodAdditions podAdditions = .ok merged)
    (hlabels : workspaceLabels env.constants workspace = .ok labels)
    (hcreator : GoMap.get? workspace.Labels env.constants.DevWorkspaceCreatorLabel =
      some creator) :
    getSpecDeployment env workspace podAdditions saName tolerations nodeSelector scheme =
      ((podSpecOfMerged env workspace merged saName tolerations nodeSelector).bind fun spec1 =>
        (setCreatorLabel env.constants creator
          (baseDeployment env workspace labels
            (match getAdditionalAnnotations workspace with
              | .ok m => m
              | _ => none) labels spec1)).bind fun deployment1 =>
        setControllerReference scheme workspace
          (setRestrictedAccess env.constants workspace deployment1)) := by
  unfold getSpecDeployment podSpecOfMerged
  simp only [hmerge, GoResult.bind, hlabels, hcreator]

theorem setCreatorLabel_ok (consts : Constants) (creator : String) (deployment : Deployment)
    (labels templateLabels : List (String × String))
    (hl : deployment.Labels = some labels)
    (htl : deployment.Template.Labels = some templateLabels) :
    setCreatorLabel consts creator deployment =
      .ok { deployment with
            Labels := some (assocSet labels consts.DevWorkspaceCreatorLabel creator)
            Template :=
              { deployment.Template with
                Labels :=
                  some (assocSet templateLabels consts.DevWorkspaceCreatorLabel creator) } } := by
  simp only [setCreatorLabel, hl, htl, GoMap.assign, GoResult.bind]

theorem setRestrictedAccess_Spec (consts : Constants) (workspace : DevWorkspace)
    (deployment : Deployment) :
    (setRestrictedAccess consts workspace deployment).Template.Spec =
      deployment.Template.Spec := by
  unfold setRestrictedAccess
  split <;> rfl

theorem setRestrictedAccess_Labels (consts : Constants) (workspace : DevWorkspace)
    (deployment : Deployment) :
    (setRestrictedAccess consts workspace deployment).Labels = deployment.Labels ∧
      (setRestrictedAccess consts workspace deployment).Template.Labels =
        deployment.Template.Labels := by
  unfold setRestrictedAccess
  split <;> exact ⟨rfl, rfl⟩

/-- The deployment returned by `getSpecDeployment` when the merge succeeded,
the pod spec could be built, the workspace names its creator and the owner
reference can be set: it carries that pod spec and the creator label on the
deployment and on the pod template. -/
theorem getSpecDeployment_ok_of_spec (env : Env) (workspace : DevWorkspace)
    (podAdditions : List PodAdditions) (saName : String) (tolerations : List Toleration)
    (nodeSelector : GoMap) (scheme : Scheme) (merged : PodAdditions) (creator : String)
    (spec1 : PodSpec)
    (hmerge : mergePodAdditions podAdditions = .ok merged)
    (hcreator : GoMap.get? workspace.Labels env.constants.DevWorkspaceCreatorLabel =
      some creator)
    (howner : ∀ d, scheme workspace d = none)
    (hspec : podSpecOfMerged env workspace merged saName tolerations nodeSelector = .ok spec1) :
    ∃ d, getSpecDeployment env workspace podAdditions saName tolerations nodeSelector scheme =
        .ok d ∧ d.Template.Spec = spec1 ∧
      GoMap.get? d.Labels env.constants.DevWorkspaceCreatorLabel = some creator ∧
      GoMap.get? d.Template.Labels env.constants.DevWorkspaceCreatorLabel = some creator := by
  rw [getSpecDeployment_eq env workspace podAdditions saName tolerations nodeSelector scheme
    merged creator _ hmerge (workspaceLabels_ok _ _) hcreator, hspec]
  simp only [GoResult.bind]
  rw [setCreatorLabel_ok env.constants creator _ _ _ rfl rfl]
  simp only [setControllerReference, howner]
  refine ⟨_, rfl, ?_, ?_, ?_⟩
  · simp only [setRestrictedAccess_Spec]
    rfl
  · rw [(setRestrictedAccess_Labels _ _ _).1]
    exact get?_assocSet_self _ _ _
  · rw [(setRestrictedAccess_Labels _ _ _).2]
    exact get?_assocSet_self _ _ _

theorem applyPVCWorkaround_init (vm : VolumeMount) (spec : PodSpec)
    (h : spec.InitContainers ≠ []) :
    ∃ spec1, applyPVCWorkaround vm spec = .ok spec1 ∧ spec1.Containers = spec.Containers := by
  unfold applyPVCWorkaround
  cases hi : spec.InitContainers with
  | nil => exact absurd hi h
  | cons ic ics => exact ⟨_, rfl, rfl⟩

theorem podSpecOfMerged_no_containers (env : Env) (workspace : DevWorkspace)
    (merged : PodAdditions) (saName : String) (tolerations : List Toleration)
    (nodeSelector : GoMap)
    (hzero : merged.Containers = [])
    (hpvc : (needsPVCWorkaround env merged).1 = false ∨ merged.InitContainers ≠ []) :
    ∃ spec1, podSpecOfMerged env workspace merged saName tolerations nodeSelector = .ok spec1 ∧
      spec1.Containers = [] := by
  unfold podSpecOfMerged
  dsimp only
  have hn : needsPVCWorkaround env
      { merged with
        Containers := appendSharedMounts merged.VolumeMounts merged.Containers
        InitContainers := appendSharedMounts merged.VolumeMounts merged.InitContainers } =
      needsPVCWorkaround env merged := rfl
  rw [hn]
  have hbase : (setScheduling env.constants workspace tolerations nodeSelector
      (basePodSpec env
        { merged with
          Containers := appendSharedMounts merged.VolumeMounts merged.Containers
          InitContainers := appendSharedMounts merged.VolumeMounts merged.InitContainers }
        saName)).Containers = [] := by
    rw [setScheduling_Containers]
    simp [basePodSpec, appendSharedMounts, hzero]
  by_cases hp : (needsPVCWorkaround env merged).1 = true
  · have hinit : merged.InitContainers ≠ [] := by
      rcases hpvc with h | h
      · rw [h] at hp; cases hp
      · exact h
    have hinit1 : (setScheduling env.constants workspace tolerations nodeSelector
        (basePodSpec env
          { merged with
            Containers := appendSharedMounts merged.VolumeMounts merged.Containers
            InitContainers := appendSharedMounts merged.VolumeMounts merged.InitContainers }
          saName)).InitContainers ≠ [] := by
      rw [setScheduling_InitContainers]
      simpa [basePodSpec, appendSharedMounts] using hinit
    obtain ⟨spec1, h1, h2⟩ := applyPVCWorkaround_init
      (getWorkspaceSubpathVolumeMount workspace.Status.DevWorkspaceId
        (needsPVCWorkaround env merged).2) _ hinit1
    exact ⟨spec1, by rw [if_pos hp]; exact h1, by rw [h2]; exact hbase⟩
  · exact ⟨_, by rw [if_neg hp], hbase⟩

/-- C4 (amended): for a workspace that carries the creator label, when the
namespace's tolerations and node selector can be read, the fragments merge
without error into zero containers, the owner reference can be set and the
volume-permission workaround has a container to act on (no merged volume has
the common PVC name or the alternate name, or there is an init container),
`getSpecDeployment` returns a deployment without containers and
`SyncDeploymentToCluster` returns the proceed outcome (`Continue` only) after
the namespace read alone: nothing is submitted to the cluster synchronizer. -/
theorem SyncDeploymentToCluster_no_containers (env : Env) (workspace : DevWorkspace)
    (podAdditions : List PodAdditions) (saName : String) (api : ClusterAPI)
    (tolerations : List Toleration) (nodeSelector : GoMap) (merged : PodAdditions)
    (creator : String)
    (hns : api.GetNamespacePodTolerationsAndNodeSelector workspace.Namespace =
      .ok (tolerations, nodeSelector))
    (hmerge : mergePodAdditions podAdditions = .ok merged)
    (hzero : merged.Containers = [])
    (hcreator : GoMap.get? workspace.Labels env.constants.DevWorkspaceCreatorLabel =
      some creator)
    (howner : ∀ d, api.Scheme workspace d = none)
    (hpvc : (needsPVCWorkaround env merged).1 = false ∨ merged.InitContainers ≠ []) :
    (∃ d, getSpecDeployment env workspace podAdditions saName tolerations nodeSelector
        api.Scheme = .ok d ∧ d.Template.Spec.Containers = []) ∧
      SyncDeploymentToCluster env workspace podAdditions saName api =
        (.ok { Continue := true, Requeue := false, FailStartup := false, Err := none,
               Message := "" },
          [.GetNamespacePodTolerationsAndNodeSelector workspace.Namespace]) ∧
      ∀ d, Call.SyncObjectWithCluster d ∉
        (SyncDeploymentToCluster env workspace podAdditions saName api).2 := by
  obtain ⟨spec1, hspec1, hcont⟩ := podSpecOfMerged_no_containers env workspace merged saName
    tolerations nodeSelector hzero hpvc
  obtain ⟨d, hd, hdspec, _, _⟩ := getSpecDeployment_ok_of_spec env workspace podAdditions saName
    tolerations nodeSelector api.Scheme merged creator spec1 hmerge hcreator howner hspec1
  have hdc : d.Template.Spec.Containers = [] := by rw [hdspec]; exact hcont
  have hrun : SyncDeploymentToCluster env workspace podAdditions saName api =
      (.ok { Continue := true, Requeue := false, FailStartup := false, Err := none,
             Message := "" },
        [.GetNamespacePodTolerationsAndNodeSelector workspace.Namespace]) := by
    simp [SyncDeploymentToCluster, hns, hd, hdc]
  refine ⟨⟨d, hd, hdc⟩, hrun, ?_⟩
  intro d1 hmem
  rw [hrun] at hmem
  simp at hmem

/-! ## Pod events -/

theorem lookup_unrecoverablePodEventReasons (reason : String) :
    unrecoverablePodEventReasons.lookup reason = eventThreshold reason := by
  unfold unrecoverablePodEventReasons eventThreshold
  by_cases h1 : reason = "FailedPostStartHook"
  · subst h1; decide
  by_cases h2 : reason = "FailedMount"
  · subst h2; decide
  by_cases h3 : reason = "FailedScheduling"
  · subst h3; decide
  by_cases h4 : reason = "FailedCreate"
  · subst h4; decide
  by_cases h5 : reason = "ReplicaSetCreateError"
  · subst h5; decide
  have e1 : (reason == "FailedPostStartHook") = false := beq_false_of_ne h1
  have e2 : (reason == "FailedMount") = false := beq_false_of_ne h2
  have e3 : (reason == "FailedScheduling") = false := beq_false_of_ne h3
  have e4 : (reason == "FailedCreate") = false := beq_false_of_ne h4
  have e5 : (reason == "ReplicaSetCreateError") = false := beq_false_of_ne h5
  have hm : reason ∉ ["FailedPostStartHook", "FailedScheduling", "FailedCreate",
      "ReplicaSetCreateError"] := by
    intro hmem
    simp only [List.mem_cons, List.mem_singleton, List.not_mem_nil, or_false] at hmem
    rcases hmem with h | h | h | h
    · exact h1 h
    · exact h3 h
    · exact h4 h
    · exact h5 h
  rw [if_neg h2, if_neg hm]
  rw [List.lookup_cons, e1, List.lookup_cons, e2, List.lookup_cons, e3, List.lookup_cons, e4,
    List.lookup_cons, e5, List.lookup_nil]

theorem checkIfUnrecoverableEventIgnored_eq (env : Env) (reason : String) :
    checkIfUnrecoverableEventIgnored env reason = env.IgnoredUnrecoverableEvents.contains reason := by
  unfold checkIfUnrecoverableEventIgnored
  induction env.IgnoredUnrecoverableEvents with
  | nil => rfl
  | cons a l ih =>
    simp only [List.any_cons, List.contains_cons, ih]
    congr 1
    rw [Bool.eq_iff_iff, beq_iff_eq, beq_iff_eq]
    exact eq_comm

theorem checkPodEventsLoop_cons (env : Env) (workspaceID : String) (ev : Event)
    (rest : List Event) :
    checkPodEventsLoop env workspaceID (ev :: rest) =
      if unrecoverableEvent env workspaceID ev then eventFailureMessage ev
      else checkPodEventsLoop env workspaceID rest := by
  rw [checkPodEventsLoop]
  simp only [unrecoverableEvent, lookup_unrecoverablePodEventReasons,
    checkIfUnrecoverableEventIgnored_eq, ge_iff_le]
  have hbne : (ev.Kind != "Pod") = !(ev.Kind == "Pod") := rfl
  rcases Bool.eq_false_or_eq_true (ev.Kind == "Pod") with hk | hk <;>
    rcases Bool.eq_false_or_eq_true (suppressedEvent env workspaceID ev) with hs | hs <;>
    rcases Option.eq_none_or_eq_some (eventThreshold ev.Reason) with ht | ⟨t, ht⟩ <;>
    simp [hbne, hk, hs, ht]

theorem checkPodEventsLoop_eq_find (env : Env) (workspaceID : String) (evs : List Event) :
    checkPodEventsLoop env workspaceID evs =
      match evs.find? (unrecoverableEvent env workspaceID) with
      | some ev => eventFailureMessage ev
      | none => "" := by
  induction evs with
  | nil => rfl
  | cons ev rest ih =>
    rw [checkPodEventsLoop_cons, List.find?_cons]
    cases unrecoverableEvent env workspaceID ev <;> simp [ih]

theorem eventFailureMessage_ne_empty (ev : Event) : eventFailureMessage ev ≠ "" := by
  have hlen : ("Detected unrecoverable event ").length = 29 := by decide
  unfold eventFailureMessage
  split <;> intro h <;> have hl := congrArg String.length h <;>
    simp only [String.length_append, hlen] at hl <;>
    have h0 : ("").length = 0 := rfl <;> omega

theorem find?_append_cons_first {α : Type} (p : α → Bool) (pre post : List α) (a : α)
    (hpre : ∀ x ∈ pre, p x = false) (ha : p a = true) :
    (pre ++ a :: post).find? p = some a := by
  induction pre with
  | nil => simp [List.find?_cons, ha]
  | cons x xs ih =>
    have hx : p x = false := hpre x (List.mem_cons_self x xs)
    have hxs : ∀ y ∈ xs, p y = false := fun y hy => hpre y (List.mem_cons_of_mem x hy)
    simp [List.find?_cons, hx, ih hxs]

/-- C6: when the events of a pod are listed, `checkPodEvents` returns no error,
and its message is non-empty exactly when some listed event is unrecoverable
(kind Pod, not the suppressed mount failure, reason with a threshold, not
ignored, count at or above the threshold: `FailedMount` 3, others 1). The
message is built from the first such event: without the count when the count
is exactly 1, with `<count> times` when it is above 1. Events that all stay
below their threshold give the empty message. -/
theorem checkPodEvents_message (env : Env) (api : ClusterAPI) (call : Nat) (pod : Pod)
    (workspaceID : String) (evs : List Event)
    (hsel : api.ParseSelector ("involvedObject.name=" ++ pod.Name) = none)
    (hlist : api.ListEvents call pod.Namespace ("involvedObject.name=" ++ pod.Name) = .ok evs) :
    (checkPodEvents env api call pod workspaceID).1.2 = none ∧
    ((checkPodEvents env api call pod workspaceID).1.1 ≠ "" ↔
      ∃ ev ∈ evs, unrecoverableEvent env workspaceID ev = true) ∧
    (∀ pre ev post, evs = pre ++ ev :: post →
      (∀ e ∈ pre, unrecoverableEvent env workspaceID e = false) →
      unrecoverableEvent env workspaceID ev = true →
      (ev.Count = 1 ∨ ev.Count > 1) ∧
      (ev.Count = 1 → (checkPodEvents env api call pod workspaceID).1.1 =
        "Detected unrecoverable event " ++ ev.Reason ++ ": " ++ ev.Message) ∧
      (ev.Count > 1 → (checkPodEvents env api call pod workspaceID).1.1 =
        "Detected unrecoverable event " ++ ev.Reason ++ " " ++ toString ev.Count ++
          " times: " ++ ev.Message)) ∧
    ((∀ ev ∈ evs, ∀ threshold, eventThreshold ev.Reason = some threshold →
        ev.Count < threshold) →
      (checkPodEvents env api call pod workspaceID).1.1 = "") := by
  have hrun : (checkPodEvents env api call pod workspaceID).1 =
      (checkPodEventsLoop env workspaceID evs, none) := by
    simp only [checkPodEvents, hsel, hlist]
  rw [hrun, checkPodEventsLoop_eq_find]
  refine ⟨rfl, ?_, ?_, ?_⟩
  · constructor
    · intro hne
      cases hf : evs.find? (unrecoverableEvent env workspaceID) with
      | none => rw [hf] at hne; exact absurd rfl hne
      | some ev => exact ⟨ev, List.mem_of_find?_eq_some hf, List.find?_some hf⟩
    · rintro ⟨ev, hmem, hev⟩
      cases hf : evs.find? (unrecoverableEvent env workspaceID) with
      | none =>
        have := List.find?_eq_none.mp hf ev hmem
        exact absurd hev this
      | some ev1 => exact eventFailureMessage_ne_empty ev1
  · intro pre ev post hevs hpre hev
    have hf := find?_append_cons_first (unrecoverableEvent env workspaceID) pre post ev hpre hev
    rw [hevs, hf]
    have hcount : 1 ≤ ev.Count := by
      unfold unrecoverableEvent at hev
      unfold eventThreshold at hev
      split at hev
      · rename_i t ht
        simp only [Bool.and_eq_true, decide_eq_true_eq] at hev
        have ht1 : 1 ≤ t := by
          split at ht
          · cases ht; decide
          · split at ht
            · cases ht; decide
            · cases ht
        omega
      · simp at hev
    refine ⟨by omega, ?_, ?_⟩
    · intro h1
      simp only [eventFailureMessage, h1]
      rfl
    · intro h1
      simp only [eventFailureMessage, h1, if_true]
  · intro hbelow
    have hnone : evs.find? (unrecoverableEvent env workspaceID) = none := by
      apply List.find?_eq_none.mpr
      intro ev hmem hev
      unfold unrecoverableEvent at hev
      split at hev
      · rename_i t ht
        simp only [Bool.and_eq_true, decide_eq_true_eq] at hev
        have := hbelow ev hmem t ht
        omega
      · simp at hev
    rw [hnone]

/-! ## Container statuses and the pod loop -/

theorem any_beq_eq_decide_mem (l : List String) (s : String) :
    (l.any fun x => s == x) = decide (s ∈ l) := by
  induction l with
  | nil => simp
  | cons a l ih =>
    rw [List.any_cons, ih, Bool.eq_iff_iff]
    simp [List.mem_cons]

theorem checkContainerStatusForFailure_eq (env : Env) (cs : ContainerStatus) :
    checkContainerStatusForFailure env cs = !decisiveStatus env cs := by
  unfold checkContainerStatusForFailure decisiveStatus
  cases cs.Waiting with
  | none => rfl
  | some w =>
    simp only [containerFailureStateReasons, any_beq_eq_decide_mem,
      checkIfUnrecoverableEventIgnored_eq]
    by_cases hm : w.Reason ∈ ["CrashLoopBackOff", "ImagePullBackOff", "CreateContainerError",
      "RunContainerError"]
    · simp [hm]
    · simp [hm]

theorem find?_failed_status_none (env : Env) (l : List ContainerStatus)
    (h : l.all (fun cs => !decisiveStatus env cs) = true) :
    l.find? (fun cs => !checkContainerStatusForFailure env cs) = none := by
  apply List.find?_eq_none.mpr
  intro cs hmem
  have hcs := List.all_eq_true.mp h cs hmem
  simp only [Bool.not_eq_true'] at hcs
  simp [checkContainerStatusForFailure_eq, hcs]

theorem checkPodEvents_quiet (env : Env) (api : ClusterAPI) (workspaceID : String)
    (call : Nat) (pod : Pod) (evs : List Event)
    (hsel : api.ParseSelector ("involvedObject.name=" ++ pod.Name) = none)
    (hlist : api.ListEvents call pod.Namespace ("involvedObject.name=" ++ pod.Name) = .ok evs)
    (hall : evs.all (fun ev => !unrecoverableEvent env workspaceID ev) = true) :
    checkPodEvents env api call pod workspaceID =
      (("", none), [.ListEvents pod.Namespace ("involvedObject.name=" ++ pod.Name)]) := by
  have hnone : evs.find? (unrecoverableEvent env workspaceID) = none := by
    apply List.find?_eq_none.mpr
    intro ev hmem
    have := List.all_eq_true.mp hall ev hmem
    simpa using this
  simp only [checkPodEvents, hsel, hlist, checkPodEventsLoop_eq_find, hnone]

theorem checkPodsStateLoop_quiet_cons (env : Env) (api : ClusterAPI) (workspaceID : String)
    (call : Nat) (pod : Pod) (rest : List Pod)
    (hq : podQuiet env api workspaceID call pod = true) :
    checkPodsStateLoop env api workspaceID call (pod :: rest) =
      ((checkPodsStateLoop env api workspaceID (call + 1) rest).1,
        Call.ListEvents pod.Namespace ("involvedObject.name=" ++ pod.Name) ::
          (checkPodsStateLoop env api workspaceID (call + 1) rest).2) := by
  unfold podQuiet at hq
  simp only [Bool.and_eq_true] at hq
  obtain ⟨⟨⟨hcs, hics⟩, hsel⟩, hev⟩ := hq
  have hsel1 : api.ParseSelector ("involvedObject.name=" ++ pod.Name) = none := by
    cases h : api.ParseSelector ("involvedObject.name=" ++ pod.Name) with
    | none => rfl
    | some e => rw [h] at hsel; cases hsel
  cases hl : api.ListEvents call pod.Namespace ("involvedObject.name=" ++ pod.Name) with
  | error e => rw [hl] at hev; cases hev
  | ok evs =>
    rw [hl] at hev
    rw [checkPodsStateLoop]
    simp only [find?_failed_status_none env _ hcs, find?_failed_status_none env _ hics,
      checkPodEvents_quiet env api workspaceID call pod evs hsel1 hl hev]
    simp

theorem checkPodsStateLoop_quiet_append (env : Env) (api : ClusterAPI) (workspaceID : String)
    (pre rest : List Pod) (call : Nat)
    (hq : podsQuiet env api workspaceID call pre = true) :
    (checkPodsStateLoop env api workspaceID call (pre ++ rest)).1 =
      (checkPodsStateLoop env api workspaceID (call + pre.length) rest).1 := by
  induction pre generalizing call with
  | nil => simp
  | cons pod pods ih =>
    unfold podsQuiet at hq
    simp only [Bool.and_eq_true] at hq
    rw [List.cons_append, checkPodsStateLoop_quiet_cons env api workspaceID call pod _ hq.1]
    simp only
    rw [ih (call + 1) hq.2, List.length_cons]
    congr 2
    omega

theorem checkPodsStateLoop_all_quiet (env : Env) (api : ClusterAPI) (workspaceID : String)
    (pods : List Pod) (call : Nat)
    (hq : podsQuiet env api workspaceID call pods = true) :
    (checkPodsStateLoop env api workspaceID call pods).1 = ("", none) := by
  have := checkPodsStateLoop_quiet_append env api workspaceID pods [] call hq
  rw [List.append_nil] at this
  rw [this]
  rfl

theorem find?_failed_status_first (env : Env) (pre post : List ContainerStatus)
    (cs : ContainerStatus)
    (hpre : pre.all (fun c => !decisiveStatus env c) = true)
    (hcs : decisiveStatus env cs = true) :
    (pre ++ cs :: post).find? (fun c => !checkContainerStatusForFailure env c) = some cs := by
  apply find?_append_cons_first
  · intro x hx
    have hx1 := List.all_eq_true.mp hpre x hx
    simp only [Bool.not_eq_true'] at hx1
    simp [checkContainerStatusForFailure_eq, hx1]
  · simp [checkContainerStatusForFailure_eq, hcs]

theorem decisiveStatus_of_waiting (env : Env) (cs : ContainerStatus)
    (waiting : ContainerStateWaiting) (hw : cs.Waiting = some waiting)
    (hr : waiting.Reason ∈ ["CrashLoopBackOff", "ImagePullBackOff", "CreateContainerError",
      "RunContainerError"])
    (hi : waiting.Reason ∉ env.IgnoredUnrecoverableEvents) :
    decisiveStatus env cs = true := by
  unfold decisiveStatus
  rw [hw]
  simp [hr, hi]

theorem checkPodsStateLoop_container_failed (env : Env) (api : ClusterAPI)
    (workspaceID : String) (call : Nat) (pod : Pod) (rest : List Pod)
    (pre post : List ContainerStatus) (cs : ContainerStatus) (waiting : ContainerStateWaiting)
    (hsplit : pod.ContainerStatuses = pre ++ cs :: post)
    (hpre : pre.all (fun c => !decisiveStatus env c) = true)
    (hw : cs.Waiting = some waiting) (hcs : decisiveStatus env cs = true) :
    checkPodsStateLoop env api workspaceID call (pod :: rest) =
      (("Container " ++ cs.Name ++ " has state " ++ waiting.Reason, none), []) := by
  rw [checkPodsStateLoop, hsplit, find?_failed_status_first env pre post cs hpre hcs]
  simp only [ContainerStatus.waitingReason, hw]

theorem checkPodsStateLoop_init_container_failed (env : Env) (api : ClusterAPI)
    (workspaceID : String) (call : Nat) (pod : Pod) (rest : List Pod)
    (pre post : List ContainerStatus) (cs : ContainerStatus) (waiting : ContainerStateWaiting)
    (hmain : pod.ContainerStatuses.all (fun c => !decisiveStatus env c) = true)
    (hsplit : pod.InitContainerStatuses = pre ++ cs :: post)
    (hpre : pre.all (fun c => !decisiveStatus env c) = true)
    (hw : cs.Waiting = some waiting) (hcs : decisiveStatus env cs = true) :
    checkPodsStateLoop env api workspaceID call (pod :: rest) =
      (("Init Container " ++ cs.Name ++ " has state " ++ waiting.Reason, none), []) := by
  rw [checkPodsStateLoop, find?_failed_status_none env _ hmain, hsplit,
    find?_failed_status_first env pre post cs hpre hcs]
  simp only [ContainerStatus.waitingReason, hw]

theorem checkPodsStateLoop_events_error (env : Env) (api : ClusterAPI)
    (workspaceID : String) (call : Nat) (pod : Pod) (rest : List Pod) (err : GoError)
    (hmain : pod.ContainerStatuses.all (fun c => !decisiveStatus env c) = true)
    (hinit : pod.InitContainerStatuses.all (fun c => !decisiveStatus env c) = true)
    (hsel : api.ParseSelector ("involvedObject.name=" ++ pod.Name) = none)
    (hlist : api.ListEvents call pod.Namespace ("involvedObject.name=" ++ pod.Name) =
      .error err) :
    (checkPodsStateLoop env api workspaceID call (pod :: rest)).1 =
      ("", some (.wrapError
        ("failed to list events in namespace " ++ pod.Namespace ++ ": " ++ err.Error) err)) := by
  rw [checkPodsStateLoop, find?_failed_status_none env _ hmain,
    find?_failed_status_none env _ hinit]
  simp [checkPodEvents, hsel, hlist]

/-! ## `SyncDeploymentToCluster` -/

theorem checkDeploymentConditionsLoop_healthy (conditions : List DeploymentCondition)
    (h : ∀ c ∈ conditions, c.Reason ≠ "FailedCreate") :
    checkDeploymentConditionsLoop conditions = (true, "") := by
  induction conditions with
  | nil => rfl
  | cons c cs ih =>
    rw [checkDeploymentConditionsLoop]
    have hc : c.Reason ≠ "FailedCreate" := h c (List.mem_cons_self c cs)
    have hany : (unrecoverableDeploymentConditionReasons.any
        fun unrecoverableReason => c.Reason == unrecoverableReason) = false := by
      simp [unrecoverableDeploymentConditionReasons, hc]
    rw [hany]
    exact ih fun x hx => h x (List.mem_cons_of_mem c hx)

theorem SyncDeploymentToCluster_health (env : Env) (workspace : DevWorkspace)
    (podAdditions : List PodAdditions) (saName : String) (api : ClusterAPI)
    (tolerations : List Toleration) (nodeSelector : GoMap) (spec live : Deployment)
    (hns : api.GetNamespacePodTolerationsAndNodeSelector workspace.Namespace =
      .ok (tolerations, nodeSelector))
    (hspec : getSpecDeployment env workspace podAdditions saName tolerations nodeSelector
      api.Scheme = .ok spec)
    (hne : spec.Template.Spec.Containers ≠ [])
    (hsync : api.SyncObjectWithCluster spec = .synced live)
    (hready : ¬ live.Status.ReadyReplicas > 0)
    (hcond : ∀ c ∈ live.Status.Conditions, c.Reason ≠ "FailedCreate") :
    SyncDeploymentToCluster env workspace podAdditions saName api =
      (.ok (podsStateStatus (checkPodsState env workspace api).1.1
          (checkPodsState env workspace api).1.2),
        Call.GetNamespacePodTolerationsAndNodeSelector workspace.Namespace ::
          Call.SyncObjectWithCluster spec :: (checkPodsState env workspace api).2) := by
  have hlen : (spec.Template.Spec.Containers.length == 0) = false := by
    cases hc : spec.Template.Spec.Containers with
    | nil => exact absurd hc hne
    | cons a l => rfl
  have hnotready : checkDeploymentStatus live = false := by
    simp [checkDeploymentStatus, hready]
  have hhealthy : checkDeploymentConditions live = (true, "") :=
    checkDeploymentConditionsLoop_healthy _ hcond
  simp [SyncDeploymentToCluster, hns, hspec, hlen, hsync, hnotready, hhealthy]

theorem checkPodsState_listed (env : Env) (workspace : DevWorkspace) (api : ClusterAPI)
    (pods : List Pod)
    (hpods : api.ListPods workspace.Namespace workspace.Status.DevWorkspaceId = .ok pods) :
    (checkPodsState env workspace api).1 =
      (checkPodsStateLoop env api workspace.Status.DevWorkspaceId 0 pods).1 := by
  simp [checkPodsState, hpods]

/-- C8: once the cluster synchronizer has returned the live deployment, a
ready-replica count above 0 makes `SyncDeploymentToCluster` return the proceed
outcome, whatever the deployment's conditions and the pods are; the only calls
made are the namespace read and the synchronization, so no pods and no events
are listed. -/
theorem SyncDeploymentToCluster_ready (env : Env) (workspace : DevWorkspace)
    (podAdditions : List PodAdditions) (saName : String) (api : ClusterAPI)
    (tolerations : List Toleration) (nodeSelector : GoMap) (spec live : Deployment)
    (hns : api.GetNamespacePodTolerationsAndNodeSelector workspace.Namespace =
      .ok (tolerations, nodeSelector))
    (hspec : getSpecDeployment env workspace podAdditions saName tolerations nodeSelector
      api.Scheme = .ok spec)
    (hne : spec.Template.Spec.Containers ≠ [])
    (hsync : api.SyncObjectWithCluster spec = .synced live)
    (hready : live.Status.ReadyReplicas > 0) :
    SyncDeploymentToCluster env workspace podAdditions saName api =
        (.ok { Continue := true },
          [.GetNamespacePodTolerationsAndNodeSelector workspace.Namespace,
            .SyncObjectWithCluster spec]) ∧
      ∀ c ∈ (SyncDeploymentToCluster env workspace podAdditions saName api).2,
        (∀ ns id, c ≠ .ListPods ns id) ∧ (∀ ns selector, c ≠ .ListEvents ns selector) := by
  have hlen : (spec.Template.Spec.Containers.length == 0) = false := by
    cases hc : spec.Template.Spec.Containers with
    | nil => exact absurd hc hne
    | cons a l => rfl
  have hrun : SyncDeploymentToCluster env workspace podAdditions saName api =
      (.ok { Continue := true },
        [.GetNamespacePodTolerationsAndNodeSelector workspace.Namespace,
          .SyncObjectWithCluster spec]) := by
    simp [SyncDeploymentToCluster, hns, hspec, hlen, hsync, checkDeploymentStatus, hready]
  refine ⟨hrun, ?_⟩
  rw [hrun]
  intro c hc
  simp only [List.mem_cons, List.mem_singleton, List.not_mem_nil, or_false] at hc
  rcases hc with rfl | rfl <;> exact ⟨fun _ _ h => (by cases h), fun _ _ h => (by cases h)⟩

/-- C7 (amended): whenever `SyncDeploymentToCluster` returns, its outcome has
exactly one of the four tags set, or it is the neutral keep-waiting outcome
(the zero value), which has none; two tags are never set together. The call
never returns an error value of its own: it returns a status or panics. -/
theorem SyncDeploymentToCluster_tags (env : Env) (workspace : DevWorkspace)
    (podAdditions : List PodAdditions) (saName : String) (api : ClusterAPI) :
    (∃ msg, (SyncDeploymentToCluster env workspace podAdditions saName api).1 =
        .panicked msg) ∨
      ∃ st, (SyncDeploymentToCluster env workspace podAdditions saName api).1 = .ok st ∧
        (tagCount st.toProvisioningStatus = 1 ∨
          (st = {} ∧ tagCount st.toProvisioningStatus = 0)) := by
  unfold SyncDeploymentToCluster podsStateStatus
  dsimp only
  repeat' split
  all_goals
    first
    | exact Or.inl ⟨_, rfl⟩
    | (refine Or.inr ⟨_, rfl, Or.inr ⟨rfl, ?_⟩⟩; simp [tagCount, outcomeTags])
    | (refine Or.inr ⟨_, rfl, Or.inl ?_⟩; simp [tagCount, outcomeTags])

/-- C9: during health evaluation (live deployment synced, not ready, no
unrecoverable condition) a failed pod listing makes `SyncDeploymentToCluster`
return the outcome whose only set field is `Err`, holding the listing error;
a failed event listing for a pod (reached because the pods before it are
quiet and its own statuses are not decisive) returns the outcome whose only
set field is `Err`, holding the error `failed to list events in namespace
<ns>: <cause>` that wraps the listing error. `FailStartup`, `Continue` and
`Requeue` are false in both. -/
theorem SyncDeploymentToCluster_listing_failure (env : Env) (workspace : DevWorkspace)
    (podAdditions : List PodAdditions) (saName : String) (api : ClusterAPI)
    (tolerations : List Toleration) (nodeSelector : GoMap) (spec live : Deployment)
    (hns : api.GetNamespacePodTolerationsAndNodeSelector workspace.Namespace =
      .ok (tolerations, nodeSelector))
    (hspec : getSpecDeployment env workspace podAdditions saName tolerations nodeSelector
      api.Scheme = .ok spec)
    (hne : spec.Template.Spec.Containers ≠ [])
    (hsync : api.SyncObjectWithCluster spec = .synced live)
    (hready : ¬ live.Status.ReadyReplicas > 0)
    (hcond : ∀ c ∈ live.Status.Conditions, c.Reason ≠ "FailedCreate") :
    (∀ err, api.ListPods workspace.Namespace workspace.Status.DevWorkspaceId = .error err →
      (SyncDeploymentToCluster env workspace podAdditions saName api).1 =
        .ok { Continue := false, Requeue := false, FailStartup := false, Err := some err,
              Message := "" }) ∧
    (∀ pre pod post err,
      api.ListPods workspace.Namespace workspace.Status.DevWorkspaceId =
        .ok (pre ++ pod :: post) →
      podsQuiet env api workspace.Status.DevWorkspaceId 0 pre = true →
      pod.ContainerStatuses.all (fun cs => !decisiveStatus env cs) = true →
      pod.InitContainerStatuses.all (fun cs => !decisiveStatus env cs) = true →
      api.ParseSelector ("involvedObject.name=" ++ pod.Name) = none →
      api.ListEvents pre.length pod.Namespace ("involvedObject.name=" ++ pod.Name) =
        .error err →
      (SyncDeploymentToCluster env workspace podAdditions saName api).1 =
        .ok { Continue := false, Requeue := false, FailStartup := false,
              Err := some (.wrapError
                ("failed to list events in namespace " ++ pod.Namespace ++ ": " ++ err.Error)
                err),
              Message := "" } ∧
      GoError.Is (.wrapError
        ("failed to list events in namespace " ++ pod.Namespace ++ ": " ++ err.Error) err)
        err = true) := by
  have hrun := SyncDeploymentToCluster_health env workspace podAdditions saName api tolerations
    nodeSelector spec live hns hspec hne hsync hready hcond
  constructor
  · intro err hpods
    rw [hrun]
    simp [checkPodsState, hpods, podsStateStatus]
  · intro pre pod post err hpods hpre hmain hinit hsel hlist
    constructor
    · rw [hrun, checkPodsState_listed env workspace api _ hpods,
        checkPodsStateLoop_quiet_append env api _ pre (pod :: post) 0 hpre]
      have hlist1 : api.ListEvents (0 + pre.length) pod.Namespace
          ("involvedObject.name=" ++ pod.Name) = .error err := by
        rw [Nat.zero_add]; exact hlist
      rw [checkPodsStateLoop_events_error env api _ (0 + pre.length) pod post err hmain hinit
        hsel hlist1]
      rfl
    · cases err <;> simp [GoError.Is]

/-- C5 (amended): with the live deployment synced, its ready-replica count 0
and no unrecoverable condition, take a pod whose predecessors in the pod list
are quiet and a status of it, waiting with one of the four failure reasons,
whose predecessors among the statuses are not decisive. If the reason is not
ignored, the outcome is fail-workspace with message `Container <name> has
state <reason>` for a container status, and `Init Container <name> has state
<reason>` for an init-container status (the container statuses then not being
decisive). If the reason is ignored and every pod of the list is quiet (no
decisive status, events listed, no unrecoverable event), the outcome is the
neutral one, with no field set. -/
theorem SyncDeploymentToCluster_container_waiting (env : Env) (workspace : DevWorkspace)
    (podAdditions : List PodAdditions) (saName : String) (api : ClusterAPI)
    (tolerations : List Toleration) (nodeSelector : GoMap) (spec live : Deployment)
    (pre post : List Pod) (pod : Pod) (before after : List ContainerStatus)
    (cs : ContainerStatus) (waiting : ContainerStateWaiting)
    (hns : api.GetNamespacePodTolerationsAndNodeSelector workspace.Namespace =
      .ok (tolerations, nodeSelector))
    (hspec : getSpecDeployment env workspace podAdditions saName tolerations nodeSelector
      api.Scheme = .ok spec)
    (hne : spec.Template.Spec.Containers ≠ [])
    (hsync : api.SyncObjectWithCluster spec = .synced live)
    (hready : live.Status.ReadyReplicas = 0)
    (hcond : ∀ c ∈ live.Status.Conditions, c.Reason ≠ "FailedCreate")
    (hpods : api.ListPods workspace.Namespace workspace.Status.DevWorkspaceId =
      .ok (pre ++ pod :: post))
    (hpre : podsQuiet env api workspace.Status.DevWorkspaceId 0 pre = true)
    (hbefore : before.all (fun c => !decisiveStatus env c) = true)
    (hw : cs.Waiting = some waiting)
    (hr : waiting.Reason ∈ ["CrashLoopBackOff", "ImagePullBackOff", "CreateContainerError",
      "RunContainerError"]) :
    (pod.ContainerStatuses = before ++ cs :: after →
      waiting.Reason ∉ env.IgnoredUnrecoverableEvents →
      (SyncDeploymentToCluster env workspace podAdditions saName api).1 =
        .ok { Continue := false, Requeue := false, FailStartup := true, Err := none,
              Message := "Container " ++ cs.Name ++ " has state " ++ waiting.Reason }) ∧
    (pod.InitContainerStatuses = before ++ cs :: after →
      pod.ContainerStatuses.all (fun c => !decisiveStatus env c) = true →
      waiting.Reason ∉ env.IgnoredUnrecoverableEvents →
      (SyncDeploymentToCluster env workspace podAdditions saName api).1 =
        .ok { Continue := false, Requeue := false, FailStartup := true, Err := none,
              Message := "Init Container " ++ cs.Name ++ " has state " ++ waiting.Reason }) ∧
    ((pod.ContainerStatuses = before ++ cs :: after ∨
        pod.InitContainerStatuses = before ++ cs :: after) →
      waiting.Reason ∈ env.IgnoredUnrecoverableEvents →
      podsQuiet env api workspace.Status.DevWorkspaceId 0 (pre ++ pod :: post) = true →
      (SyncDeploymentToCluster env workspace podAdditions saName api).1 =
        .ok { Continue := false, Requeue := false, FailStartup := false, Err := none,
              Message := "" }) := by
  have hnot : ¬ live.Status.ReadyReplicas > 0 := by omega
  have hrun := SyncDeploymentToCluster_health env workspace podAdditions saName api tolerations
    nodeSelector spec live hns hspec hne hsync hnot hcond
  have hlen : ("Container ").length = 10 := by decide
  have hlen1 : ("Init Container ").length = 15 := by decide
  have hempty : ("").length = 0 := rfl
  refine ⟨?_, ?_, ?_⟩
  · intro hsplit hi
    have hcs := decisiveStatus_of_waiting env cs waiting hw hr hi
    rw [hrun, checkPodsState_listed env workspace api _ hpods,
      checkPodsStateLoop_quiet_append env api _ pre (pod :: post) 0 hpre,
      checkPodsStateLoop_container_failed env api _ _ pod post before after cs waiting hsplit
        hbefore hw hcs]
    have hmsg : "Container " ++ cs.Name ++ " has state " ++ waiting.Reason ≠ "" := by
      intro h
      have hl := congrArg String.length h
      simp only [String.length_append, hlen, hempty] at hl
      omega
    simp [podsStateStatus, hmsg]
  · intro hsplit hmain hi
    have hcs := decisiveStatus_of_waiting env cs waiting hw hr hi
    rw [hrun, checkPodsState_listed env workspace api _ hpods,
      checkPodsStateLoop_quiet_append env api _ pre (pod :: post) 0 hpre,
      checkPodsStateLoop_init_container_failed env api _ _ pod post before after cs waiting
        hmain hsplit hbefore hw hcs]
    have hmsg : "Init Container " ++ cs.Name ++ " has state " ++ waiting.Reason ≠ "" := by
      intro h
      have hl := congrArg String.length h
      simp only [String.length_append, hlen1, hempty] at hl
      omega
    simp [podsStateStatus, hmsg]
  · intro _ _ hall
    rw [hrun, checkPodsState_listed env workspace api _ hpods,
      checkPodsStateLoop_all_quiet env api _ _ 0 hall]
    rfl

/-! ## Finalization -/

theorem finalizeLoop_storage_first (r : DevWorkspaceReconciler) (workspace : DevWorkspace)
    (pre post : List String)
    (hpre : r.constants.ServiceAccountCleanupFinalizer ∉ pre) :
    finalizeLoop r workspace (pre ++ r.constants.StorageCleanupFinalizer :: post) =
      finalizeStorage r workspace := by
  induction pre with
  | nil => simp [finalizeLoop]
  | cons f fs ih =>
    have hf : f ≠ r.constants.ServiceAccountCleanupFinalizer := fun h =>
      hpre (h ▸ List.mem_cons_self f fs)
    have hfs : r.constants.ServiceAccountCleanupFinalizer ∉ fs := fun h =>
      hpre (List.mem_cons_of_mem f h)
    rw [List.cons_append, finalizeLoop]
    by_cases hs : f = r.constants.StorageCleanupFinalizer
    · simp [hs]
    · simp [hs, hf, ih hfs]

theorem finalizeLoop_serviceAccount_first (r : DevWorkspaceReconciler)
    (workspace : DevWorkspace) (pre post : List String)
    (hpre : r.constants.StorageCleanupFinalizer ∉ pre)
    (hne : r.constants.ServiceAccountCleanupFinalizer ≠ r.constants.StorageCleanupFinalizer) :
    finalizeLoop r workspace (pre ++ r.constants.ServiceAccountCleanupFinalizer :: post) =
      finalizeServiceAccount r workspace := by
  induction pre with
  | nil => simp [finalizeLoop, hne]
  | cons f fs ih =>
    have hf : f ≠ r.constants.StorageCleanupFinalizer := fun h =>
      hpre (h ▸ List.mem_cons_self f fs)
    have hfs : r.constants.StorageCleanupFinalizer ∉ fs := fun h =>
      hpre (List.mem_cons_of_mem f h)
    rw [List.cons_append, finalizeLoop]
    by_cases hs : f = r.constants.ServiceAccountCleanupFinalizer
    · simp [hs, hne]
    · simp [hs, hf, ih hfs]

theorem finalizeStorage_calls (r : DevWorkspaceReconciler) (workspace : DevWorkspace) :
    Call.finalizeStorage ∈ (finalizeStorage r workspace).calls ∧
      Call.finalizeServiceAccount ∉ (finalizeStorage r workspace).calls ∧
      ∀ w, Call.FinalizeServiceAccount w ∉ (finalizeStorage r workspace).calls := by
  unfold finalizeStorage DeleteWorkspaceDeployment namespaceIsTerminating
    updateWorkspaceStatusFailed
  dsimp only
  repeat' split
  all_goals simp

/-- C10 (amended): for a workspace not in the Error phase whose status update
succeeds or fails with a write conflict only, and whose finalizer list holds
the storage-cleanup finalizer with no service-account-cleanup finalizer before
it (other finalizers may stand anywhere, the service-account one after it),
`finalize` runs `finalizeStorage` on the workspace marked Terminating and does
not run service-account finalization in that invocation. -/
theorem finalize_storage_before_serviceAccount (r : DevWorkspaceReconciler)
    (workspace : DevWorkspace) (pre post : List String)
    (hphase : workspace.Status.Phase ≠ .Error)
    (hupdate : ∀ err, r.Client.StatusUpdate (markTerminating workspace) = some err →
      r.Client.IsConflict err = true)
    (hfinalizers : workspace.Finalizers =
      pre ++ r.constants.StorageCleanupFinalizer :: post)
    (hpre : r.constants.ServiceAccountCleanupFinalizer ∉ pre) :
    finalize r workspace =
        (finalizeStorage r (markTerminating workspace)).after
          [.StatusUpdate (markTerminating workspace)] ∧
      Call.finalizeStorage ∈ (finalize r workspace).calls ∧
      Call.finalizeServiceAccount ∉ (finalize r workspace).calls ∧
      ∀ w, Call.FinalizeServiceAccount w ∉ (finalize r workspace).calls := by
  have hloop : finalizeLoop r (markTerminating workspace) (markTerminating workspace).Finalizers =
      finalizeStorage r (markTerminating workspace) := by
    have : (markTerminating workspace).Finalizers = workspace.Finalizers := rfl
    rw [this, hfinalizers]
    exact finalizeLoop_storage_first r _ pre post hpre
  have hrun : finalize r workspace =
      (finalizeStorage r (markTerminating workspace)).after
        [.StatusUpdate (markTerminating workspace)] := by
    unfold finalize
    have hp : (workspace.Status.Phase != DevWorkspacePhase.Error) = true := by
      simpa using hphase
    simp only [hp, if_true, hloop]
    cases hu : r.Client.StatusUpdate (markTerminating workspace) with
    | none => rfl
    | some err => simp [hupdate err hu]
  obtain ⟨h1, h2, h3⟩ := finalizeStorage_calls r (markTerminating workspace)
  refine ⟨hrun, ?_, ?_, ?_⟩
  · rw [hrun]; simp [FinalizeRun.after, h1]
  · rw [hrun]; simp [FinalizeRun.after, h2]
  · intro w; rw [hrun]; simp [FinalizeRun.after, h3 w]


/-! ## Evaluations on sample inputs -/

/-- C1 (defect): a fragment that carries an annotation and repeats the
container name `c` makes `mergePodAdditions` panic on the nil `Annotations`
map of its result instead of returning the duplicate-container error that the
same fragment without the annotation gets; two fragments with different
container names, no duplicate name and a label panic as well instead of being
merged. -/
theorem mergePodAdditions_annotated_fragment_panics :
    mergePodAdditions
        [{ Annotations := some [("a", "b")]
           Containers := [{ Name := "c" }, { Name := "c" }] }] =
      .panicked "assignment to entry in nil map" ∧
    mergePodAdditions [{ Containers := [{ Name := "c" }, { Name := "c" }] }] =
      .error (.errorString "duplicate containers in the workspace definition: c") ∧
    mergePodAdditions
        [{ Labels := some [("a", "b")], Containers := [{ Name := "c" }] },
         { Containers := [{ Name := "d" }] }] =
      .panicked "assignment to entry in nil map" := by
  decide

/-- C2 (defect): for the workspace whose two container components give the
deployment annotation `k` the values `1` and `2`, `getAdditionalAnnotations`
returns the conflicting-annotation error, yet `getSpecDeployment` returns a
deployment (with a nil annotation map) and no error. -/
theorem getSpecDeployment_conflicting_annotations_dropped :
    getAdditionalAnnotations conflictingWorkspace =
      .error (.errorString
        "conflicting annotations found on container components for key k") ∧
    ((getSpecDeployment sampleEnv conflictingWorkspace sampleFragments "sa" [] none
        (fun _ _ => none)).toOption.map fun d => d.Annotations) = some none := by
  decide

/-- C3 (defect): with a single fragment that only brings the volume named like
the common PVC, `getSpecDeployment` panics on `Containers[0]` for the workspace
without creator label (no error is returned) and for the workspace with it (no
deployment is returned), although the fragment merges without error. -/
theorem getSpecDeployment_volume_only_panics :
    (mergePodAdditions volumeOnlyFragments).toOption.isSome = true ∧
    getSpecDeployment sampleEnv noCreatorWorkspace volumeOnlyFragments "sa" [] none
        (fun _ _ => none) = .panicked "index out of range [0] with length 0" ∧
    getSpecDeployment sampleEnv sampleWorkspace volumeOnlyFragments "sa" [] none
        (fun _ _ => none) = .panicked "index out of range [0] with length 0" := by
  decide

/-- C4 (counterexample): the empty fragment list merges into zero containers,
but for the workspace without creator label `SyncDeploymentToCluster` returns a
fail-workspace outcome, not the proceed outcome. -/
theorem SyncDeploymentToCluster_no_containers_counterexample :
    mergePodAdditions [] = .ok {} ∧
    (SyncDeploymentToCluster sampleEnv noCreatorWorkspace [] "sa"
        (sampleAPI pendingLive (.ok []) fun _ => .ok [])).1 =
      .ok { Continue := false
            FailStartup := true
            Err := some (.errorString
              "workspace must have creator specified to be run. Recreate it to fix an issue") } := by
  decide

/-- Witness of C4: a fragment with one init container, no container and the
volume named like the common PVC. -/
theorem SyncDeploymentToCluster_no_containers_witness :
    SyncDeploymentToCluster sampleEnv sampleWorkspace
        [{ InitContainers := [{ Name := "init" }], Volumes := [{ Name := "claim-devworkspace" }] }]
        "sa" (sampleAPI pendingLive (.ok []) fun _ => .ok []) =
      (.ok { Continue := true, Requeue := false, FailStartup := false, Err := none,
             Message := "" },
        [.GetNamespacePodTolerationsAndNodeSelector sampleWorkspace.Namespace]) :=
  (SyncDeploymentToCluster_no_containers sampleEnv sampleWorkspace
    [{ InitContainers := [{ Name := "init" }], Volumes := [{ Name := "claim-devworkspace" }] }]
    "sa" (sampleAPI pendingLive (.ok []) fun _ => .ok []) [] none
    { InitContainers := [{ Name := "init" }], Volumes := [{ Name := "claim-devworkspace" }] }
    "u" rfl (by decide) rfl (by decide) (fun _ => rfl) (Or.inr (by decide))).2.1

/-- C5 (counterexample): with `CrashLoopBackOff` ignored, one pod, one waiting
container and no other status or event, a failed event listing gives a
propagate-error outcome, not the neutral one; and with nothing ignored and
containers `c1` (`CrashLoopBackOff`) and `c2` (`ImagePullBackOff`) both
waiting, the message names `c1`, not `c2`. -/
theorem SyncDeploymentToCluster_container_waiting_counterexample :
    (SyncDeploymentToCluster (sampleEnvIgnoring ["CrashLoopBackOff"]) sampleWorkspace
        sampleFragments "sa"
        (sampleAPI pendingLive
          (.ok [{ Name := "p", Namespace := "ns"
                  ContainerStatuses := [waitingStatus "c1" "CrashLoopBackOff"] }])
          fun _ => .error (.errorString "timeout"))).1 =
      .ok { Err := some (.wrapError "failed to list events in namespace ns: timeout"
              (.errorString "timeout")) } ∧
    waitingStatus "c2" "ImagePullBackOff" ∈ crashingPod.ContainerStatuses ∧
    (SyncDeploymentToCluster sampleEnv sampleWorkspace sampleFragments "sa"
        (sampleAPI pendingLive (.ok [crashingPod]) fun _ => .ok [])).1 =
      .ok { FailStartup := true, Message := "Container c1 has state CrashLoopBackOff" } ∧
    "Container c1 has state CrashLoopBackOff" ≠ "Container c2 has state ImagePullBackOff" := by
  decide

/-- Witness of C5: the first waiting container of `crashingPod`, the waiting
init container of `initCrashingPod`, and `crashingPod` with both reasons
ignored. -/
theorem SyncDeploymentToCluster_container_waiting_witness :
    (SyncDeploymentToCluster sampleEnv sampleWorkspace sampleFragments "sa"
        (sampleAPI pendingLive (.ok [crashingPod]) fun _ => .ok [])).1 =
      .ok { FailStartup := true, Message := "Container c1 has state CrashLoopBackOff" } ∧
    (SyncDeploymentToCluster sampleEnv sampleWorkspace sampleFragments "sa"
        (sampleAPI pendingLive (.ok [initCrashingPod]) fun _ => .ok [])).1 =
      .ok { FailStartup := true, Message := "Init Container i1 has state CrashLoopBackOff" } ∧
    (SyncDeploymentToCluster (sampleEnvIgnoring ["CrashLoopBackOff", "ImagePullBackOff"])
        sampleWorkspace sampleFragments "sa"
        (sampleAPI pendingLive (.ok [crashingPod]) fun _ => .ok [])).1 = .ok {} :=
  ⟨(SyncDeploymentToCluster_container_waiting sampleEnv sampleWorkspace sampleFragments "sa"
      (sampleAPI pendingLive (.ok [crashingPod]) fun _ => .ok []) [] none sampleSpec
      pendingLive [] [] crashingPod [] [waitingStatus "c2" "ImagePullBackOff"]
      (waitingStatus "c1" "CrashLoopBackOff") { Reason := "CrashLoopBackOff" }
      rfl (by decide) (by decide) rfl rfl (by decide) rfl rfl rfl rfl (by decide)).1
      rfl (by decide),
   (SyncDeploymentToCluster_container_waiting sampleEnv sampleWorkspace sampleFragments "sa"
      (sampleAPI pendingLive (.ok [initCrashingPod]) fun _ => .ok []) [] none sampleSpec
      pendingLive [] [] initCrashingPod [] []
      (waitingStatus "i1" "CrashLoopBackOff") { Reason := "CrashLoopBackOff" }
      rfl (by decide) (by decide) rfl rfl (by decide) rfl rfl rfl rfl (by decide)).2.1
      rfl (by decide) (by decide),
   (SyncDeploymentToCluster_container_waiting
      (sampleEnvIgnoring ["CrashLoopBackOff", "ImagePullBackOff"]) sampleWorkspace
      sampleFragments "sa"
      (sampleAPI pendingLive (.ok [crashingPod]) fun _ => .ok []) [] none sampleSpec
      pendingLive [] [] crashingPod [] [waitingStatus "c2" "ImagePullBackOff"]
      (waitingStatus "c1" "CrashLoopBackOff") { Reason := "CrashLoopBackOff" }
      rfl (by decide) (by decide) rfl rfl (by decide) rfl rfl rfl rfl (by decide)).2.2
      (Or.inl rfl) (by decide) (by decide)⟩

/-- Witness of C6: a `FailedMount` event seen twice (below its threshold 3)
followed by a `FailedScheduling` event seen once. -/
theorem checkPodEvents_message_witness :
    (checkPodEvents sampleEnv
        (sampleAPI pendingLive (.ok [crashingPod]) fun _ =>
          .ok [{ Kind := "Pod", Reason := "FailedMount", Message := "m", Count := 2 },
               { Kind := "Pod", Reason := "FailedScheduling", Message := "no nodes",
                 Count := 1 }])
        0 crashingPod "id").1.1 =
      "Detected unrecoverable event FailedScheduling: no nodes" :=
  ((checkPodEvents_message sampleEnv
      (sampleAPI pendingLive (.ok [crashingPod]) fun _ =>
        .ok [{ Kind := "Pod", Reason := "FailedMount", Message := "m", Count := 2 },
             { Kind := "Pod", Reason := "FailedScheduling", Message := "no nodes",
               Count := 1 }])
      0 crashingPod "id"
      [{ Kind := "Pod", Reason := "FailedMount", Message := "m", Count := 2 },
       { Kind := "Pod", Reason := "FailedScheduling", Message := "no nodes", Count := 1 }]
      rfl rfl).2.2.1
    [{ Kind := "Pod", Reason := "FailedMount", Message := "m", Count := 2 }]
    { Kind := "Pod", Reason := "FailedScheduling", Message := "no nodes", Count := 1 } []
    rfl (by decide) (by decide)).2.1 rfl

/-- C7 (counterexample): with the live deployment not ready, no unrecoverable
condition and no pod, `SyncDeploymentToCluster` returns the zero-value outcome,
which has none of the four tags set. -/
theorem SyncDeploymentToCluster_tags_counterexample :
    (SyncDeploymentToCluster sampleEnv sampleWorkspace sampleFragments "sa"
        (sampleAPI pendingLive (.ok []) fun _ => .ok [])).1 =
      .ok { Continue := false, Requeue := false, FailStartup := false, Err := none,
            Message := "" } ∧
    outcomeTags { Continue := false, Requeue := false, FailStartup := false, Err := none,
                  Message := "" } = [false, false, false, false] := by
  decide

/-- Witness of C8: a live deployment with one ready replica, a `FailedCreate`
condition and a pod whose containers wait in `CrashLoopBackOff`. -/
theorem SyncDeploymentToCluster_ready_witness :
    SyncDeploymentToCluster sampleEnv sampleWorkspace sampleFragments "sa"
        (sampleAPI readyLive (.ok [crashingPod]) fun _ => .ok []) =
      (.ok { Continue := true },
        [.GetNamespacePodTolerationsAndNodeSelector sampleWorkspace.Namespace,
          .SyncObjectWithCluster sampleSpec]) :=
  (SyncDeploymentToCluster_ready sampleEnv sampleWorkspace sampleFragments "sa"
    (sampleAPI readyLive (.ok [crashingPod]) fun _ => .ok []) [] none sampleSpec readyLive
    rfl (by decide) (by decide) rfl (by decide)).1

/-- Witness of C9: the pod listing times out; and the event listing of the
only pod, whose statuses are not decisive, times out. -/
theorem SyncDeploymentToCluster_listing_failure_witness :
    (SyncDeploymentToCluster sampleEnv sampleWorkspace sampleFragments "sa"
        (sampleAPI pendingLive (.error (.errorString "timeout")) fun _ => .ok [])).1 =
      .ok { Err := some (.errorString "timeout") } ∧
    (SyncDeploymentToCluster sampleEnv sampleWorkspace sampleFragments "sa"
        (sampleAPI pendingLive (.ok [{ Name := "p", Namespace := "ns" }]) fun _ =>
          .error (.errorString "timeout"))).1 =
      .ok { Err := some (.wrapError "failed to list events in namespace ns: timeout"
              (.errorString "timeout")) } :=
  ⟨(SyncDeploymentToCluster_listing_failure sampleEnv sampleWorkspace sampleFragments "sa"
      (sampleAPI pendingLive (.error (.errorString "timeout")) fun _ => .ok []) [] none
      sampleSpec pendingLive rfl (by decide) (by decide) rfl (by decide) (by decide)).1
      (.errorString "timeout") rfl,
   ((SyncDeploymentToCluster_listing_failure sampleEnv sampleWorkspace sampleFragments "sa"
      (sampleAPI pendingLive (.ok [{ Name := "p", Namespace := "ns" }]) fun _ =>
        .error (.errorString "timeout")) [] none
      sampleSpec pendingLive rfl (by decide) (by decide) rfl (by decide) (by decide)).2
      [] { Name := "p", Namespace := "ns" } [] (.errorString "timeout") rfl rfl rfl rfl rfl
      rfl).1⟩

/-- C10 (counterexample): with the service-account finalizer listed before
the storage finalizer, `finalize` runs service-account finalization and does
not run storage finalization. -/
theorem finalize_storage_priority_counterexample :
    (finalizingWorkspace
        ["serviceaccount.controller.devfile.io", "storage.controller.devfile.io"]).Status.Phase ≠
      .Error ∧
    Call.finalizeServiceAccount ∈ (finalize sampleReconciler (finalizingWorkspace
      ["serviceaccount.controller.devfile.io", "storage.controller.devfile.io"])).calls ∧
    Call.finalizeStorage ∉ (finalize sampleReconciler (finalizingWorkspace
      ["serviceaccount.controller.devfile.io", "storage.controller.devfile.io"])).calls := by
  decide

/-- Witness of C10: the storage finalizer between an unknown finalizer and the
service-account finalizer. -/
theorem finalize_storage_before_serviceAccount_witness :
    Call.finalizeStorage ∈ (finalize sampleReconciler (finalizingWorkspace
      ["other", "storage.controller.devfile.io",
        "serviceaccount.controller.devfile.io"])).calls ∧
    Call.finalizeServiceAccount ∉ (finalize sampleReconciler (finalizingWorkspace
      ["other", "storage.controller.devfile.io",
        "serviceaccount.controller.devfile.io"])).calls :=
  ⟨(finalize_storage_before_serviceAccount sampleReconciler
      (finalizingWorkspace ["other", "storage.controller.devfile.io",
        "serviceaccount.controller.devfile.io"])
      ["other"] ["serviceaccount.controller.devfile.io"] (by decide)
      (fun _ h => Option.noConfusion h) rfl (by decide)).2.1,
   (finalize_storage_before_serviceAccount sampleReconciler
      (finalizingWorkspace ["other", "storage.controller.devfile.io",
        "serviceaccount.controller.devfile.io"])
      ["other"] ["serviceaccount.controller.devfile.io"] (by decide)
      (fun _ h => Option.noConfusion h) rfl (by decide)).2.2.1⟩

/-! ## Finalization: dispatch and storage cleanup -/

theorem finalizeLoop_unknown_prefix (r : DevWorkspaceReconciler) (workspace : DevWorkspace)
    (pre rest : List String) (hpre : ∀ f ∈ pre, knownFinalizer r.constants f = false) :
    finalizeLoop r workspace (pre ++ rest) = finalizeLoop r workspace rest := by
  induction pre with
  | nil => rfl
  | cons f fs ih =>
    have hf := hpre f (List.mem_cons_self f fs)
    unfold knownFinalizer at hf
    simp only [Bool.or_eq_false_iff] at hf
    rw [List.cons_append, finalizeLoop]
    simp only [hf.1, hf.2, Bool.false_eq_true, if_false]
    exact ih fun g hg => hpre g (List.mem_cons_of_mem f hg)

theorem finalizeStorage_marker_count (r : DevWorkspaceReconciler) (workspace : DevWorkspace) :
    (finalizeStorage r workspace).calls.count Call.finalizeStorage = 1 ∧
      (finalizeStorage r workspace).calls.count Call.finalizeServiceAccount = 0 := by
  unfold finalizeStorage DeleteWorkspaceDeployment namespaceIsTerminating
    updateWorkspaceStatusFailed
  dsimp only
  repeat' split
  all_goals simp [List.count_cons, List.count_append]

theorem finalizeServiceAccount_marker_count (r : DevWorkspaceReconciler)
    (workspace : DevWorkspace) :
    (finalizeServiceAccount r workspace).calls.count Call.finalizeServiceAccount = 1 ∧
      (finalizeServiceAccount r workspace).calls.count Call.finalizeStorage = 0 := by
  unfold finalizeServiceAccount updateWorkspaceStatusFailed
  dsimp only
  repeat' split
  all_goals simp [List.count_cons, List.count_append]

theorem finalize_dispatch (r : DevWorkspaceReconciler) (workspace : DevWorkspace)
    (hphase : workspace.Status.Phase ≠ .Error)
    (hupdate : ∀ err, r.Client.StatusUpdate (markTerminating workspace) = some err →
      r.Client.IsConflict err = true) :
    finalize r workspace =
      (finalizeLoop r (markTerminating workspace) workspace.Finalizers).after
        [.StatusUpdate (markTerminating workspace)] := by
  unfold finalize
  have hp : (workspace.Status.Phase != DevWorkspacePhase.Error) = true := by
    simpa using hphase
  have hfin : (markTerminating workspace).Finalizers = workspace.Finalizers := rfl
  simp only [hp, if_true, hfin]
  cases hu : r.Client.StatusUpdate (markTerminating workspace) with
  | none => rfl
  | some err => simp [hupdate err hu]

/-- C11 (amended): for a workspace not in the Error phase whose status update
succeeds or fails with a write conflict only, `finalize` skips the finalizers
that are neither the storage-cleanup nor the service-account-cleanup one and
runs the cleanup of the first known finalizer only: `finalizeStorage` once and
`finalizeServiceAccount` not at all when it is the storage one, the reverse
when it is the service-account one. When the list holds no known finalizer no
cleanup runs and the result is empty with no error. -/
theorem finalize_first_known_finalizer (r : DevWorkspaceReconciler)
    (workspace : DevWorkspace)
    (hphase : workspace.Status.Phase ≠ .Error)
    (hupdate : ∀ err, r.Client.StatusUpdate (markTerminating workspace) = some err →
      r.Client.IsConflict err = true)
    (hne : r.constants.ServiceAccountCleanupFinalizer ≠ r.constants.StorageCleanupFinalizer) :
    (∀ pre post, workspace.Finalizers = pre ++ r.constants.StorageCleanupFinalizer :: post →
      (∀ f ∈ pre, knownFinalizer r.constants f = false) →
      finalize r workspace =
          (finalizeStorage r (markTerminating workspace)).after
            [.StatusUpdate (markTerminating workspace)] ∧
        (finalize r workspace).calls.count Call.finalizeStorage = 1 ∧
        (finalize r workspace).calls.count Call.finalizeServiceAccount = 0) ∧
    (∀ pre post,
      workspace.Finalizers = pre ++ r.constants.ServiceAccountCleanupFinalizer :: post →
      (∀ f ∈ pre, knownFinalizer r.constants f = false) →
      finalize r workspace =
          (finalizeServiceAccount r (markTerminating workspace)).after
            [.StatusUpdate (markTerminating workspace)] ∧
        (finalize r workspace).calls.count Call.finalizeServiceAccount = 1 ∧
        (finalize r workspace).calls.count Call.finalizeStorage = 0) ∧
    ((∀ f ∈ workspace.Finalizers, knownFinalizer r.constants f = false) →
      finalize r workspace =
        { result := { Requeue := false, RequeueAfter := 0 }, err := none,
          workspace := markTerminating workspace,
          calls := [.StatusUpdate (markTerminating workspace)] }) := by
  have hrun := finalize_dispatch r workspace hphase hupdate
  refine ⟨?_, ?_, ?_⟩
  · intro pre post hfin hpre
    have h : finalize r workspace =
        (finalizeStorage r (markTerminating workspace)).after
          [.StatusUpdate (markTerminating workspace)] := by
      rw [hrun, hfin, finalizeLoop_unknown_prefix r _ pre _ hpre, finalizeLoop]
      simp
    obtain ⟨c1, c2⟩ := finalizeStorage_marker_count r (markTerminating workspace)
    refine ⟨h, ?_, ?_⟩
    · rw [h]; simp [FinalizeRun.after, List.count_cons, c1]
    · rw [h]; simp [FinalizeRun.after, List.count_cons, c2]
  · intro pre post hfin hpre
    have h : finalize r workspace =
        (finalizeServiceAccount r (markTerminating workspace)).after
          [.StatusUpdate (markTerminating workspace)] := by
      rw [hrun, hfin, finalizeLoop_unknown_prefix r _ pre _ hpre, finalizeLoop]
      simp [hne]
    obtain ⟨c1, c2⟩ := finalizeServiceAccount_marker_count r (markTerminating workspace)
    refine ⟨h, ?_, ?_⟩
    · rw [h]; simp [FinalizeRun.after, List.count_cons, c1]
    · rw [h]; simp [FinalizeRun.after, List.count_cons, c2]
  · intro hall
    have h := finalizeLoop_unknown_prefix r (markTerminating workspace) workspace.Finalizers []
      hall
    rw [List.append_nil] at h
    rw [hrun, h]
    rfl

/-- C12: when the deletion of the workload reports it as not found and the
namespace is in the Terminating phase, `finalizeStorage` drops the
storage-cleanup finalizer from the workspace (every other finalizer stays, in
order) and calls `Update` on the workspace; the calls made are the deletion,
the namespace read and the update, so no storage provisioner is obtained and
`CleanupWorkspaceStorage` is not invoked. -/
theorem finalizeStorage_namespace_terminating (r : DevWorkspaceReconciler)
    (workspace : DevWorkspace) (err : GoError)
    (hdel : r.Client.Delete workspace.Namespace
      (r.DeploymentName workspace.Status.DevWorkspaceId) = some err)
    (hnf : r.Client.IsNotFound err = true)
    (hns : r.Client.GetNamespace workspace.Namespace = .ok "Terminating") :
    finalizeStorage r workspace =
        { result := { Requeue := false, RequeueAfter := 0 }
          err := r.Client.Update
            (RemoveFinalizer workspace r.constants.StorageCleanupFinalizer)
          workspace := RemoveFinalizer workspace r.constants.StorageCleanupFinalizer
          calls :=
            [.finalizeStorage,
              .DeleteDeployment workspace.Namespace
                (r.DeploymentName workspace.Status.DevWorkspaceId),
              .GetNamespace workspace.Namespace,
              .Update (RemoveFinalizer workspace r.constants.StorageCleanupFinalizer)] } ∧
      r.constants.StorageCleanupFinalizer ∉ (finalizeStorage r workspace).workspace.Finalizers ∧
      (finalizeStorage r workspace).workspace.Finalizers =
        workspace.Finalizers.filter (fun f => f != r.constants.StorageCleanupFinalizer) ∧
      (∀ w, Call.GetProvisioner w ∉ (finalizeStorage r workspace).calls) ∧
      (∀ w, Call.CleanupWorkspaceStorage w ∉ (finalizeStorage r workspace).calls) := by
  have hrun : finalizeStorage r workspace =
      { result := { Requeue := false, RequeueAfter := 0 }
        err := r.Client.Update
          (RemoveFinalizer workspace r.constants.StorageCleanupFinalizer)
        workspace := RemoveFinalizer workspace r.constants.StorageCleanupFinalizer
        calls :=
          [.finalizeStorage,
            .DeleteDeployment workspace.Namespace
              (r.DeploymentName workspace.Status.DevWorkspaceId),
            .GetNamespace workspace.Namespace,
            .Update (RemoveFinalizer workspace r.constants.StorageCleanupFinalizer)] } := by
    simp [finalizeStorage, DeleteWorkspaceDeployment, namespaceIsTerminating, hdel, hnf, hns]
  refine ⟨hrun, ?_, ?_, ?_, ?_⟩
  · rw [hrun]
    simp [RemoveFinalizer, List.mem_filter]
  · rw [hrun]
    rfl
  · intro w
    rw [hrun]
    simp
  · intro w
    rw [hrun]
    simp

/-- C13: `DeleteWorkspaceDeployment` returns `(false, nil)` when the delete
call reports the deployment as not found, `(true, nil)` when the delete call
succeeds, and `(false, err)` for every other delete error `err`. -/
theorem DeleteWorkspaceDeployment_result (deploymentName : String → String)
    (workspace : DevWorkspace) (client : Client) :
    (∀ err, client.Delete workspace.Namespace
        (deploymentName workspace.Status.DevWorkspaceId) = some err →
      client.IsNotFound err = true →
      (DeleteWorkspaceDeployment deploymentName workspace client).1 = (false, none)) ∧
    (client.Delete workspace.Namespace
        (deploymentName workspace.Status.DevWorkspaceId) = none →
      (DeleteWorkspaceDeployment deploymentName workspace client).1 = (true, none)) ∧
    (∀ err, client.Delete workspace.Namespace
        (deploymentName workspace.Status.DevWorkspaceId) = some err →
      client.IsNotFound err = false →
      (DeleteWorkspaceDeployment deploymentName workspace client).1 = (false, some err)) := by
  refine ⟨?_, ?_, ?_⟩
  · intro err hdel hnf
    simp [DeleteWorkspaceDeployment, hdel, hnf]
  · intro hdel
    simp [DeleteWorkspaceDeployment, hdel]
  · intro err hdel hnf
    simp [DeleteWorkspaceDeployment, hdel, hnf]

/-- C14: when the delete call of `finalizeStorage` succeeds (the deployment
existed and its deletion starts now), `finalizeStorage` returns requeue-now
with no error, leaves the workspace and its finalizers as they are and makes
no call after the deletion: no namespace read, no storage cleanup. In every
invocation in which `CleanupWorkspaceStorage` is called, the delete call has
reported the workload as not found. -/
theorem finalizeStorage_deletion_started (r : DevWorkspaceReconciler)
    (workspace : DevWorkspace) :
    (r.Client.Delete workspace.Namespace
        (r.DeploymentName workspace.Status.DevWorkspaceId) = none →
      finalizeStorage r workspace =
        { result := { Requeue := true, RequeueAfter := 0 }
          err := none
          workspace := workspace
          calls :=
            [.finalizeStorage,
              .DeleteDeployment workspace.Namespace
                (r.DeploymentName workspace.Status.DevWorkspaceId)] }) ∧
    (∀ w, Call.CleanupWorkspaceStorage w ∈ (finalizeStorage r workspace).calls →
      ∃ err, r.Client.Delete workspace.Namespace
          (r.DeploymentName workspace.Status.DevWorkspaceId) = some err ∧
        r.Client.IsNotFound err = true) := by
  constructor
  · intro hdel
    simp [finalizeStorage, DeleteWorkspaceDeployment, hdel]
  · intro w hmem
    cases hdel : r.Client.Delete workspace.Namespace
        (r.DeploymentName workspace.Status.DevWorkspaceId) with
    | none =>
      simp [finalizeStorage, DeleteWorkspaceDeployment, hdel] at hmem
    | some err =>
      refine ⟨err, rfl, ?_⟩
      rcases Bool.eq_false_or_eq_true (r.Client.IsNotFound err) with hnf | hnf
      · exact hnf
      · simp [finalizeStorage, DeleteWorkspaceDeployment, hdel, hnf] at hmem

/-- C15: in `finalizeStorage`, with the workload reported as not found, the
namespace not terminating and a storage provisioner obtained, the result of
`CleanupWorkspaceStorage` decides: `NotReadyError` gives the result with the
error's `RequeueAfter` and no error, the workspace untouched; `ProvisioningError`
hands the failed status (Error phase, the error's message) to
`updateWorkspaceStatus`, the finalizers untouched; any other error is returned
as it is, the workspace untouched; nil removes the storage-cleanup finalizer
and calls `Update`. -/
theorem finalizeStorage_cleanup_result (r : DevWorkspaceReconciler)
    (workspace : DevWorkspace) (err : GoError) (phase : String)
    (storageProvisioner : DevWorkspace → CleanupResult)
    (hdel : r.Client.Delete workspace.Namespace
      (r.DeploymentName workspace.Status.DevWorkspaceId) = some err)
    (hnf : r.Client.IsNotFound err = true)
    (hns : r.Client.GetNamespace workspace.Namespace = .ok phase)
    (hphase : phase ≠ "Terminating")
    (hprov : r.GetProvisioner workspace = .ok storageProvisioner) :
    (∀ message requeueAfter, storageProvisioner workspace = .notReady message requeueAfter →
      (finalizeStorage r workspace).result = { Requeue := false, RequeueAfter := requeueAfter } ∧
      (finalizeStorage r workspace).err = none ∧
      (finalizeStorage r workspace).workspace = workspace) ∧
    (∀ storageErr, storageProvisioner workspace = .provisioningError storageErr →
      (finalizeStorage r workspace).workspace.Status.Phase = .Error ∧
      (finalizeStorage r workspace).workspace.Status.Message = storageErr.Error ∧
      Call.updateWorkspaceStatus workspace storageErr.Error ∈
        (finalizeStorage r workspace).calls ∧
      (finalizeStorage r workspace).workspace.Finalizers = workspace.Finalizers) ∧
    (∀ storageErr, storageProvisioner workspace = .other storageErr →
      (finalizeStorage r workspace).result = { Requeue := false, RequeueAfter := 0 } ∧
      (finalizeStorage r workspace).err = some storageErr ∧
      (finalizeStorage r workspace).workspace = workspace) ∧
    (storageProvisioner workspace = .done →
      (finalizeStorage r workspace).workspace =
        RemoveFinalizer workspace r.constants.StorageCleanupFinalizer ∧
      r.constants.StorageCleanupFinalizer ∉
        (finalizeStorage r workspace).workspace.Finalizers ∧
      Call.Update (RemoveFinalizer workspace r.constants.StorageCleanupFinalizer) ∈
        (finalizeStorage r workspace).calls ∧
      (finalizeStorage r workspace).result = { Requeue := false, RequeueAfter := 0 } ∧
      (finalizeStorage r workspace).err =
        r.Client.Update (RemoveFinalizer workspace r.constants.StorageCleanupFinalizer)) ∧
    ((finalizeStorage r workspace).workspace.Finalizers ≠ workspace.Finalizers →
      storageProvisioner workspace = .done) := by
  have hterm : (phase == "Terminating") = false := beq_false_of_ne hphase
  refine ⟨?_, ?_, ?_, ?_, ?_⟩
  · intro message requeueAfter hres
    simp [finalizeStorage, DeleteWorkspaceDeployment, namespaceIsTerminating, hdel, hnf, hns,
      hterm, hprov, hres]
  · intro storageErr hres
    simp [finalizeStorage, DeleteWorkspaceDeployment, namespaceIsTerminating, hdel, hnf, hns,
      hterm, hprov, hres, updateWorkspaceStatusFailed]
  · intro storageErr hres
    simp [finalizeStorage, DeleteWorkspaceDeployment, namespaceIsTerminating, hdel, hnf, hns,
      hterm, hprov, hres]
  · intro hres
    simp [finalizeStorage, DeleteWorkspaceDeployment, namespaceIsTerminating, hdel, hnf, hns,
      hterm, hprov, hres, RemoveFinalizer, List.mem_filter]
  · intro hchanged
    cases hres : storageProvisioner workspace with
    | done => rfl
    | notReady message requeueAfter =>
      simp [finalizeStorage, DeleteWorkspaceDeployment, namespaceIsTerminating, hdel, hnf, hns,
        hterm, hprov, hres] at hchanged
    | provisioningError storageErr =>
      simp [finalizeStorage, DeleteWorkspaceDeployment, namespaceIsTerminating, hdel, hnf, hns,
        hterm, hprov, hres, updateWorkspaceStatusFailed] at hchanged
    | other storageErr =>
      simp [finalizeStorage, DeleteWorkspaceDeployment, namespaceIsTerminating, hdel, hnf, hns,
        hterm, hprov, hres] at hchanged

/-- C16: for a workspace not in the Error phase whose status update fails with
`err`: when `err` is a write conflict, `finalize` goes on to the finalizer
loop exactly as after a successful update; when it is any other error,
`finalize` returns `err` with an empty result after the status update alone,
and runs neither `finalizeStorage` nor `finalizeServiceAccount`. -/
theorem finalize_status_update_error (r : DevWorkspaceReconciler) (workspace : DevWorkspace)
    (err : GoError)
    (hphase : workspace.Status.Phase ≠ .Error)
    (hupdate : r.Client.StatusUpdate (markTerminating workspace) = some err) :
    (r.Client.IsConflict err = true →
      finalize r workspace =
        (finalizeLoop r (markTerminating workspace) workspace.Finalizers).after
          [.StatusUpdate (markTerminating workspace)]) ∧
    (r.Client.IsConflict err = false →
      finalize r workspace =
          { result := { Requeue := false, RequeueAfter := 0 }
            err := some err
            workspace := markTerminating workspace
            calls := [.StatusUpdate (markTerminating workspace)] } ∧
        Call.finalizeStorage ∉ (finalize r workspace).calls ∧
        Call.finalizeServiceAccount ∉ (finalize r workspace).calls) := by
  have hp : (workspace.Status.Phase != DevWorkspacePhase.Error) = true := by
    simpa using hphase
  constructor
  · intro hc
    exact finalize_dispatch r workspace hphase (fun e he => by
      rw [hupdate] at he
      cases he
      exact hc)
  · intro hc
    have hrun : finalize r workspace =
        { result := { Requeue := false, RequeueAfter := 0 }
          err := some err
          workspace := markTerminating workspace
          calls := [.StatusUpdate (markTerminating workspace)] } := by
      unfold finalize
      simp [hp, hupdate, hc]
    refine ⟨hrun, ?_, ?_⟩ <;> rw [hrun] <;> simp

/-! ## Finalization on sample inputs -/

/-- C11 (counterexample): the workspace is not in the Error phase and lists the
storage-cleanup finalizer, but the status update fails with an error that is
not a conflict: `finalize` returns that error and runs no cleanup; with no
known finalizer in the list it returns the error as well. -/
theorem finalize_first_known_finalizer_counterexample :
    (finalizingWorkspace ["storage.controller.devfile.io"]).Status.Phase ≠ .Error ∧
    Call.finalizeStorage ∉
      (finalize (reconcilerWith (some (.errorString "timeout")) none "Active")
        (finalizingWorkspace ["storage.controller.devfile.io"])).calls ∧
    Call.finalizeServiceAccount ∉
      (finalize (reconcilerWith (some (.errorString "timeout")) none "Active")
        (finalizingWorkspace ["storage.controller.devfile.io"])).calls ∧
    (finalize (reconcilerWith (some (.errorString "timeout")) none "Active")
        (finalizingWorkspace ["other"])).err = some (.errorString "timeout") := by
  decide

/-- Witness of C11: the service-account finalizer after an unknown finalizer
and before the storage finalizer. -/
theorem finalize_first_known_finalizer_witness :
    (finalize sampleReconciler (finalizingWorkspace
        ["other", "serviceaccount.controller.devfile.io",
          "storage.controller.devfile.io"])).calls.count Call.finalizeServiceAccount = 1 ∧
    (finalize sampleReconciler (finalizingWorkspace
        ["other", "serviceaccount.controller.devfile.io",
          "storage.controller.devfile.io"])).calls.count Call.finalizeStorage = 0 :=
  ((finalize_first_known_finalizer sampleReconciler
      (finalizingWorkspace ["other", "serviceaccount.controller.devfile.io",
        "storage.controller.devfile.io"])
      (by decide) (fun _ h => Option.noConfusion h) (by decide)).2.1
    ["other"] ["storage.controller.devfile.io"] rfl (by decide)).2

/-- Witness of C12: the workload is gone, the namespace is terminating, and
the storage finalizer stands between two other finalizers. -/
theorem finalizeStorage_namespace_terminating_witness :
    (finalizeStorage (reconcilerWith none (some (.errorString "not found")) "Terminating")
        (finalizingWorkspace ["other", "storage.controller.devfile.io",
          "serviceaccount.controller.devfile.io"])).workspace.Finalizers =
      ["other", "serviceaccount.controller.devfile.io"] :=
  (finalizeStorage_namespace_terminating
    (reconcilerWith none (some (.errorString "not found")) "Terminating")
    (finalizingWorkspace ["other", "storage.controller.devfile.io",
      "serviceaccount.controller.devfile.io"])
    (.errorString "not found") rfl rfl rfl).2.2.1

/-- Witness of C13: the delete call reports the deployment as not found. -/
theorem DeleteWorkspaceDeployment_result_witness :
    (DeleteWorkspaceDeployment (fun id => id) sampleWorkspace sampleReconciler.Client).1 =
      (false, none) :=
  (DeleteWorkspaceDeployment_result (fun id => id) sampleWorkspace
    sampleReconciler.Client).1 (.errorString "not found") rfl rfl

/-- Witness of C14: the delete call succeeds. -/
theorem finalizeStorage_deletion_started_witness :
    finalizeStorage (reconcilerWith none none "Active")
        (finalizingWorkspace ["storage.controller.devfile.io"]) =
      { result := { Requeue := true, RequeueAfter := 0 }
        err := none
        workspace := finalizingWorkspace ["storage.controller.devfile.io"]
        calls := [.finalizeStorage, .DeleteDeployment "ns" "id"] } :=
  (finalizeStorage_deletion_started (reconcilerWith none none "Active")
    (finalizingWorkspace ["storage.controller.devfile.io"])).1 rfl

/-- Witness of C15: the storage provisioner is not ready and asks for a retry
after 5; and the storage provisioner completes. -/
theorem finalizeStorage_cleanup_result_witness :
    (finalizeStorage (reconcilerCleaning (.notReady "pvc busy" 5))
        (finalizingWorkspace ["storage.controller.devfile.io"])).result =
      { Requeue := false, RequeueAfter := 5 } ∧
    (finalizeStorage (reconcilerCleaning .done)
        (finalizingWorkspace ["storage.controller.devfile.io"])).workspace =
      RemoveFinalizer (finalizingWorkspace ["storage.controller.devfile.io"])
        "storage.controller.devfile.io" :=
  ⟨((finalizeStorage_cleanup_result (reconcilerCleaning (.notReady "pvc busy" 5))
      (finalizingWorkspace ["storage.controller.devfile.io"]) (.errorString "not found")
      "Active" (fun _ => .notReady "pvc busy" 5) rfl rfl rfl (by decide) rfl).1
      "pvc busy" 5 rfl).1,
   ((finalizeStorage_cleanup_result (reconcilerCleaning .done)
      (finalizingWorkspace ["storage.controller.devfile.io"]) (.errorString "not found")
      "Active" (fun _ => .done) rfl rfl rfl (by decide) rfl).2.2.2.1 rfl).1⟩

/-- Witness of C16: the status update fails with a conflict, and with a
timeout. -/
theorem finalize_status_update_error_witness :
    Call.finalizeStorage ∈
      (finalize (reconcilerWith (some (.errorString "conflict")) none "Active")
        (finalizingWorkspace ["storage.controller.devfile.io"])).calls ∧
    finalize (reconcilerWith (some (.errorString "timeout")) none "Active")
        (finalizingWorkspace ["storage.controller.devfile.io"]) =
      { result := { Requeue := false, RequeueAfter := 0 }
        err := some (.errorString "timeout")
        workspace := markTerminating (finalizingWorkspace ["storage.controller.devfile.io"])
        calls :=
          [.StatusUpdate
            (markTerminating (finalizingWorkspace ["storage.controller.devfile.io"]))] } :=
  ⟨by
    rw [(finalize_status_update_error
      (reconcilerWith (some (.errorString "conflict")) none "Active")
      (finalizingWorkspace ["storage.controller.devfile.io"]) (.errorString "conflict")
      (by decide) rfl).1 rfl]
    decide,
   ((finalize_status_update_error
      (reconcilerWith (some (.errorString "timeout")) none "Active")
      (finalizingWorkspace ["storage.controller.devfile.io"]) (.errorString "timeout")
      (by decide) rfl).2 rfl).1⟩

/-! ## `mergePodAdditions`: success, uniqueness and pull secrets -/

theorem mergeLoop_ok_labelFree (fragments : List PodAdditions) (st st1 : MergeState)
    (ha : st.podAdditions.Annotations = none) (hl : st.podAdditions.Labels = none)
    (hok : mergeLoop st fragments = .ok st1) :
    ∀ f ∈ fragments, f.labelFree = true := by
  induction fragments generalizing st with
  | nil => intro f hf; cases hf
  | cons g rest ih =>
    rw [mergeLoop] at hok
    cases hg : mergeOne st g with
    | error e => rw [hg] at hok; cases hok
    | panicked m => rw [hg] at hok; cases hok
    | ok st2 =>
      rw [hg] at hok
      have hfree : g.labelFree = true := by
        rcases Bool.eq_false_or_eq_true g.labelFree with h | h
        · exact h
        · rw [mergeOne_eq st g ha hl] at hg
          simp [h] at hg
      have hst2 : st2.podAdditions.Annotations = none ∧ st2.podAdditions.Labels = none := by
        rw [mergeOne_eq st g ha hl] at hg
        simp only [hfree, if_true] at hg
        split at hg
        · cases hg
        · split at hg
          · cases hg
          · split at hg
            · cases hg
            · split at hg
              · cases hg
              · cases hg
                obtain ⟨_, _, _, _, p5, p6, _⟩ := mergePullSecrets_frame (st.add g) g.PullSecrets
                exact ⟨by rw [p5]; exact ha, by rw [p6]; exact hl⟩
      intro f hf
      rcases List.mem_cons.mp hf with rfl | hf
      · exact hfree
      · exact ih st2 hst2.1 hst2.2 hok f hf

theorem mergePodAdditions_ok_labelFree (fragments : List PodAdditions) (merged : PodAdditions)
    (hok : mergePodAdditions fragments = .ok merged) :
    ∀ f ∈ fragments, f.labelFree = true := by
  unfold mergePodAdditions at hok
  cases hl : mergeLoop {} fragments with
  | error e => rw [hl] at hok; cases hok
  | panicked m => rw [hl] at hok; cases hok
  | ok st1 => exact mergeLoop_ok_labelFree fragments {} st1 rfl rfl hl

theorem mergeLoop_panic_message (fragments : List PodAdditions) (st : MergeState)
    (msg : String)
    (ha : st.podAdditions.Annotations = none) (hl : st.podAdditions.Labels = none)
    (hp : mergeLoop st fragments = .panicked msg) :
    msg = "assignment to entry in nil map" ∧ ∃ f ∈ fragments, f.labelFree = false := by
  induction fragments generalizing st with
  | nil => rw [mergeLoop] at hp; cases hp
  | cons g rest ih =>
    rw [mergeLoop, mergeOne_eq st g ha hl] at hp
    rcases Bool.eq_false_or_eq_true g.labelFree with hfree | hfree
    · simp only [hfree, if_true] at hp
      split at hp
      · cases hp
      · split at hp
        · cases hp
        · split at hp
          · cases hp
          · split at hp
            · cases hp
            · simp only [GoResult.bind] at hp
              obtain ⟨_, _, _, _, p5, p6, _⟩ := mergePullSecrets_frame (st.add g) g.PullSecrets
              obtain ⟨h1, f, hf, h2⟩ := ih (mergePullSecrets (st.add g) g.PullSecrets)
                (by rw [p5]; exact ha) (by rw [p6]; exact hl) hp
              exact ⟨h1, f, List.mem_cons_of_mem g hf, h2⟩
    · simp only [hfree, Bool.false_eq_true, if_false, GoResult.bind] at hp
      cases hp
      exact ⟨rfl, g, List.mem_cons_self g rest, hfree⟩

/-- What `mergePodAdditions` does about names: when it succeeds, the merged
containers, init containers, volumes and volume mounts are the concatenations,
in order, of the fragments' lists, and the names within each of the four lists
are pairwise distinct. When one of the four categories holds a repeated name
the call gives no merged result: it returns an error, or it panics on the nil
label maps, which happens only if some fragment carries a label or an
annotation. -/
theorem mergePodAdditions_unique_names (fragments : List PodAdditions) :
    (∀ merged, mergePodAdditions fragments = .ok merged →
      merged.Containers = fragments.flatMap (fun f => f.Containers) ∧
      merged.InitContainers = fragments.flatMap (fun f => f.InitContainers) ∧
      merged.Volumes = fragments.flatMap (fun f => f.Volumes) ∧
      merged.VolumeMounts = fragments.flatMap (fun f => f.VolumeMounts) ∧
      (merged.Containers.map fun c => c.Name).Nodup ∧
      (merged.InitContainers.map fun c => c.Name).Nodup ∧
      (merged.Volumes.map fun v => v.Name).Nodup ∧
      (merged.VolumeMounts.map fun vm => vm.Name).Nodup) ∧
    ((¬ (containerNamesOf fragments).Nodup ∨ ¬ (initContainerNamesOf fragments).Nodup ∨
        ¬ (volumeNamesOf fragments).Nodup ∨ ¬ (volumeMountNamesOf fragments).Nodup) →
      (∃ err, mergePodAdditions fragments = .error err) ∨
      (mergePodAdditions fragments = .panicked "assignment to entry in nil map" ∧
        ∃ f ∈ fragments, f.labelFree = false)) := by
  have hsucc : ∀ merged, mergePodAdditions fragments = .ok merged →
      merged.Containers = fragments.flatMap (fun f => f.Containers) ∧
      merged.InitContainers = fragments.flatMap (fun f => f.InitContainers) ∧
      merged.Volumes = fragments.flatMap (fun f => f.Volumes) ∧
      merged.VolumeMounts = fragments.flatMap (fun f => f.VolumeMounts) ∧
      (containerNamesOf fragments).Nodup ∧ (initContainerNamesOf fragments).Nodup ∧
      (volumeNamesOf fragments).Nodup ∧ (volumeMountNamesOf fragments).Nodup := by
    intro merged hok
    have hfree := mergePodAdditions_ok_labelFree fragments merged hok
    unfold mergePodAdditions at hok
    rcases mergeLoop_labelFree fragments {} rfl rfl hfree with
      ⟨st1, hst, _, _, q3, q4, q5, q6, c1, c2, c3, c4⟩ | ⟨n, he, _⟩ | ⟨n, he, _⟩ |
      ⟨n, he, _⟩ | ⟨n, he, _⟩
    · rw [hst] at hok
      simp only [GoResult.bind, GoResult.ok.injEq] at hok
      subst hok
      exact ⟨by simpa using q3, by simpa using q4, by simpa using q5, by simpa using q6,
        c1.1, c2.1, c3.1, c4.1⟩
    · rw [he] at hok; cases hok
    · rw [he] at hok; cases hok
    · rw [he] at hok; cases hok
    · rw [he] at hok; cases hok
  constructor
  · intro merged hok
    obtain ⟨h1, h2, h3, h4, n1, n2, n3, n4⟩ := hsucc merged hok
    refine ⟨h1, h2, h3, h4, ?_, ?_, ?_, ?_⟩
    · rw [h1]; exact n1
    · rw [h2]; exact n2
    · rw [h3]; exact n3
    · rw [h4]; exact n4
  · intro hdup
    cases hres : mergePodAdditions fragments with
    | ok merged =>
      obtain ⟨_, _, _, _, n1, n2, n3, n4⟩ := hsucc merged hres
      rcases hdup with h | h | h | h
      · exact absurd n1 h
      · exact absurd n2 h
      · exact absurd n3 h
      · exact absurd n4 h
    | error err => exact Or.inl ⟨err, rfl⟩
    | panicked msg =>
      right
      unfold mergePodAdditions at hres
      cases hl : mergeLoop {} fragments with
      | ok st1 => rw [hl] at hres; cases hres
      | error e => rw [hl] at hres; cases hres
      | panicked m =>
        rw [hl] at hres
        simp only [GoResult.bind, GoResult.panicked.injEq] at hres
        subst hres
        obtain ⟨h1, h2⟩ := mergeLoop_panic_message fragments {} m rfl rfl hl
        exact ⟨by rw [h1], h2⟩

theorem eraseDups_loop_append (a b seen : List String) :
    List.eraseDups.loop (a ++ b) seen =
      List.eraseDups.loop b (List.eraseDups.loop a seen).reverse := by
  induction a generalizing seen with
  | nil => simp [List.eraseDups.loop]
  | cons x xs ih =>
    rw [List.cons_append, List.eraseDups.loop, List.eraseDups.loop]
    cases seen.elem x <;> exact ih _

theorem eraseDups_loop_nodup (names seen : List String) (hseen : seen.Nodup) :
    (List.eraseDups.loop names seen).Nodup ∧
      ∀ n, n ∈ List.eraseDups.loop names seen ↔ n ∈ names ∨ n ∈ seen := by
  induction names generalizing seen with
  | nil => simp [List.eraseDups.loop, hseen]
  | cons x xs ih =>
    rw [List.eraseDups.loop]
    by_cases hx : x ∈ seen
    · have he : seen.elem x = true := by simpa using hx
      rw [he]
      obtain ⟨h1, h2⟩ := ih seen hseen
      refine ⟨h1, fun n => ?_⟩
      rw [h2 n, List.mem_cons]
      constructor
      · rintro (h | h)
        · exact Or.inl (Or.inr h)
        · exact Or.inr h
      · rintro ((h | h) | h)
        · exact Or.inr (h ▸ hx)
        · exact Or.inl h
        · exact Or.inr h
    · have he : seen.elem x = false := by simpa using hx
      rw [he]
      obtain ⟨h1, h2⟩ := ih (x :: seen) (List.nodup_cons.mpr ⟨hx, hseen⟩)
      refine ⟨h1, fun n => ?_⟩
      rw [h2 n, List.mem_cons, List.mem_cons]
      constructor
      · rintro (h | h | h)
        · exact Or.inl (Or.inr h)
        · exact Or.inl (Or.inl h)
        · exact Or.inr h
      · rintro ((h | h) | h)
        · exact Or.inr (Or.inl h)
        · exact Or.inl h
        · exact Or.inr (Or.inr h)

theorem mergePullSecrets_names (st : MergeState) (ps : List LocalObjectReference)
    (hst : st.pullSecretNames =
      (st.podAdditions.PullSecrets.map fun p => p.Name).reverse) :
    (mergePullSecrets st ps).pullSecretNames =
        ((mergePullSecrets st ps).podAdditions.PullSecrets.map fun p => p.Name).reverse ∧
      (mergePullSecrets st ps).pullSecretNames.reverse =
        List.eraseDups.loop (ps.map fun p => p.Name) st.pullSecretNames := by
  induction ps generalizing st with
  | nil => simp [mergePullSecrets, List.eraseDups.loop, hst]
  | cons p rest ih =>
    rw [mergePullSecrets, List.map_cons, List.eraseDups.loop]
    by_cases hp : p.Name ∈ st.pullSecretNames
    · have he : st.pullSecretNames.elem p.Name = true := by simpa using hp
      have hc : st.pullSecretNames.contains p.Name = true := by simpa using hp
      rw [he]
      simp only [hc, if_true]
      exact ih st hst
    · have he : st.pullSecretNames.elem p.Name = false := by simpa using hp
      have hc : st.pullSecretNames.contains p.Name = false := by simpa using hp
      rw [he]
      simp only [hc, Bool.false_eq_true, if_false]
      exact ih _ (by simp [hst])

theorem mergeLoop_pullSecrets (fragments : List PodAdditions) (st st1 : MergeState)
    (ha : st.podAdditions.Annotations = none) (hl : st.podAdditions.Labels = none)
    (hst : st.pullSecretNames =
      (st.podAdditions.PullSecrets.map fun p => p.Name).reverse)
    (hok : mergeLoop st fragments = .ok st1) :
    (st1.podAdditions.PullSecrets.map fun p => p.Name) =
      List.eraseDups.loop (pullSecretNamesOf fragments) st.pullSecretNames := by
  induction fragments generalizing st with
  | nil =>
    rw [mergeLoop] at hok
    cases hok
    simp [pullSecretNamesOf, List.eraseDups.loop, hst]
  | cons g rest ih =>
    rw [mergeLoop, mergeOne_eq st g ha hl] at hok
    rcases Bool.eq_false_or_eq_true g.labelFree with hfree | hfree
    · simp only [hfree, if_true] at hok
      split at hok
      · cases hok
      · split at hok
        · cases hok
        · split at hok
          · cases hok
          · split at hok
            · cases hok
            · simp only [GoResult.bind] at hok
              obtain ⟨_, _, _, _, p5, p6, _⟩ := mergePullSecrets_frame (st.add g) g.PullSecrets
              have hadd : (st.add g).pullSecretNames =
                  ((st.add g).podAdditions.PullSecrets.map fun p => p.Name).reverse := hst
              obtain ⟨j1, j2⟩ := mergePullSecrets_names (st.add g) g.PullSecrets hadd
              have := ih (mergePullSecrets (st.add g) g.PullSecrets)
                (by rw [p5]; exact ha) (by rw [p6]; exact hl) j1 hok
              rw [this]
              have hnames : pullSecretNamesOf (g :: rest) =
                  (g.PullSecrets.map fun p => p.Name) ++ pullSecretNamesOf rest := by
                simp [pullSecretNamesOf]
              have j3 : List.eraseDups.loop (g.PullSecrets.map fun p => p.Name)
                  st.pullSecretNames =
                  (mergePullSecrets (st.add g) g.PullSecrets).pullSecretNames.reverse := j2.symm
              rw [hnames, eraseDups_loop_append, j3, List.reverse_reverse]
    · simp [hfree, GoResult.bind] at hok

theorem mergeLoop_failure_withoutPullSecrets (fragments : List PodAdditions)
    (st st' : MergeState)
    (hc : st.containerNames = st'.containerNames)
    (hi : st.initContainerNames = st'.initContainerNames)
    (hv : st.volumeNames = st'.volumeNames)
    (hm : st.volumeMountNames = st'.volumeMountNames)
    (ha : st.podAdditions.Annotations = none) (hl : st.podAdditions.Labels = none)
    (ha' : st'.podAdditions.Annotations = none) (hl' : st'.podAdditions.Labels = none) :
    (mergeLoop st fragments).failure =
      (mergeLoop st' (fragments.map PodAdditions.withoutPullSecrets)).failure := by
  induction fragments generalizing st st' with
  | nil => rfl
  | cons g rest ih =>
    rw [List.map_cons, mergeLoop, mergeLoop, mergeOne_eq st g ha hl,
      mergeOne_eq st' g.withoutPullSecrets ha' hl']
    have hfree : g.withoutPullSecrets.labelFree = g.labelFree := rfl
    have e1 : g.withoutPullSecrets.Containers = g.Containers := rfl
    have e2 : g.withoutPullSecrets.InitContainers = g.InitContainers := rfl
    have e3 : g.withoutPullSecrets.Volumes = g.Volumes := rfl
    have e4 : g.withoutPullSecrets.VolumeMounts = g.VolumeMounts := rfl
    rw [hfree, e1, e2, e3, e4, ← hc, ← hi, ← hv, ← hm]
    rcases Bool.eq_false_or_eq_true g.labelFree with hf | hf
    · simp only [hf, if_true]
      cases firstDuplicate st.containerNames (g.Containers.map fun c => c.Name) with
      | some n => rfl
      | none =>
        cases firstDuplicate st.initContainerNames (g.InitContainers.map fun c => c.Name) with
        | some n => rfl
        | none =>
          cases firstDuplicate st.volumeNames (g.Volumes.map fun v => v.Name) with
          | some n => rfl
          | none =>
            cases firstDuplicate st.volumeMountNames
                (g.VolumeMounts.map fun vm => vm.Name) with
            | some n => rfl
            | none =>
              simp only [GoResult.bind]
              obtain ⟨p1, p2, p3, p4, p5, p6, _⟩ :=
                mergePullSecrets_frame (st.add g) g.PullSecrets
              obtain ⟨q1, q2, q3, q4, q5, q6, _⟩ :=
                mergePullSecrets_frame (st'.add g.withoutPullSecrets)
                  g.withoutPullSecrets.PullSecrets
              apply ih
              · rw [p1, q1]; simp [MergeState.add, hc, e1]
              · rw [p2, q2]; simp [MergeState.add, hi, e2]
              · rw [p3, q3]; simp [MergeState.add, hv, e3]
              · rw [p4, q4]; simp [MergeState.add, hm, e4]
              · rw [p5]; exact ha
              · rw [p6]; exact hl
              · rw [q5]; exact ha'
              · rw [q6]; exact hl'
    · simp [hf, GoResult.bind]

theorem failure_bind_ok {α β : Type} (r : GoResult α) (f : α → β) :
    (r.bind fun a => .ok (f a)).failure = r.failure := by
  cases r <;> rfl

/-- C17: the pull secrets never make `mergePodAdditions` fail: the call ends
in the same error or panic, or in none, as for the same fragments without
their pull secrets. When it succeeds, the names of the merged pull secrets are
the pull-secret names of the input with every repetition after the first
occurrence erased: each name of the input occurs exactly once. -/
theorem mergePodAdditions_pullSecrets (fragments : List PodAdditions) :
    (mergePodAdditions fragments).failure =
      (mergePodAdditions (fragments.map PodAdditions.withoutPullSecrets)).failure ∧
    ∀ merged, mergePodAdditions fragments = .ok merged →
      (merged.PullSecrets.map fun p => p.Name) = (pullSecretNamesOf fragments).eraseDups ∧
      (merged.PullSecrets.map fun p => p.Name).Nodup ∧
      ∀ n, n ∈ (merged.PullSecrets.map fun p => p.Name) ↔ n ∈ pullSecretNamesOf fragments := by
  constructor
  · unfold mergePodAdditions
    rw [failure_bind_ok, failure_bind_ok]
    exact mergeLoop_failure_withoutPullSecrets fragments {} {} rfl rfl rfl rfl rfl rfl rfl rfl
  · intro merged hok
    unfold mergePodAdditions at hok
    cases hl : mergeLoop {} fragments with
    | error e => rw [hl] at hok; cases hok
    | panicked m => rw [hl] at hok; cases hok
    | ok st1 =>
      rw [hl] at hok
      simp only [GoResult.bind, GoResult.ok.injEq] at hok
      subst hok
      have hnames := mergeLoop_pullSecrets fragments {} st1 rfl rfl rfl hl
      have hloop : List.eraseDups.loop (pullSecretNamesOf fragments)
          ({} : MergeState).pullSecretNames = (pullSecretNamesOf fragments).eraseDups := rfl
      rw [hloop] at hnames
      obtain ⟨h1, h2⟩ := eraseDups_loop_nodup (pullSecretNamesOf fragments) [] List.nodup_nil
      have hloop2 : List.eraseDups.loop (pullSecretNamesOf fragments) [] =
          (pullSecretNamesOf fragments).eraseDups := rfl
      rw [hloop2] at h1 h2
      refine ⟨hnames, by rw [hnames]; exact h1, fun n => ?_⟩
      rw [hnames, h2 n]
      simp

/-! ## `getSpecDeployment`: the volume-permission workaround -/

theorem needsPVCWorkaroundLoop_eq_find (commonPVCName cheCommonPVCName : String)
    (volumes : List Volume) :
    needsPVCWorkaroundLoop commonPVCName cheCommonPVCName volumes =
      match volumes.find? (fun v => v.Name == commonPVCName || v.Name == cheCommonPVCName) with
      | some v => (true, v.Name)
      | none => (false, "") := by
  induction volumes with
  | nil => rfl
  | cons vol rest ih =>
    rw [needsPVCWorkaroundLoop, List.find?_cons]
    rcases Bool.eq_false_or_eq_true (vol.Name == commonPVCName) with b1 | b1
    · have h1 : vol.Name = commonPVCName := beq_iff_eq.mp b1
      simp only [b1, if_true, Bool.true_or]
      rw [h1]
    · rcases Bool.eq_false_or_eq_true (vol.Name == cheCommonPVCName) with b2 | b2
      · have h2 : vol.Name = cheCommonPVCName := beq_iff_eq.mp b2
        simp only [b1, b2, Bool.false_eq_true, if_false, if_true, Bool.or_true]
        rw [h2]
      · simp only [b1, b2, Bool.false_eq_true, if_false, Bool.or_false, ih]

theorem needsPVCWorkaround_eq (env : Env) (podAdditions : PodAdditions) :
    needsPVCWorkaround env podAdditions =
      match pvcVolume env podAdditions.Volumes with
      | some v => (true, v.Name)
      | none => (false, "") :=
  needsPVCWorkaroundLoop_eq_find _ _ _

theorem getSpecDeployment_of_merge_ok (env : Env) (workspace : DevWorkspace)
    (podAdditions : List PodAdditions) (saName : String) (tolerations : List Toleration)
    (nodeSelector : GoMap) (scheme : Scheme) (merged : PodAdditions)
    (hmerge : mergePodAdditions podAdditions = .ok merged) :
    getSpecDeployment env workspace podAdditions saName tolerations nodeSelector scheme =
      ((podSpecOfMerged env workspace merged saName tolerations nodeSelector).bind fun spec1 =>
        match GoMap.get? workspace.Labels env.constants.DevWorkspaceCreatorLabel with
        | none =>
          .error (.errorString
            "workspace must have creator specified to be run. Recreate it to fix an issue")
        | some creator =>
          (setCreatorLabel env.constants creator
            (baseDeployment env workspace
              (some (assocSet (assocSet [] env.constants.DevWorkspaceIDLabel
                workspace.Status.DevWorkspaceId) env.constants.DevWorkspaceNameLabel
                workspace.Name))
              (match getAdditionalAnnotations workspace with
                | .ok m => m
                | _ => none)
              (some (assocSet (assocSet [] env.constants.DevWorkspaceIDLabel
                workspace.Status.DevWorkspaceId) env.constants.DevWorkspaceNameLabel
                workspace.Name))
              spec1)).bind fun deployment1 =>
          setControllerReference scheme workspace
            (setRestrictedAccess env.constants workspace deployment1)) := by
  unfold getSpecDeployment podSpecOfMerged
  simp only [hmerge, GoResult.bind, workspaceLabels_ok]

/-- A successful `getSpecDeployment` call: the fragments merged, the workspace
names its creator, the pod spec was built, and it is the pod spec of the
returned deployment. -/
theorem getSpecDeployment_ok_inv (env : Env) (workspace : DevWorkspace)
    (podAdditions : List PodAdditions) (saName : String) (tolerations : List Toleration)
    (nodeSelector : GoMap) (scheme : Scheme) (d : Deployment)
    (hok : getSpecDeployment env workspace podAdditions saName tolerations nodeSelector
      scheme = .ok d) :
    ∃ merged creator spec1, mergePodAdditions podAdditions = .ok merged ∧
      GoMap.get? workspace.Labels env.constants.DevWorkspaceCreatorLabel = some creator ∧
      podSpecOfMerged env workspace merged saName tolerations nodeSelector = .ok spec1 ∧
      d.Template.Spec = spec1 := by
  cases hm : mergePodAdditions podAdditions with
  | error e =>
    rw [getSpecDeployment_of_merge_error _ _ _ _ _ _ _ e hm] at hok
    cases hok
  | panicked m =>
    rw [getSpecDeployment_of_merge_panic _ _ _ _ _ _ _ m hm] at hok
    cases hok
  | ok merged =>
    rw [getSpecDeployment_of_merge_ok _ _ _ _ _ _ _ merged hm] at hok
    cases hs : podSpecOfMerged env workspace merged saName tolerations nodeSelector with
    | error e => rw [hs] at hok; cases hok
    | panicked m => rw [hs] at hok; cases hok
    | ok spec1 =>
      rw [hs] at hok
      simp only [GoResult.bind] at hok
      cases hc : GoMap.get? workspace.Labels env.constants.DevWorkspaceCreatorLabel with
      | none => rw [hc] at hok; cases hok
      | some creator =>
        rw [hc] at hok
        simp only at hok
        rw [setCreatorLabel_ok env.constants creator _ _ _ rfl rfl] at hok
        simp only [setControllerReference] at hok
        split at hok
        · cases hok
        · cases hok
          refine ⟨merged, creator, spec1, rfl, rfl, hs, ?_⟩
          simp only [setRestrictedAccess_Spec]
          rfl

/-- C20: after a successful `getSpecDeployment` call, if some merged volume is
named with the configured common PVC name or the fixed alternate name, take
the first such volume: the first init container if there is one, otherwise
the first container, has the mount of that volume at `/tmp/workspace-storage`
with the workspace ID as sub-path in front of its own mounts followed by the
shared mounts, and every other container and init container has its own mounts
followed by the shared mounts; if no volume has such a name, every container
and init container has its own mounts followed by the shared mounts. -/
theorem getSpecDeployment_pvc_mount (env : Env) (workspace : DevWorkspace)
    (podAdditions : List PodAdditions) (saName : String) (tolerations : List Toleration)
    (nodeSelector : GoMap) (scheme : Scheme) (d : Deployment)
    (hok : getSpecDeployment env workspace podAdditions saName tolerations nodeSelector
      scheme = .ok d) :
    ∃ merged, mergePodAdditions podAdditions = .ok merged ∧
      (∀ v, pvcVolume env merged.Volumes = some v →
        (∀ ic ics, merged.InitContainers = ic :: ics →
          d.Template.Spec.InitContainers =
            { ic with
              VolumeMounts :=
                { Name := v.Name, MountPath := "/tmp/workspace-storage",
                  SubPath := workspace.Status.DevWorkspaceId } ::
                  (ic.VolumeMounts ++ merged.VolumeMounts) } ::
              appendSharedMounts merged.VolumeMounts ics ∧
          d.Template.Spec.Containers =
            appendSharedMounts merged.VolumeMounts merged.Containers) ∧
        (merged.InitContainers = [] →
          ∃ c cs, merged.Containers = c :: cs ∧
            d.Template.Spec.Containers =
              { c with
                VolumeMounts :=
                  { Name := v.Name, MountPath := "/tmp/workspace-storage",
                    SubPath := workspace.Status.DevWorkspaceId } ::
                    (c.VolumeMounts ++ merged.VolumeMounts) } ::
                appendSharedMounts merged.VolumeMounts cs ∧
            d.Template.Spec.InitContainers = [])) ∧
      (pvcVolume env merged.Volumes = none →
        d.Template.Spec.InitContainers =
          appendSharedMounts merged.VolumeMounts merged.InitContainers ∧
        d.Template.Spec.Containers =
          appendSharedMounts merged.VolumeMounts merged.Containers) := by
  obtain ⟨merged, creator, spec1, hmerge, _, hspec, hd⟩ := getSpecDeployment_ok_inv env workspace
    podAdditions saName tolerations nodeSelector scheme d hok
  refine ⟨merged, hmerge, ?_, ?_⟩
  · intro v hv
    have hneeds : needsPVCWorkaround env
        { merged with
          Containers := appendSharedMounts merged.VolumeMounts merged.Containers
          InitContainers := appendSharedMounts merged.VolumeMounts merged.InitContainers } =
        (true, v.Name) := by
      rw [needsPVCWorkaround_eq]
      simp only [hv]
    unfold podSpecOfMerged at hspec
    simp only [hneeds, if_true] at hspec
    unfold applyPVCWorkaround at hspec
    rw [setScheduling_InitContainers, setScheduling_Containers] at hspec
    simp only [basePodSpec] at hspec
    constructor
    · intro ic ics hinit
      simp only [hinit, appendSharedMounts, List.map_cons] at hspec
      cases hspec
      rw [hd]
      simp only [setScheduling_Containers]
      exact ⟨rfl, rfl⟩
    · intro hinit
      simp only [hinit, appendSharedMounts, List.map_nil] at hspec
      cases hcs : merged.Containers with
      | nil => simp [hcs] at hspec
      | cons c cs =>
        simp only [hcs, List.map_cons] at hspec
        cases hspec
        rw [hd]
        refine ⟨c, cs, rfl, ?_, ?_⟩
        · rfl
        · simp only [setScheduling_InitContainers]
  · intro hv
    have hneeds : needsPVCWorkaround env
        { merged with
          Containers := appendSharedMounts merged.VolumeMounts merged.Containers
          InitContainers := appendSharedMounts merged.VolumeMounts merged.InitContainers } =
        (false, "") := by
      rw [needsPVCWorkaround_eq]
      simp only [hv]
    unfold podSpecOfMerged at hspec
    simp only [hneeds, Bool.false_eq_true, if_false] at hspec
    cases hspec
    rw [hd]
    simp only [setScheduling_InitContainers, setScheduling_Containers]
    exact ⟨rfl, rfl⟩

/-! ## `mergePodAdditions` and the workaround on sample inputs -/

/-- Witness of C17: two fragments that repeat the pull secrets `a` and `b`. -/
theorem mergePodAdditions_pullSecrets_witness :
    (mergePodAdditions pullSecretFragments).failure = none ∧
    (pullSecretNamesOf pullSecretFragments).eraseDups = ["a", "b", "c"] ∧
    (({ Containers := [{ Name := "tools" }]
        PullSecrets := [{ Name := "a" }, { Name := "b" }, { Name := "c" }] } :
        PodAdditions).PullSecrets.map fun p => p.Name) =
      (pullSecretNamesOf pullSecretFragments).eraseDups :=
  ⟨by decide, by decide,
    ((mergePodAdditions_pullSecrets pullSecretFragments).2
      { Containers := [{ Name := "tools" }]
        PullSecrets := [{ Name := "a" }, { Name := "b" }, { Name := "c" }] }
      (by decide)).1⟩

/-- C18 (defect): a fragment that carries an annotation and repeats the volume
name `v` makes `mergePodAdditions` panic on the nil `Annotations` map of its
result, so the call returns no error although a name is repeated; the same
fragment without the annotation gets the duplicate-volume error. The same
happens for a container name repeated across two fragments when the first one
carries a label. Two fragments without labels whose names are all distinct are
merged in order. -/
theorem mergePodAdditions_repeated_name_panics :
    (volumeNamesOf
        [{ Annotations := some [("a", "b")]
           Volumes := [{ Name := "v" }, { Name := "v" }] }]).count "v" = 2 ∧
    mergePodAdditions
        [{ Annotations := some [("a", "b")]
           Volumes := [{ Name := "v" }, { Name := "v" }] }] =
      .panicked "assignment to entry in nil map" ∧
    mergePodAdditions [{ Volumes := [{ Name := "v" }, { Name := "v" }] }] =
      .error (.errorString "duplicate volumes in the workspace definition: v") ∧
    mergePodAdditions
        [{ Labels := some [("team", "a")], Containers := [{ Name := "tools" }] },
         { Containers := [{ Name := "tools" }] }] =
      .panicked "assignment to entry in nil map" ∧
    mergePodAdditions
        [{ Containers := [{ Name := "tools" }] }, { Containers := [{ Name := "tools" }] }] =
      .error (.errorString "duplicate containers in the workspace definition: tools") ∧
    mergePodAdditions distinctFragments =
      .ok { Containers := [{ Name := "tools" }, { Name := "side" }]
            Volumes := [{ Name := "projects" }, { Name := "cache" }] } := by
  decide

/-- C19 (defect): two fragments without duplicate names that both carry the
label `team` make `mergePodAdditions` panic on the nil `Labels` map of its
result, and so does a single fragment with one annotation; the same fragments
without labels are merged, the merged label map being nil. -/
theorem mergePodAdditions_labels_panic :
    mergePodAdditions
        [{ Labels := some [("team", "a")], Containers := [{ Name := "tools" }] },
         { Labels := some [("team", "b")], Containers := [{ Name := "side" }] }] =
      .panicked "assignment to entry in nil map" ∧
    mergePodAdditions [{ Annotations := some [("note", "x")] }] =
      .panicked "assignment to entry in nil map" ∧
    ((mergePodAdditions
        [{ Containers := [{ Name := "tools" }] }, { Containers := [{ Name := "side" }] }]
      ).toOption.map fun merged => merged.Labels) = some none := by
  decide

/-- Witness of C20: the first container of `pvcFragments` gets the workspace
sub-path mount in front of its own mount and the shared mount. -/
theorem getSpecDeployment_pvc_mount_witness :
    pvcDeployment.Template.Spec.Containers =
      [{ Name := "tools"
         VolumeMounts :=
           [{ Name := "claim-devworkspace", MountPath := "/tmp/workspace-storage",
              SubPath := "id" },
            { Name := "projects", MountPath := "/projects" },
            { Name := "shared", MountPath := "/shared" }] },
       { Name := "side", VolumeMounts := [{ Name := "shared", MountPath := "/shared" }] }] := by
  obtain ⟨merged, hm, hpvc, _⟩ := getSpecDeployment_pvc_mount sampleEnv sampleWorkspace
    pvcFragments "sa" [] none (fun _ _ => none) pvcDeployment (by decide)
  have hm2 : mergePodAdditions pvcFragments =
      .ok { Containers :=
              [{ Name := "tools"
                 VolumeMounts := [{ Name := "projects", MountPath := "/projects" }] },
               { Name := "side" }]
            Volumes := [{ Name := "claim-devworkspace" }]
            VolumeMounts := [{ Name := "shared", MountPath := "/shared" }] } := by decide
  rw [hm2] at hm
  cases hm
  obtain ⟨c, cs, hc, hd, _⟩ := (hpvc { Name := "claim-devworkspace" } (by decide)).2 rfl
  cases hc
  exact hd

/-! ## `getAdditionalAnnotations` -/

theorem assocSet_keys (l : List (String × String)) (k v : String) :
    (assocSet l k v).map Prod.fst =
      if k ∈ l.map Prod.fst then l.map Prod.fst else l.map Prod.fst ++ [k] := by
  induction l with
  | nil => simp [assocSet]
  | cons kv rest ih =>
    obtain ⟨k1, v1⟩ := kv
    rw [assocSet]
    by_cases h : k1 = k
    · subst h
      simp
    · have hb : (k1 == k) = false := by simpa using h
      have h2 : ¬ k = k1 := fun e => h e.symm
      simp only [hb, Bool.false_eq_true, if_false, List.map_cons, ih, List.mem_cons, h2,
        false_or]
      split <;> simp

theorem assocSet_uniqueKeys (l : List (String × String)) (k v : String)
    (h : (l.map Prod.fst).Nodup) : ((assocSet l k v).map Prod.fst).Nodup := by
  rw [assocSet_keys]
  split
  · exact h
  · rename_i hk
    exact List.Nodup.append h (List.nodup_singleton k)
      (by
        intro a ha hb
        rw [List.mem_singleton] at hb
        subst hb
        exact hk ha)

theorem mem_assocSet (l : List (String × String)) (k v a b : String)
    (h : (l.map Prod.fst).Nodup) :
    (a, b) ∈ assocSet l k v ↔ (a = k ∧ b = v) ∨ (a ≠ k ∧ (a, b) ∈ l) := by
  induction l with
  | nil => simp [assocSet]
  | cons kv rest ih =>
    obtain ⟨k1, v1⟩ := kv
    rw [List.map_cons, List.nodup_cons] at h
    rw [assocSet]
    by_cases hk : k1 = k
    · subst hk
      simp only [beq_self_eq_true, if_true, List.mem_cons, Prod.mk.injEq]
      constructor
      · rintro (⟨rfl, rfl⟩ | hm)
        · exact Or.inl ⟨rfl, rfl⟩
        · refine Or.inr ⟨?_, Or.inr hm⟩
          rintro rfl
          exact h.1 (List.mem_map.mpr ⟨(a, b), hm, rfl⟩)
      · rintro (⟨rfl, rfl⟩ | ⟨hne, hm⟩)
        · exact Or.inl ⟨rfl, rfl⟩
        · rcases hm with ⟨rfl, _⟩ | hm
          · exact absurd rfl hne
          · exact Or.inr hm
    · have hb : (k1 == k) = false := by simpa using hk
      simp only [hb, Bool.false_eq_true, if_false, List.mem_cons, Prod.mk.injEq, ih h.2]
      constructor
      · rintro (⟨rfl, rfl⟩ | h1 | ⟨hne, hm⟩)
        · exact Or.inr ⟨hk, Or.inl ⟨rfl, rfl⟩⟩
        · exact Or.inl h1
        · exact Or.inr ⟨hne, Or.inr hm⟩
      · rintro (h1 | ⟨hne, ⟨rfl, rfl⟩ | hm⟩)
        · exact Or.inr (Or.inl h1)
        · exact Or.inl ⟨rfl, rfl⟩
        · exact Or.inr (Or.inr ⟨hne, hm⟩)

theorem get?_eq_some_mem (l : List (String × String)) (k c : String)
    (h : GoMap.get? (some l) k = some c) : (k, c) ∈ l := by
  unfold GoMap.get? GoMap.range at h
  simp only [Option.getD_some] at h
  cases hf : l.find? (fun kv => kv.1 == k) with
  | none => rw [hf] at h; cases h
  | some kv =>
    rw [hf] at h
    have hp := List.find?_some hf
    have hm := List.mem_of_find?_eq_some hf
    obtain ⟨k1, v1⟩ := kv
    simp only [beq_iff_eq] at hp
    simp only [Option.map_some', Option.some.injEq] at h
    subst hp
    subst h
    exact hm

theorem get?_eq_none_not_mem (l : List (String × String)) (k : String)
    (h : GoMap.get? (some l) k = none) (v : String) : (k, v) ∉ l := by
  unfold GoMap.get? GoMap.range at h
  simp only [Option.getD_some] at h
  cases hf : l.find? (fun kv => kv.1 == k) with
  | some kv => rw [hf] at h; cases h
  | none =>
    intro hm
    have := List.find?_eq_none.mp hf (k, v) hm
    simp at this

theorem consistentEntries_of_uniqueKeys (l : List (String × String))
    (h : (l.map Prod.fst).Nodup) : consistentEntries l := by
  induction l with
  | nil => intro k v1 v2 h1; cases h1
  | cons kv rest ih =>
    rw [List.map_cons, List.nodup_cons] at h
    intro k v1 v2 h1 h2
    rcases List.mem_cons.mp h1 with e1 | m1
    · rcases List.mem_cons.mp h2 with e2 | m2
      · rw [← e2] at e1
        exact (Prod.mk.inj e1).2
      · exact absurd (List.mem_map.mpr ⟨(k, v2), m2, by rw [← e1]⟩) h.1
    · rcases List.mem_cons.mp h2 with e2 | m2
      · exact absurd (List.mem_map.mpr ⟨(k, v1), m1, by rw [← e2]⟩) h.1
      · exact ih h.2 k v1 v2 m1 m2

theorem addDeploymentAnnotations_spec (entries acc : List (String × String))
    (hacc : (acc.map Prod.fst).Nodup) :
    (consistentEntries (acc ++ entries) →
      ∃ m, addDeploymentAnnotations acc entries = .ok m ∧ (m.map Prod.fst).Nodup ∧
        ∀ a b, (a, b) ∈ m ↔ (a, b) ∈ acc ∨ (a, b) ∈ entries) ∧
    (¬ consistentEntries (acc ++ entries) →
      ∃ err, addDeploymentAnnotations acc entries = .error err) := by
  induction entries generalizing acc with
  | nil =>
    refine ⟨fun _ => ⟨acc, rfl, hacc, fun a b => by simp⟩, fun h => ?_⟩
    rw [List.append_nil] at h
    exact absurd (consistentEntries_of_uniqueKeys acc hacc) h
  | cons kv rest ih =>
    obtain ⟨k, v⟩ := kv
    have step : (∀ b, (k, b) ∈ acc → b = v) →
        (consistentEntries (acc ++ (k, v) :: rest) →
          ∃ m, addDeploymentAnnotations (assocSet acc k v) rest = .ok m ∧
            (m.map Prod.fst).Nodup ∧
            ∀ a b, (a, b) ∈ m ↔ (a, b) ∈ acc ∨ (a, b) ∈ (k, v) :: rest) ∧
        (¬ consistentEntries (acc ++ (k, v) :: rest) →
          ∃ err, addDeploymentAnnotations (assocSet acc k v) rest = .error err) := by
      intro hkey
      have hmem : ∀ a b, ((a, b) ∈ assocSet acc k v ∨ (a, b) ∈ rest) ↔
          ((a, b) ∈ acc ∨ (a, b) ∈ (k, v) :: rest) := by
        intro a b
        rw [mem_assocSet acc k v a b hacc, List.mem_cons, Prod.mk.injEq]
        constructor
        · rintro ((h1 | ⟨_, h2⟩) | h3)
          · exact Or.inr (Or.inl h1)
          · exact Or.inl h2
          · exact Or.inr (Or.inr h3)
        · rintro (h1 | h2 | h3)
          · by_cases e : a = k
            · subst e
              exact Or.inl (Or.inl ⟨rfl, hkey b h1⟩)
            · exact Or.inl (Or.inr ⟨e, h1⟩)
          · exact Or.inl (Or.inl h2)
          · exact Or.inr h3
      have hcons : consistentEntries (assocSet acc k v ++ rest) ↔
          consistentEntries (acc ++ (k, v) :: rest) := by
        unfold consistentEntries
        simp only [List.mem_append, hmem]
      obtain ⟨ih1, ih2⟩ := ih (assocSet acc k v) (assocSet_uniqueKeys acc k v hacc)
      constructor
      · intro hc
        obtain ⟨m, hm, hn, hiff⟩ := ih1 (hcons.mpr hc)
        exact ⟨m, hm, hn, fun a b => (hiff a b).trans (hmem a b)⟩
      · intro hc
        exact ih2 (fun h => hc (hcons.mp h))
    rw [addDeploymentAnnotations]
    cases hg : GoMap.get? (some acc) k with
    | none =>
      simp only
      exact step fun b hb => absurd hb (get?_eq_none_not_mem acc k hg b)
    | some curr =>
      simp only
      have hcurr := get?_eq_some_mem acc k curr hg
      by_cases hv : v = curr
      · subst hv
        simp only [bne_self_eq_false, Bool.false_eq_true, if_false]
        exact step fun b hb => consistentEntries_of_uniqueKeys acc hacc k b v hb hcurr
      · have hb : (v != curr) = true := by simpa using hv
        simp only [hb, if_true]
        refine ⟨fun hc => ?_, fun _ => ⟨_, rfl⟩⟩
        exact absurd (hc k v curr (by simp) (by simp [hcurr])) hv

theorem addDeploymentAnnotations_append (a b acc : List (String × String)) :
    addDeploymentAnnotations acc (a ++ b) =
      (addDeploymentAnnotations acc a).bind fun acc1 => addDeploymentAnnotations acc1 b := by
  induction a generalizing acc with
  | nil => rfl
  | cons kv rest ih =>
    obtain ⟨k, v⟩ := kv
    rw [List.cons_append, addDeploymentAnnotations, addDeploymentAnnotations]
    cases GoMap.get? (some acc) k with
    | none => exact ih _
    | some curr =>
      simp only
      split
      · rfl
      · exact ih _

theorem getAdditionalAnnotationsLoop_eq (components : List Component)
    (acc : List (String × String)) :
    getAdditionalAnnotationsLoop acc components =
      addDeploymentAnnotations acc (annotationEntriesOf components) := by
  induction components generalizing acc with
  | nil => rfl
  | cons c rest ih =>
    rw [getAdditionalAnnotationsLoop]
    unfold annotationEntriesOf
    rw [List.flatMap_cons]
    cases hc : c.deploymentAnnotations with
    | none =>
      simp only [GoMap.range, Option.getD_none, List.nil_append]
      exact ih acc
    | some entries =>
      simp only [GoMap.range, Option.getD_some]
      rw [addDeploymentAnnotations_append]
      congr 1
      funext acc1
      exact ih acc1

/-- The function `getAdditionalAnnotations` in terms of all entries it scans:
when no key is given two values, the result is a non-nil map with those
entries and no repeated key; otherwise the result is an error. -/
theorem getAdditionalAnnotations_entries (workspace : DevWorkspace) :
    (consistentEntries (annotationEntriesOf workspace.Components) →
      ∃ m, getAdditionalAnnotations workspace = .ok (some m) ∧ (m.map Prod.fst).Nodup ∧
        ∀ a b, (a, b) ∈ m ↔ (a, b) ∈ annotationEntriesOf workspace.Components) ∧
    (¬ consistentEntries (annotationEntriesOf workspace.Components) →
      ∃ err, getAdditionalAnnotations workspace = .error err) := by
  unfold getAdditionalAnnotations
  rw [getAdditionalAnnotationsLoop_eq]
  obtain ⟨h1, h2⟩ := addDeploymentAnnotations_spec
    (annotationEntriesOf workspace.Components) [] List.nodup_nil
  constructor
  · intro hc
    obtain ⟨m, hm, hn, hiff⟩ := h1 (by simpa using hc)
    exact ⟨m, by rw [hm]; rfl, hn, fun a b => by simpa using hiff a b⟩
  · intro hc
    obtain ⟨err, he⟩ := h2 (by simpa using hc)
    exact ⟨err, by rw [he]; rfl⟩

theorem consistentEntries_iff_no_conflict (components : List Component)
    (hkeys : ∀ c ∈ components, GoMap.uniqueKeys c.deploymentAnnotations) :
    consistentEntries (annotationEntriesOf components) ↔ ¬ annotationConflict components := by
  unfold annotationEntriesOf annotationConflict
  constructor
  · rintro hc ⟨c1, h1, c2, h2, _, k, v1, v2, m1, m2, hne⟩
    exact hne (hc k v1 v2 (List.mem_flatMap.mpr ⟨c1, h1, m1⟩) (List.mem_flatMap.mpr ⟨c2, h2, m2⟩))
  · intro hno k v1 v2 m1 m2
    obtain ⟨c1, h1, e1⟩ := List.mem_flatMap.mp m1
    obtain ⟨c2, h2, e2⟩ := List.mem_flatMap.mp m2
    by_cases hc : c1 = c2
    · subst hc
      exact consistentEntries_of_uniqueKeys _ (hkeys c1 h1) k v1 v2 e1 e2
    · by_contra hne
      exact hno ⟨c1, h1, c2, h2, hc, k, v1, v2, e1, e2, hne⟩

theorem reorderedAnnotations_entries (cs1 cs2 : List Component)
    (h : reorderedAnnotations cs1 cs2) :
    (annotationEntriesOf cs1).Perm (annotationEntriesOf cs2) := by
  unfold reorderedAnnotations at h
  unfold annotationEntriesOf
  induction h with
  | nil => exact List.Perm.refl _
  | cons hp _ ih =>
    rw [List.flatMap_cons, List.flatMap_cons]
    exact List.Perm.append hp ih

theorem getAdditionalAnnotations_error_iff (workspace : DevWorkspace) :
    (∃ err, getAdditionalAnnotations workspace = .error err) ↔
      ¬ consistentEntries (annotationEntriesOf workspace.Components) := by
  obtain ⟨h1, h2⟩ := getAdditionalAnnotations_entries workspace
  constructor
  · rintro ⟨err, he⟩ hc
    obtain ⟨m, hm, _⟩ := h1 hc
    rw [hm] at he
    cases he
  · exact h2

theorem getAdditionalAnnotations_ok_inv (workspace : DevWorkspace) (m : GoMap)
    (hok : getAdditionalAnnotations workspace = .ok m) :
    ∃ l, m = some l ∧ (l.map Prod.fst).Nodup ∧
      ∀ a b, (a, b) ∈ l ↔ (a, b) ∈ annotationEntriesOf workspace.Components := by
  obtain ⟨h1, h2⟩ := getAdditionalAnnotations_entries workspace
  by_cases hc : consistentEntries (annotationEntriesOf workspace.Components)
  · obtain ⟨l, hl, hn, hiff⟩ := h1 hc
    rw [hl] at hok
    cases hok
    exact ⟨l, rfl, hn, hiff⟩
  · obtain ⟨err, he⟩ := h2 hc
    rw [he] at hok
    cases hok

/-- C21: for a workspace whose components' deployment-annotation maps are Go
maps (no key twice in one map), `getAdditionalAnnotations` returns an error
exactly when two components give different values to one key; when there is
no such pair it returns a non-nil map without repeated keys whose entries are
those of all components' deployment-annotation maps, a component without a
container, an annotation or a deployment map having none. Visiting the entries
of each map in another order changes neither whether the call returns an error
nor the entries of the returned map. -/
theorem getAdditionalAnnotations_conflict_iff (workspace : DevWorkspace)
    (hkeys : ∀ c ∈ workspace.Components, GoMap.uniqueKeys c.deploymentAnnotations) :
    ((∃ err, getAdditionalAnnotations workspace = .error err) ↔
      annotationConflict workspace.Components) ∧
    (¬ annotationConflict workspace.Components →
      ∃ m, getAdditionalAnnotations workspace = .ok (some m) ∧ GoMap.uniqueKeys (some m) ∧
        ∀ k v, (k, v) ∈ m ↔
          ∃ c ∈ workspace.Components, (k, v) ∈ GoMap.range c.deploymentAnnotations) ∧
    (∀ reordered : DevWorkspace,
      reorderedAnnotations workspace.Components reordered.Components →
      ((∃ err, getAdditionalAnnotations workspace = .error err) ↔
        ∃ err, getAdditionalAnnotations reordered = .error err) ∧
      ∀ m1 m2, getAdditionalAnnotations workspace = .ok m1 →
        getAdditionalAnnotations reordered = .ok m2 →
        (GoMap.range m1).Perm (GoMap.range m2)) := by
  have hiff := consistentEntries_iff_no_conflict workspace.Components hkeys
  refine ⟨?_, ?_, ?_⟩
  · rw [getAdditionalAnnotations_error_iff, hiff, not_not]
  · intro hno
    obtain ⟨m, hm, hn, hmem⟩ := (getAdditionalAnnotations_entries workspace).1 (hiff.mpr hno)
    refine ⟨m, hm, hn, fun k v => ?_⟩
    rw [hmem k v]
    unfold annotationEntriesOf
    rw [List.mem_flatMap]
  · intro reordered hre
    have hperm := reorderedAnnotations_entries _ _ hre
    have hsame : ∀ kv, kv ∈ annotationEntriesOf workspace.Components ↔
        kv ∈ annotationEntriesOf reordered.Components := fun kv => hperm.mem_iff
    constructor
    · rw [getAdditionalAnnotations_error_iff, getAdditionalAnnotations_error_iff]
      unfold consistentEntries
      simp only [hsame]
    · intro m1 m2 h1 h2
      obtain ⟨l1, e1, n1, q1⟩ := getAdditionalAnnotations_ok_inv workspace m1 h1
      obtain ⟨l2, e2, n2, q2⟩ := getAdditionalAnnotations_ok_inv reordered m2 h2
      subst e1
      subst e2
      simp only [GoMap.range, Option.getD_some]
      rw [List.perm_ext_iff_of_nodup (List.Nodup.of_map _ n1) (List.Nodup.of_map _ n2)]
      rintro ⟨a, b⟩
      rw [q1, q2]
      exact hsame (a, b)

/-- Witness of C21: the components of `conflictingWorkspace` give the key `k`
the values `1` and `2`, those of `agreeingWorkspace` agree on it. -/
theorem getAdditionalAnnotations_conflict_iff_witness :
    (∃ err, getAdditionalAnnotations conflictingWorkspace = .error err) ∧
    (∃ m, getAdditionalAnnotations agreeingWorkspace = .ok (some m) ∧
      GoMap.uniqueKeys (some m) ∧
      ∀ k v, (k, v) ∈ m ↔
        ∃ c ∈ agreeingWorkspace.Components, (k, v) ∈ GoMap.range c.deploymentAnnotations) ∧
    getAdditionalAnnotations agreeingWorkspace =
      .ok (some [("k", "1"), ("a", "x"), ("b", "y")]) :=
  ⟨(getAdditionalAnnotations_conflict_iff conflictingWorkspace
      (by unfold GoMap.uniqueKeys; decide)).1.mpr
      ⟨annotatedComponent "a" "1", by decide, annotatedComponent "b" "2", by decide,
        by decide, "k", "1", "2", by decide, by decide, by decide⟩,
   (getAdditionalAnnotations_conflict_iff agreeingWorkspace
      (by unfold GoMap.uniqueKeys; decide)).2.1
      (by
        rw [← consistentEntries_iff_no_conflict _ (by unfold GoMap.uniqueKeys; decide)]
        intro k v1 v2 h1 h2
        simp [annotationEntriesOf, agreeingWorkspace, sampleWorkspace,
          Component.deploymentAnnotations, GoMap.range] at h1 h2
        rcases h1 with ⟨rfl, rfl⟩ | ⟨rfl, rfl⟩ | ⟨rfl, rfl⟩ | ⟨rfl, rfl⟩ <;>
          rcases h2 with ⟨h, rfl⟩ | ⟨h, rfl⟩ | ⟨h, rfl⟩ | ⟨h, rfl⟩ <;>
          first | rfl | (exact absurd h (by decide))),
   by decide⟩

/-! ## `getSpecDeployment`: the mounts of every container -/

theorem mergePodAdditions_ok_lists (fragments : List PodAdditions) (merged : PodAdditions)
    (hok : mergePodAdditions fragments = .ok merged) :
    merged.Containers = fragments.flatMap (fun f => f.Containers) ∧
    merged.InitContainers = fragments.flatMap (fun f => f.InitContainers) ∧
    merged.Volumes = fragments.flatMap (fun f => f.Volumes) ∧
    merged.VolumeMounts = fragments.flatMap (fun f => f.VolumeMounts) := by
  have hfree := mergePodAdditions_ok_labelFree fragments merged hok
  unfold mergePodAdditions at hok
  rcases mergeLoop_labelFree fragments {} rfl rfl hfree with
    ⟨st1, hst, _, _, q3, q4, q5, q6, _⟩ | ⟨n, he, _⟩ | ⟨n, he, _⟩ | ⟨n, he, _⟩ | ⟨n, he, _⟩
  · rw [hst] at hok
    cases hok
    exact ⟨by simpa using q3, by simpa using q4, by simpa using q5, by simpa using q6⟩
  all_goals (rw [he] at hok; cases hok)

theorem podSpecOfMerged_ok_inv (env : Env) (workspace : DevWorkspace)
    (merged : PodAdditions) (saName : String) (tolerations : List Toleration)
    (nodeSelector : GoMap) (spec1 : PodSpec)
    (hspec : podSpecOfMerged env workspace merged saName tolerations nodeSelector =
      .ok spec1) :
    (pvcVolume env merged.Volumes = none ∧
      spec1.InitContainers = appendSharedMounts merged.VolumeMounts merged.InitContainers ∧
      spec1.Containers = appendSharedMounts merged.VolumeMounts merged.Containers) ∨
    (∃ v ic ics, pvcVolume env merged.Volumes = some v ∧ merged.InitContainers = ic :: ics ∧
      spec1.InitContainers =
        { ic with
          VolumeMounts :=
            getWorkspaceSubpathVolumeMount workspace.Status.DevWorkspaceId v.Name ::
              (ic.VolumeMounts ++ merged.VolumeMounts) } ::
          appendSharedMounts merged.VolumeMounts ics ∧
      spec1.Containers = appendSharedMounts merged.VolumeMounts merged.Containers) ∨
    (∃ v c cs, pvcVolume env merged.Volumes = some v ∧ merged.InitContainers = [] ∧
      merged.Containers = c :: cs ∧
      spec1.Containers =
        { c with
          VolumeMounts :=
            getWorkspaceSubpathVolumeMount workspace.Status.DevWorkspaceId v.Name ::
              (c.VolumeMounts ++ merged.VolumeMounts) } ::
          appendSharedMounts merged.VolumeMounts cs ∧
      spec1.InitContainers = []) := by
  cases hv : pvcVolume env merged.Volumes with
  | none =>
    have hneeds : needsPVCWorkaround env
        { merged with
          Containers := appendSharedMounts merged.VolumeMounts merged.Containers
          InitContainers := appendSharedMounts merged.VolumeMounts merged.InitContainers } =
        (false, "") := by
      rw [needsPVCWorkaround_eq]
      simp only [hv]
    unfold podSpecOfMerged at hspec
    simp only [hneeds, Bool.false_eq_true, if_false] at hspec
    cases hspec
    simp only [setScheduling_InitContainers, setScheduling_Containers]
    exact Or.inl ⟨trivial, rfl, rfl⟩
  | some v =>
    have hneeds : needsPVCWorkaround env
        { merged with
          Containers := appendSharedMounts merged.VolumeMounts merged.Containers
          InitContainers := appendSharedMounts merged.VolumeMounts merged.InitContainers } =
        (true, v.Name) := by
      rw [needsPVCWorkaround_eq]
      simp only [hv]
    unfold podSpecOfMerged at hspec
    simp only [hneeds, if_true] at hspec
    unfold applyPVCWorkaround at hspec
    rw [setScheduling_InitContainers, setScheduling_Containers] at hspec
    simp only [basePodSpec] at hspec
    cases hinit : merged.InitContainers with
    | cons ic ics =>
      simp only [hinit, appendSharedMounts, List.map_cons] at hspec
      cases hspec
      simp only [setScheduling_Containers]
      exact Or.inr (Or.inl ⟨v, ic, ics, rfl, rfl, rfl, rfl⟩)
    | nil =>
      simp only [hinit, appendSharedMounts, List.map_nil] at hspec
      cases hcs : merged.Containers with
      | nil => simp [hcs] at hspec
      | cons c cs =>
        simp only [hcs, List.map_cons] at hspec
        cases hspec
        refine Or.inr (Or.inr ⟨v, c, cs, rfl, rfl, rfl, rfl, ?_⟩)
        simp only [setScheduling_InitContainers]

theorem getElem?_appendSharedMounts (shared : List VolumeMount) (cs : List Container)
    (i : Nat) (c : Container) (h : cs[i]? = some c) :
    (appendSharedMounts shared cs)[i]? =
      some { c with VolumeMounts := c.VolumeMounts ++ shared } := by
  unfold appendSharedMounts
  rw [List.getElem?_map, h]
  rfl

/-- C22: after a successful `getSpecDeployment` call the deployment has the
containers and the init containers of the fragments, in merge order, each with
the mounts of its own followed by the shared mounts of all fragments in merge
order; only the container that the volume-permission workaround acts on (the
first init container, or the first container when there is no init container,
and only if some volume is named like the common PVC) has one more mount, the
workspace sub-path mount, in front of them. -/
theorem getSpecDeployment_volume_mounts (env : Env) (workspace : DevWorkspace)
    (podAdditions : List PodAdditions) (saName : String) (tolerations : List Toleration)
    (nodeSelector : GoMap) (scheme : Scheme) (d : Deployment)
    (hok : getSpecDeployment env workspace podAdditions saName tolerations nodeSelector
      scheme = .ok d) :
    d.Template.Spec.Containers.length =
      (podAdditions.flatMap fun f => f.Containers).length ∧
    d.Template.Spec.InitContainers.length =
      (podAdditions.flatMap fun f => f.InitContainers).length ∧
    (∀ (i : Nat) (c : Container), (podAdditions.flatMap fun f => f.Containers)[i]? = some c →
      d.Template.Spec.Containers[i]? =
        some { c with
          VolumeMounts :=
            workaroundMounts env workspace (podAdditions.flatMap fun f => f.Volumes)
                (i == 0 && (podAdditions.flatMap fun f => f.InitContainers).isEmpty) ++
              c.VolumeMounts ++ podAdditions.flatMap fun f => f.VolumeMounts }) ∧
    (∀ (i : Nat) (c : Container),
      (podAdditions.flatMap fun f => f.InitContainers)[i]? = some c →
      d.Template.Spec.InitContainers[i]? =
        some { c with
          VolumeMounts :=
            workaroundMounts env workspace (podAdditions.flatMap fun f => f.Volumes)
                (i == 0) ++
              c.VolumeMounts ++ podAdditions.flatMap fun f => f.VolumeMounts }) := by
  obtain ⟨merged, creator, spec1, hmerge, _, hspec, hd⟩ := getSpecDeployment_ok_inv env workspace
    podAdditions saName tolerations nodeSelector scheme d hok
  obtain ⟨l1, l2, l3, l4⟩ := mergePodAdditions_ok_lists podAdditions merged hmerge
  rw [hd, ← l1, ← l2, ← l3, ← l4]
  rcases podSpecOfMerged_ok_inv env workspace merged saName tolerations nodeSelector spec1
    hspec with ⟨hv, hi, hc⟩ | ⟨v, ic, ics, hv, hinit, hi, hc⟩ | ⟨v, c, cs, hv, hinit, hcs, hc, hi⟩
  · rw [hi, hc]
    refine ⟨by simp [appendSharedMounts], by simp [appendSharedMounts], ?_, ?_⟩
    · intro i c h
      rw [getElem?_appendSharedMounts _ _ i c h]
      simp [workaroundMounts, hv]
    · intro i c h
      rw [getElem?_appendSharedMounts _ _ i c h]
      simp [workaroundMounts, hv]
  · rw [hi, hc, hinit]
    refine ⟨by simp [appendSharedMounts], by simp [appendSharedMounts], ?_, ?_⟩
    · intro i c h
      rw [getElem?_appendSharedMounts _ _ i c h]
      simp [workaroundMounts, hv]
    · intro i c h
      cases i with
      | zero =>
        simp only [List.getElem?_cons_zero, Option.some.injEq] at h
        subst h
        simp [workaroundMounts, hv]
      | succ j =>
        rw [List.getElem?_cons_succ] at h
        rw [List.getElem?_cons_succ, getElem?_appendSharedMounts _ _ j c h]
        simp [workaroundMounts, hv]
  · rw [hi, hc, hinit, hcs]
    refine ⟨by simp [appendSharedMounts], by simp, ?_, ?_⟩
    · intro i c1 h
      cases i with
      | zero =>
        simp only [List.getElem?_cons_zero, Option.some.injEq] at h
        subst h
        simp [workaroundMounts, hv]
      | succ j =>
        rw [List.getElem?_cons_succ] at h
        rw [List.getElem?_cons_succ, getElem?_appendSharedMounts _ _ j c1 h]
        simp [workaroundMounts, hv]
    · intro i c1 h
      simp at h

/-- Witness of C22: the init container of `mountFragments` gets the workspace
sub-path mount, its own mount and the two shared mounts; the second container
gets the two shared mounts. -/
theorem getSpecDeployment_volume_mounts_witness :
    mountDeployment.Template.Spec.InitContainers[0]? =
      some { Name := "init"
             VolumeMounts :=
               [{ Name := "claim-devworkspace", MountPath := "/tmp/workspace-storage",
                  SubPath := "id" },
                { Name := "seed" }, { Name := "shared" }, { Name := "cache" }] } ∧
    mountDeployment.Template.Spec.Containers[1]? =
      some { Name := "side", VolumeMounts := [{ Name := "shared" }, { Name := "cache" }] } :=
  ⟨((getSpecDeployment_volume_mounts sampleEnv sampleWorkspace mountFragments "sa" [] none
      (fun _ _ => none) mountDeployment (by decide)).2.2.2 0
      { Name := "init", VolumeMounts := [{ Name := "seed" }] } (by decide)).trans (by decide),
   ((getSpecDeployment_volume_mounts sampleEnv sampleWorkspace mountFragments "sa" [] none
      (fun _ _ => none) mountDeployment (by decide)).2.2.1 1
      { Name := "side" } (by decide)).trans (by decide)⟩

/-! ## `getSpecDeployment`: the workaround without containers -/

/-- C23 (defect): when the fragments carry no label or annotation, bring no
container and no init container, have pairwise distinct volume and
volume-mount names, and one of their volumes is named with the configured
common PVC name or the fixed alternate name, `getSpecDeployment` panics on
`Containers[0]`, whatever the workspace: it returns neither a deployment nor
an error. -/
theorem getSpecDeployment_workaround_index_panics (env : Env) (workspace : DevWorkspace)
    (podAdditions : List PodAdditions) (saName : String) (tolerations : List Toleration)
    (nodeSelector : GoMap) (scheme : Scheme)
    (hfree : ∀ f ∈ podAdditions, f.labelFree = true)
    (hnone : ∀ f ∈ podAdditions, f.Containers = [] ∧ f.InitContainers = [])
    (hv : (volumeNamesOf podAdditions).Nodup)
    (hm : (volumeMountNamesOf podAdditions).Nodup)
    (hpvc : (pvcVolume env (podAdditions.flatMap fun f => f.Volumes)).isSome = true) :
    getSpecDeployment env workspace podAdditions saName tolerations nodeSelector scheme =
      .panicked "index out of range [0] with length 0" := by
  have hcs : (podAdditions.flatMap fun f => f.Containers) = [] := by
    rw [List.flatMap_eq_nil_iff]
    exact fun f hf => (hnone f hf).1
  have his : (podAdditions.flatMap fun f => f.InitContainers) = [] := by
    rw [List.flatMap_eq_nil_iff]
    exact fun f hf => (hnone f hf).2
  obtain ⟨merged, hmerge, l1, l2, l3, _⟩ := mergePodAdditions_labelFree_distinct podAdditions
    hfree (by unfold containerNamesOf; rw [hcs]; exact List.nodup_nil)
    (by unfold initContainerNamesOf; rw [his]; exact List.nodup_nil) hv hm
  rw [hcs] at l1
  rw [his] at l2
  rw [← l3] at hpvc
  obtain ⟨v, hvol⟩ := Option.isSome_iff_exists.mp hpvc
  have hneeds : needsPVCWorkaround env
      { merged with
        Containers := appendSharedMounts merged.VolumeMounts merged.Containers
        InitContainers := appendSharedMounts merged.VolumeMounts merged.InitContainers } =
      (true, v.Name) := by
    rw [needsPVCWorkaround_eq]
    simp only [hvol]
  have hspec : podSpecOfMerged env workspace merged saName tolerations nodeSelector =
      .panicked "index out of range [0] with length 0" := by
    unfold podSpecOfMerged
    simp only [hneeds, if_true]
    unfold applyPVCWorkaround
    rw [setScheduling_InitContainers, setScheduling_Containers]
    simp only [basePodSpec, l1, l2, appendSharedMounts, List.map_nil]
  rw [getSpecDeployment_of_merge_ok _ _ _ _ _ _ _ merged hmerge, hspec]
  rfl

/-- Witness of C23: a fragment that only brings volumes, one of them with the
alternate PVC name, for a workspace without creator. -/
theorem getSpecDeployment_workaround_index_panics_witness :
    getSpecDeployment sampleEnv noCreatorWorkspace cheVolumeFragments "sa" [] none
        (fun _ _ => none) =
      .panicked "index out of range [0] with length 0" :=
  getSpecDeployment_workaround_index_panics sampleEnv noCreatorWorkspace cheVolumeFragments
    "sa" [] none (fun _ _ => none) (by decide) (by decide) (by decide) (by decide) (by decide)

/-! ## Finalization of a workspace in the `Error` phase -/

/-- C24: for a workspace whose phase is `Error`, `finalize` makes no call (no
status update, no storage cleanup, no service-account cleanup), leaves the
workspace object, with its finalizers and status, as it is and returns the
empty result with no error, whatever finalizers the workspace carries. -/
theorem finalize_error_phase (r : DevWorkspaceReconciler) (workspace : DevWorkspace)
    (hphase : workspace.Status.Phase = .Error) :
    (finalize r workspace).calls = [] ∧
    (finalize r workspace).workspace = workspace ∧
    (finalize r workspace).result = { Requeue := false, RequeueAfter := 0 } ∧
    (finalize r workspace).err = none := by
  unfold finalize
  simp [hphase]

/-- Witness of C24: the workspace carries both cleanup finalizers, so
`workspaceNeedsFinalize` holds, yet nothing is done. -/
theorem finalize_error_phase_witness :
    workspaceNeedsFinalize sampleConstants erroredWorkspace = true ∧
    (finalize sampleReconciler erroredWorkspace).calls = [] ∧
    (finalize sampleReconciler erroredWorkspace).workspace = erroredWorkspace ∧
    (finalize sampleReconciler erroredWorkspace).result =
      { Requeue := false, RequeueAfter := 0 } ∧
    (finalize sampleReconciler erroredWorkspace).err = none :=
  ⟨by decide, finalize_error_phase sampleReconciler erroredWorkspace rfl⟩

end DWO
